import Mathlib

/-!
# Mission Control Terraform provider: conversion and lifecycle layer

A shallow embedding of `pkg/missioncontrol` (provider.go, resource_jpd.go,
resource_license_bucket.go, resource_access_federation_star.go,
resource_access_federation_mesh.go).

Conventions of the embedding

* A Terraform framework value (`types.String`, `types.Set`, `types.Object`, ...)
  is null, unknown or known; `TFValue` carries the three states.  The attribute
  types of every object are fixed by the resource schema, so an object is a
  record of its attribute values; `Attributes()` of a null or unknown object is
  the empty map, and a lookup followed by an unchecked type assertion on it
  panics.
* A Go slice is nil or a backing list (`GoSlice`); `len` is 0 for both nil and
  the empty list, JSON and `SetValueFrom` tell them apart.
* A Go panic is the `none` of an `Option` result.
* `diag.Diagnostics` is a list of diagnostics; `Append` skips duplicates.
* A set value keeps its elements in storage order.  The framework refuses to
  build a set from a Go slice that repeats an element (`Duplicate Set Element`),
  both in `types.SetValueFrom` and in `State.SetAttribute`; the sets it delivers
  in a plan, a configuration or a state hold no repeated element.
* Functions of other modules that the code calls (`util.CheckVersion`, the URL
  validator, the HTTP client, the file system) are parameters of the
  definitions that call them.
* The `go util.SendUsage...` telemetry goroutines are detached from every
  operation and are not part of the embedding.
-/

namespace MissionControl

/-! ## Go and framework values -/

/-- Go slice: `nil`, or a (possibly empty) allocated slice. -/
inductive GoSlice (α : Type) where
  | nil : GoSlice α
  | mk (xs : List α) : GoSlice α
  deriving DecidableEq, Repr

/-- Elements of a slice; `nil` has none. -/
def GoSlice.toList {α : Type} : GoSlice α → List α
  | .nil => []
  | .mk xs => xs

/-- Go `len(s)`. -/
def GoSlice.len {α : Type} (s : GoSlice α) : Nat := s.toList.length

/-- The `lo.Map` helper: always allocates the result (`make([]R, len(c))`). -/
def lo.Map {α β : Type} (c : GoSlice α) (f : α → β) : GoSlice β :=
  .mk (c.toList.map f)

/-- A `float64`; the code only copies such values, so the IEEE-754 bit pattern
stands for the value. -/
structure Float64 where
  bits : Nat
  deriving DecidableEq, Repr

/-- Framework value (`attr.Value`): null, unknown, or known with a payload. -/
inductive TFValue (α : Type) where
  | null : TFValue α
  | unknown : TFValue α
  | value (a : α) : TFValue α
  deriving DecidableEq, Repr

/-- Method `IsNull()`. -/
def TFValue.IsNull {α : Type} : TFValue α → Bool
  | .null => true
  | _ => false

/-- Method `IsUnknown()`. -/
def TFValue.IsUnknown {α : Type} : TFValue α → Bool
  | .unknown => true
  | _ => false

/-- Framework `types.String`. -/
abbrev TFString := TFValue String
/-- Framework `types.Bool`. -/
abbrev TFBool := TFValue Bool
/-- Framework `types.Float64`. -/
abbrev TFFloat64 := TFValue Float64
/-- Framework `types.Int64`. -/
abbrev TFInt64 := TFValue Int
/-- Framework `types.Set`: the stored elements, in storage order. -/
abbrev TFSet (α : Type) := TFValue (List α)
/-- Framework `types.Object` whose attributes are the record `α`. -/
abbrev TFObject (α : Type) := TFValue α

/-- Method `types.String.ValueString()`: the empty string when null or unknown. -/
def TFValue.ValueString : TFString → String
  | .value s => s
  | _ => ""

/-- Method `types.Float64.ValueFloat64()`: zero when null or unknown. -/
def TFValue.ValueFloat64 : TFFloat64 → Float64
  | .value f => f
  | _ => ⟨0⟩

/-- Method `types.Set.Elements()`: no elements when null or unknown. -/
def TFValue.Elements {α : Type} : TFSet α → List α
  | .value xs => xs
  | _ => []

/-- Method `types.Object.Attributes()` followed by lookups with unchecked type
assertions: the attribute record of a known object; on a null or unknown object
the map is empty, every lookup yields a nil interface and the assertion
panics. -/
def TFValue.Attributes {α : Type} : TFObject α → Option α
  | .value a => some a
  | _ => none

/-! ## Diagnostics -/

/-- Severity of a diagnostic. -/
inductive Severity where
  | error
  | warning
  deriving DecidableEq, Repr

/-- One `diag.Diagnostic`: severity, summary, detail. -/
structure Diagnostic where
  severity : Severity
  summary : String
  detail : String
  deriving DecidableEq, Repr

/-- The framework type `diag.Diagnostics`. -/
abbrev Diagnostics := List Diagnostic

/-- Method `Diagnostics.Append`: adds each new diagnostic that is not already there. -/
def Diagnostics.Append (ds : Diagnostics) (new : Diagnostics) : Diagnostics :=
  new.foldl (fun acc d => if d ∈ acc then acc else acc ++ [d]) ds

/-- Method `Diagnostics.AddError(summary, detail)`. -/
def Diagnostics.AddError (ds : Diagnostics) (summary detail : String) : Diagnostics :=
  Diagnostics.Append ds [⟨.error, summary, detail⟩]

/-- Method `Diagnostics.AddWarning(summary, detail)`. -/
def Diagnostics.AddWarning (ds : Diagnostics) (summary detail : String) : Diagnostics :=
  Diagnostics.Append ds [⟨.warning, summary, detail⟩]

/-- Method `Diagnostics.HasError()`. -/
def Diagnostics.HasError (ds : Diagnostics) : Bool :=
  ds.any (fun d => d.severity == .error)

/-- Errors among the diagnostics. -/
def Diagnostics.Errors (ds : Diagnostics) : Diagnostics :=
  ds.filter (fun d => d.severity == .error)

/-- Warnings among the diagnostics. -/
def Diagnostics.Warnings (ds : Diagnostics) : Diagnostics :=
  ds.filter (fun d => d.severity == .warning)

/-- The diagnostic the framework reports when a value cannot be converted into
the Go target (an unknown value, or a null where the target cannot hold one). -/
def valueConversionError : Diagnostic :=
  ⟨.error, "Value Conversion Error", "unhandled null or unknown value"⟩

/-- Known string payload of a set element, if it has one. -/
def knownString : TFString → Option String
  | .value s => some s
  | _ => none

/-- Known string payloads of all elements, if every element has one. -/
def knownStrings : List TFString → Option (List String)
  | [] => some []
  | e :: rest =>
    match knownString e, knownStrings rest with
    | some x, some xs => some (x :: xs)
    | _, _ => none

/-- Method `types.Set.ElementsAs(ctx, &target, false)` for a set of strings and a
`[]string` target that starts out nil: a null set leaves nil; a known set whose
elements are all known fills the target; an unknown set, or a null or unknown
element, yields an error and leaves the target untouched. -/
def ElementsAs (s : TFSet TFString) : GoSlice String × Diagnostics :=
  match s with
  | .null => (.nil, [])
  | .unknown => (.nil, [valueConversionError])
  | .value elems =>
    match knownStrings elems with
    | some xs => (.mk xs, [])
    | none => (.nil, [valueConversionError])

/-- Go `%q` of a text that holds no character to escape (an attribute path, a
plain value): the text between double quotes. -/
def goQuote (s : String) : String :=
  String.singleton (Char.ofNat 34) ++ s ++ String.singleton (Char.ofNat 34)

/-- The error the framework reports for a set that holds the value `x` more
than once.  The detail ends in the framework's rendering of the value, here
`goQuote`. -/
def duplicateSetElement (x : String) : Diagnostic :=
  ⟨.error, "Duplicate Set Element", "This attribute contains duplicate values of: " ++ goQuote x⟩

/-- The duplicate check of the framework's set type: for every position, in
order, the later elements equal to the one at that position. -/
def setDuplicates : List String → List String
  | [] => []
  | x :: rest => rest.filter (fun y => y == x) ++ setDuplicates rest

/-- Function `types.SetValueFrom(ctx, types.StringType, slice)`: a nil slice gives the
null set; a slice that repeats an element gives the unknown set and one
`Duplicate Set Element` error per repeated value; any other slice gives the
known set of its elements. -/
def SetValueFrom (s : GoSlice String) : TFSet TFString × Diagnostics :=
  match s with
  | .nil => (.null, [])
  | .mk xs =>
    let diags := Diagnostics.Append [] ((setDuplicates xs).map duplicateSetElement)
    if diags.HasError then (.unknown, diags) else (.value (xs.map TFValue.value), diags)

/-! ## JPD resource (resource_jpd.go) -/

/-- Wire type `jpdLocationAPIModel`. -/
structure jpdLocationAPIModel where
  CityName : String
  CountryCode : String
  Latitude : Float64
  Longitude : Float64
  deriving DecidableEq, Repr

/-- Wire type `jpdPostRequestAPIModel`. -/
structure jpdPostRequestAPIModel where
  Name : String
  URL : String
  Token : String
  Username : String
  Password : String
  Location : jpdLocationAPIModel
  Tags : GoSlice String
  deriving DecidableEq, Repr

/-- Wire type `jpdLicenseAPIModel`. -/
structure jpdLicenseAPIModel where
  Expired : Bool
  LicenseHash : String
  LicensedTo : String
  Type_ : String
  ValidThrough : String
  deriving DecidableEq, Repr

/-- Wire type `jpdServiceStatusAPIModel`. -/
structure jpdServiceStatusAPIModel where
  Code : String
  deriving DecidableEq, Repr

/-- Wire type `jpdServiceAPIModel`. -/
structure jpdServiceAPIModel where
  Status : jpdServiceStatusAPIModel
  Type_ : String
  deriving DecidableEq, Repr

/-- Wire type `jpdStatusAPIModel`. -/
structure jpdStatusAPIModel where
  Code : String
  Message : String
  Warnings : GoSlice String
  deriving DecidableEq, Repr

/-- Wire type `jpdGetResponseAPIModel`. -/
structure jpdGetResponseAPIModel where
  ID : String
  Name : String
  URL : String
  BaseURL : String
  Location : jpdLocationAPIModel
  Local : Bool
  Licenses : GoSlice jpdLicenseAPIModel
  Services : GoSlice jpdServiceAPIModel
  Status : jpdStatusAPIModel
  Tags : GoSlice String
  IsColdStorage : Bool
  ColdStorageJPD : String
  deriving DecidableEq, Repr

/-- Attributes of the `location` object. -/
structure LocationAttrs where
  city_name : TFString
  country_code : TFString
  latitude : TFFloat64
  longitude : TFFloat64
  deriving DecidableEq, Repr

/-- Attributes of one element of `licenses` (`licenseAttrTypes`). -/
structure LicenseAttrs where
  expired : TFBool
  license_hash : TFString
  licensed_to : TFString
  type : TFString
  valid_through : TFString
  deriving DecidableEq, Repr

/-- Attributes of the `status` object of a service. -/
structure ServiceStatusAttrs where
  code : TFString
  deriving DecidableEq, Repr

/-- Attributes of one element of `services` (`serviceAttrTypes`). -/
structure ServiceAttrs where
  status : TFObject ServiceStatusAttrs
  type : TFString
  deriving DecidableEq, Repr

/-- Attributes of the `status` object of a JPD. -/
structure StatusAttrs where
  code : TFString
  message : TFString
  warnings : TFSet TFString
  deriving DecidableEq, Repr

/-- Terraform model `jpdResourceModel`. -/
structure jpdResourceModel where
  ID : TFString
  Name : TFString
  URL : TFString
  BaseURL : TFString
  Token : TFString
  Username : TFString
  Password : TFString
  Location : TFObject LocationAttrs
  Services : TFSet (TFObject ServiceAttrs)
  Licenses : TFSet (TFObject LicenseAttrs)
  Tags : TFSet TFString
  Local : TFBool
  Status : TFObject StatusAttrs
  IsColdStorage : TFBool
  ColdStorageJPD : TFString
  deriving DecidableEq, Repr

/-- Method `jpdResourceModel.fromAPIModel` (resource_jpd.go 237-358).  The
constructors `types.ObjectValue` and `types.SetValue` are given values of the
declared attribute types and add no diagnostic; `types.SetValueFrom` reports a
repeated status warning or tag, and its errors are appended to the result.  The
result is the updated model and the diagnostics. -/
def jpdResourceModel.fromAPIModel (r : jpdResourceModel) (apiModel : jpdGetResponseAPIModel) :
    jpdResourceModel × Diagnostics :=
  let ds : Diagnostics := []
  let location : TFObject LocationAttrs := .value
    { city_name := .value apiModel.Location.CityName
      country_code := .value apiModel.Location.CountryCode
      latitude := .value apiModel.Location.Latitude
      longitude := .value apiModel.Location.Longitude }
  let licenses := lo.Map apiModel.Licenses (fun license =>
    (TFValue.value
      { expired := .value license.Expired
        license_hash := .value license.LicenseHash
        licensed_to := .value license.LicensedTo
        type := .value license.Type_
        valid_through := .value license.ValidThrough } : TFObject LicenseAttrs))
  let services := lo.Map apiModel.Services (fun service =>
    let status : TFObject ServiceStatusAttrs := .value { code := .value service.Status.Code }
    (TFValue.value { status := status, type := .value service.Type_ } : TFObject ServiceAttrs))
  let warnings := SetValueFrom apiModel.Status.Warnings
  let ds := if warnings.2.HasError then Diagnostics.Append ds warnings.2 else ds
  let status : TFObject StatusAttrs := .value
    { code := .value apiModel.Status.Code
      message := .value apiModel.Status.Message
      warnings := warnings.1 }
  let tags := SetValueFrom apiModel.Tags
  let ds := if tags.2.HasError then Diagnostics.Append ds tags.2 else ds
  let coldStorageJPD : TFString :=
    if apiModel.IsColdStorage then .value apiModel.ColdStorageJPD else .null
  ({ r with
      ID := .value apiModel.ID
      Name := .value apiModel.Name
      URL := .value apiModel.URL
      BaseURL := .value apiModel.BaseURL
      Location := location
      Licenses := .value licenses.toList
      Services := .value services.toList
      Status := status
      Tags := tags.1
      Local := .value apiModel.Local
      IsColdStorage := .value apiModel.IsColdStorage
      ColdStorageJPD := coldStorageJPD }, ds)

/-- Method `jpdResourceModel.toAPIModel` (resource_jpd.go 360-392), with
`util.CheckVersion` as the parameter `CheckVersion`.  `none` is the panic of
the type assertions on the attributes of a null or unknown `location`.  When
the version check fails the error is recorded and `notLegacy` stays false. -/
def jpdResourceModel.toAPIModel (CheckVersion : String → String → Except String Bool)
    (r : jpdResourceModel) (artifactoryVersion : String) :
    Option (jpdPostRequestAPIModel × Diagnostics) :=
  let ds : Diagnostics := []
  let (tags, d) := ElementsAs r.Tags
  let ds := Diagnostics.Append ds d
  match r.Location.Attributes with
  | none => none
  | some locationAttrs =>
    let apiModel : jpdPostRequestAPIModel :=
      { Name := r.Name.ValueString
        URL := r.URL.ValueString
        Token := ""
        Username := ""
        Password := ""
        Location :=
          { CityName := locationAttrs.city_name.ValueString
            CountryCode := locationAttrs.country_code.ValueString
            Latitude := locationAttrs.latitude.ValueFloat64
            Longitude := locationAttrs.longitude.ValueFloat64 }
        Tags := tags }
    let (notLegacy, ds) :=
      match CheckVersion artifactoryVersion "7.0.0" with
      | .ok b => (b, ds)
      | .error err => (false, Diagnostics.AddError ds "faild to check version" err)
    if notLegacy then
      some ({ apiModel with Token := r.Token.ValueString }, ds)
    else
      some ({ apiModel with
                Username := r.Username.ValueString
                Password := r.Password.ValueString }, ds)

/-! ## Strings and versions -/

/-- Pieces of a character list between occurrences of `sep`: one more piece
than there are separators, in order. -/
def splitChars (sep : Char) : List Char → List (List Char)
  | [] => [[]]
  | c :: cs =>
    if c = sep then [] :: splitChars sep cs
    else
      match splitChars sep cs with
      | [] => [[c]]
      | piece :: rest => (c :: piece) :: rest

/-- Go `strings.Split(s, sep)` for a one-character separator. -/
def strings.Split (s : String) (sep : Char) : List String :=
  (splitChars sep s.data).map String.mk

/-- Go `strings.Join(elems, sep)`. -/
def strings.Join (elems : List String) (sep : String) : String :=
  match elems with
  | [] => ""
  | e :: rest => rest.foldl (fun acc x => acc ++ sep ++ x) e

/-- Decimal value of a non-empty list of digits. -/
def parseDecimal (cs : List Char) : Option Nat :=
  if cs ≠ [] ∧ cs.all Char.isDigit then
    some (cs.foldl (fun acc c => 10 * acc + (c.toNat - 48)) 0)
  else none

/-- Segment-wise comparison `a ≥ b` of two versions, missing segments being
zero. -/
def versionGE : List Nat → List Nat → Bool
  | [], ys => ys.all (fun y => y == 0)
  | _ :: _, [] => true
  | x :: xs, y :: ys => if x = y then versionGE xs ys else decide (y < x)

/-- Reference instance of the `CheckVersion` parameter on plain dotted-decimal
versions such as `7.77.3`, the common subset of what `util.CheckVersion`
parses; any other text is reported as unparsable. -/
def checkVersionDotted (ver req : String) : Except String Bool :=
  match (splitChars '.' ver.data).mapM parseDecimal,
        (splitChars '.' req.data).mapM parseDecimal with
  | some a, some b => .ok (versionGE a b)
  | _, _ => .error ("could not parse version (" ++ ver ++ ")")

/-- Reference instance of the URL validator parameter: the text starts with
`http://` or `https://`. -/
def hasHttpScheme (s : String) : Bool :=
  "http://".data.isPrefixOf s.data || "https://".data.isPrefixOf s.data

/-! ## Provider root (provider.go) -/

/-- What a resource constructor returns, as far as the provider root is
concerned: the resource with its `TypeName`. -/
structure Resource where
  TypeName : String
  deriving DecidableEq, Repr

/-- Constructor `NewJPDResource` (resource_jpd.go 33-37). -/
def NewJPDResource : Unit → Resource := fun _ => { TypeName := "missioncontrol_jpd" }

/-- Constructor `NewLicenseBucketResource` (resource_license_bucket.go 38-42). -/
def NewLicenseBucketResource : Unit → Resource :=
  fun _ => { TypeName := "missioncontrol_license_bucket" }

/-- Constructor `NewAccessFederationStarResource`
(resource_access_federation_star.go 32-36). -/
def NewAccessFederationStarResource : Unit → Resource :=
  fun _ => { TypeName := "missioncontrol_access_federation_star" }

/-- Constructor `NewAccessFederationMeshResource`
(resource_access_federation_mesh.go 34-38). -/
def NewAccessFederationMeshResource : Unit → Resource :=
  fun _ => { TypeName := "missioncontrol_access_federation_mesh" }

/-- Method `MissionControlProvider.Resources` (provider.go 147-152): the
constructors the provider registers. -/
def MissionControlProvider.Resources : List (Unit → Resource) :=
  [NewLicenseBucketResource, NewJPDResource]

/-- Type names of the resources the provider registers. -/
def MissionControlProvider.ResourceTypeNames : List String :=
  MissionControlProvider.Resources.map (fun construct => (construct ()).TypeName)

/-! ## Schema validators

The validators of `terraform-plugin-framework-validators` the schemas use.
Each returns the diagnostics it adds for one attribute.  A configuration is
accepted when validation adds no error. -/

/-- State of a configuration value as the cross-attribute validators see it. -/
inductive ValueState where
  | null
  | unknown
  | known
  deriving DecidableEq, Repr

/-- State of a framework value. -/
def TFValue.state {α : Type} : TFValue α → ValueState
  | .null => .null
  | .unknown => .unknown
  | .value _ => .known

/-- The framework check of a `Required` attribute: a null configuration value is
an error. -/
def Required (attrName : String) (st : ValueState) : Diagnostics :=
  if st = .null then
    [⟨.error, "Missing Configuration for Required Attribute",
      "Must set a configuration value for the " ++ attrName ++ " attribute"⟩]
  else []

/-- Validator `stringvalidator.LengthAtLeast(n)`: skips null and unknown values;
the length is the Go `len` of the string, its UTF-8 byte count. -/
def LengthAtLeast (n : Nat) (attrName : String) (v : TFString) : Diagnostics :=
  match v with
  | .value s =>
    if s.utf8ByteSize < n then
      [⟨.error, "Invalid Attribute Value Length",
        "Attribute " ++ attrName ++ " string length must be at least " ++ toString n⟩]
    else []
  | _ => []

/-- Validator `stringvalidator.LengthBetween(lo, hi)`. -/
def LengthBetween (lo hi : Nat) (attrName : String) (v : TFString) : Diagnostics :=
  match v with
  | .value s =>
    if s.utf8ByteSize < lo ∨ hi < s.utf8ByteSize then
      [⟨.error, "Invalid Attribute Value Length",
        "Attribute " ++ attrName ++ " string length must be between " ++ toString lo ++
          " and " ++ toString hi⟩]
    else []
  | _ => []

/-- Validator built from a predicate on the known string (the URL validator
`IsURLHttpOrHttps` and `stringvalidator.RegexMatches`): skips null and unknown
values. -/
def StringMatches (ok : String → Bool) (attrName message : String) (v : TFString) :
    Diagnostics :=
  match v with
  | .value s =>
    if ok s then []
    else [⟨.error, "Invalid Attribute Value Match", "Attribute " ++ attrName ++ " " ++ message⟩]
  | _ => []

/-- The loop of `ConflictsWith` over the other attributes: an unknown value
delays validation (returns what was found so far), a non-null one is an
error. -/
def ConflictsWith.loop (attrName : String) :
    List (String × ValueState) → Diagnostics → Diagnostics
  | [], acc => acc
  | (other, st) :: rest, acc =>
    match st with
    | .unknown => acc
    | .null => ConflictsWith.loop attrName rest acc
    | .known =>
      ConflictsWith.loop attrName rest
        (Diagnostics.Append acc
          [⟨.error, "Invalid Attribute Combination",
            "Attribute " ++ goQuote other ++ " cannot be specified when " ++
              goQuote attrName ++ " is specified"⟩])

/-- Validator `stringvalidator.ConflictsWith(paths...)` on attribute `attrName`:
nothing to validate when the attribute itself is null. -/
def ConflictsWith (attrName : String) (self : ValueState)
    (others : List (String × ValueState)) : Diagnostics :=
  if self = .null then [] else ConflictsWith.loop attrName others []

/-- The loop of `AlsoRequires` over the other attributes: an unknown value
delays validation, a null one is an error. -/
def AlsoRequires.loop (attrName : String) :
    List (String × ValueState) → Diagnostics → Diagnostics
  | [], acc => acc
  | (other, st) :: rest, acc =>
    match st with
    | .unknown => acc
    | .known => AlsoRequires.loop attrName rest acc
    | .null =>
      AlsoRequires.loop attrName rest
        (Diagnostics.Append acc
          [⟨.error, "Invalid Attribute Combination",
            "Attribute " ++ goQuote other ++ " must be specified when " ++
              goQuote attrName ++ " is specified"⟩])

/-- Validator `stringvalidator.AlsoRequires(paths...)` on attribute `attrName`. -/
def AlsoRequires (attrName : String) (self : ValueState)
    (others : List (String × ValueState)) : Diagnostics :=
  if self = .null then [] else AlsoRequires.loop attrName others []

/-- Go regexp `^.+/$`: the text ends in a slash that at least one character
precedes, and no character before that slash is a line feed. -/
def endsInSlash (s : String) : Bool :=
  match s.data.reverse with
  | [] => false
  | c :: before => c == '/' && !before.isEmpty && before.all (fun b => b != Char.ofNat 10)

/-! ### JPD schema (resource_jpd.go 43-192) -/

/-- Validation of `name`. -/
def jpdResource.validateName (c : jpdResourceModel) : Diagnostics :=
  Required "name" c.Name.state ++ LengthAtLeast 1 "name" c.Name

/-- Validation of `url`, with the URL validator of the shared module as the
parameter `IsURLHttpOrHttps`. -/
def jpdResource.validateURL (IsURLHttpOrHttps : String → Bool) (c : jpdResourceModel) :
    Diagnostics :=
  Required "url" c.URL.state ++
    StringMatches IsURLHttpOrHttps "url" "must be a valid URL with host and http or https scheme"
      c.URL ++
    StringMatches endsInSlash "url" "must end in /" c.URL

/-- Validation of `token`. -/
def jpdResource.validateToken (c : jpdResourceModel) : Diagnostics :=
  LengthAtLeast 1 "token" c.Token ++
    ConflictsWith "token" c.Token.state
      [("username", c.Username.state), ("password", c.Password.state)]

/-- Validation of `username`. -/
def jpdResource.validateUsername (c : jpdResourceModel) : Diagnostics :=
  LengthAtLeast 1 "username" c.Username ++
    AlsoRequires "username" c.Username.state [("password", c.Password.state)] ++
    ConflictsWith "username" c.Username.state [("url", c.URL.state)]

/-- Validation of `password`. -/
def jpdResource.validatePassword (c : jpdResourceModel) : Diagnostics :=
  LengthAtLeast 1 "password" c.Password ++
    AlsoRequires "password" c.Password.state [("username", c.Username.state)] ++
    ConflictsWith "password" c.Password.state [("url", c.URL.state)]

/-- Validation of `location` and, when it is known, of its nested attributes. -/
def jpdResource.validateLocation (c : jpdResourceModel) : Diagnostics :=
  Required "location" c.Location.state ++
    match c.Location with
    | .value l =>
      Required "city_name" l.city_name.state ++ LengthAtLeast 1 "city_name" l.city_name ++
        Required "country_code" l.country_code.state ++
        LengthBetween 2 2 "country_code" l.country_code ++
        Required "latitude" l.latitude.state ++ Required "longitude" l.longitude.state
    | _ => []

/-- Validation of a JPD configuration against the schema of
`jpdResource.Schema`: the diagnostics of all attribute validators.  The
framework visits the attribute map in no fixed order; acceptance does not
depend on it. -/
def jpdResource.ValidateConfig (IsURLHttpOrHttps : String → Bool) (c : jpdResourceModel) :
    Diagnostics :=
  jpdResource.validateName c ++ jpdResource.validateURL IsURLHttpOrHttps c ++
    jpdResource.validateToken c ++ jpdResource.validateUsername c ++
    jpdResource.validatePassword c ++ jpdResource.validateLocation c

/-! ### Sample JPD configurations -/

/-- The location of the acceptance test `TestAccJpd_full`; latitude and
longitude are the bit patterns of 37.7749 and 122.4194. -/
def sampleLocation : LocationAttrs :=
  { city_name := .value "San Francisco"
    country_code := .value "US"
    latitude := .value ⟨4630513161858373072⟩
    longitude := .value ⟨4638314916377853008⟩ }

/-- The configuration of `TestAccJpd_full`: name, url, token, location, tags;
every computed attribute is null. -/
def sampleJPD : jpdResourceModel :=
  { ID := .null
    Name := .value "test-jpd"
    URL := .value "http://host.docker.internal:9082/"
    BaseURL := .null
    Token := .value "join-key"
    Username := .null
    Password := .null
    Location := .value sampleLocation
    Services := .null
    Licenses := .null
    Tags := .value [.value "prod", .value "dev"]
    Local := .null
    Status := .null
    IsColdStorage := .null
    ColdStorageJPD := .null }

/-- A legacy (Artifactory 6.x) model: username and password, no token. -/
def sampleLegacyJPD : jpdResourceModel :=
  { sampleJPD with
      URL := .value "http://myv6server:8081/artifactory/"
      Token := .null
      Username := .value "admin"
      Password := .value "secret" }

/-- The sample configuration without any credential. -/
def sampleJPDNoCredentials : jpdResourceModel :=
  { sampleJPD with Token := .null }

/-! ## Access federation, star topology (resource_access_federation_star.go) -/

/-- Wire type `accessFederationPermissionFiltersAPIModel`. -/
structure accessFederationPermissionFiltersAPIModel where
  IncludePatterns : GoSlice String
  ExcludePatterns : GoSlice String
  deriving DecidableEq, Repr

/-- Wire type `accessFederationTargetAPIModel`. -/
structure accessFederationTargetAPIModel where
  ID : String
  URL : String
  PermissionFilters : accessFederationPermissionFiltersAPIModel
  deriving DecidableEq, Repr

/-- Wire type `accessFederationRequestAPIModel`. -/
structure accessFederationRequestAPIModel where
  ID : String
  Entities : GoSlice String
  Targets : GoSlice accessFederationTargetAPIModel
  deriving DecidableEq, Repr

/-- Wire type `accessFederationResponseAPIModel`. -/
structure accessFederationResponseAPIModel where
  Label : String
  Status : String
  deriving DecidableEq, Repr

/-- Wire type `accessFederationGetResponseAPIModel`. -/
structure accessFederationGetResponseAPIModel where
  Entities : GoSlice String
  Targets : GoSlice accessFederationTargetAPIModel
  deriving DecidableEq, Repr

/-- Attributes of `permission_filters` (`permissionFilterAttributeTypes`). -/
structure PermissionFilterAttrs where
  include_patterns : TFSet TFString
  exclude_patterns : TFSet TFString
  deriving DecidableEq, Repr

/-- Attributes of one element of `targets` (`targetAttributeTypes`). -/
structure TargetAttrs where
  id : TFString
  url : TFString
  permission_filters : TFObject PermissionFilterAttrs
  deriving DecidableEq, Repr

/-- Terraform model `accessFederationStarResourceModel`. -/
structure accessFederationStarResourceModel where
  ID : TFString
  Entities : TFSet TFString
  Targets : TFSet (TFObject TargetAttrs)
  deriving DecidableEq, Repr

/-- The pattern set `fromAPIModel` builds from a wire list, with the
diagnostics of the conversion: null unless the list has an element
(`len(...) > 0`), else what `types.SetValueFrom` makes of the list. -/
def accessFederationStarResourceModel.fromAPIModel.patterns (wire : GoSlice String) :
    TFSet TFString × Diagnostics :=
  if 0 < wire.len then SetValueFrom wire else (.null, [])

/-- The closure `fromAPIModel` maps over the response targets
(resource_access_federation_star.go 133-176), threading the diagnostics `ds` it
appends to: the errors of the two pattern conversions. -/
def accessFederationStarResourceModel.fromAPIModel.target
    (target : accessFederationTargetAPIModel) (ds : Diagnostics) :
    TFObject TargetAttrs × Diagnostics :=
  let includePatterns :=
    accessFederationStarResourceModel.fromAPIModel.patterns target.PermissionFilters.IncludePatterns
  let ds := if includePatterns.2.HasError then Diagnostics.Append ds includePatterns.2 else ds
  let excludePatterns :=
    accessFederationStarResourceModel.fromAPIModel.patterns target.PermissionFilters.ExcludePatterns
  let ds := if excludePatterns.2.HasError then Diagnostics.Append ds excludePatterns.2 else ds
  let permissionFilters : TFObject PermissionFilterAttrs :=
    .value { include_patterns := includePatterns.1, exclude_patterns := excludePatterns.1 }
  (.value
    { id := .value target.ID
      url := .value target.URL
      permission_filters := permissionFilters }, ds)

/-- The `lo.Map` of `fromAPIModel` over the response targets, in order, with the
diagnostics the closure has appended to. -/
def accessFederationStarResourceModel.fromAPIModel.targets :
    List accessFederationTargetAPIModel → Diagnostics →
      List (TFObject TargetAttrs) × Diagnostics
  | [], ds => ([], ds)
  | target :: rest, ds =>
    let t := accessFederationStarResourceModel.fromAPIModel.target target ds
    let ts := accessFederationStarResourceModel.fromAPIModel.targets rest t.2
    (t.1 :: ts.1, ts.2)

/-- Method `accessFederationStarResourceModel.fromAPIModel`
(resource_access_federation_star.go 127-192).  `types.SetValue` stores the
mapped elements as they are and `types.ObjectValue` gets values of the declared
types: neither adds a diagnostic.  `types.SetValueFrom` reports a repeated
pattern or entity, and its errors are appended to the result. -/
def accessFederationStarResourceModel.fromAPIModel (r : accessFederationStarResourceModel)
    (apiModel : accessFederationGetResponseAPIModel) :
    accessFederationStarResourceModel × Diagnostics :=
  let ds : Diagnostics := []
  let mapped :=
    if 0 < apiModel.Targets.len then
      accessFederationStarResourceModel.fromAPIModel.targets apiModel.Targets.toList ds
    else ([], ds)
  let targets : TFSet (TFObject TargetAttrs) :=
    if 0 < apiModel.Targets.len then .value mapped.1 else .null
  let ds := mapped.2
  let entities := SetValueFrom apiModel.Entities
  let ds := if entities.2.HasError then Diagnostics.Append ds entities.2 else ds
  ({ r with Targets := targets, Entities := entities.1 }, ds)

/-- The closure `toAPIModel` maps over the elements of `targets`
(resource_access_federation_star.go 202-227), threading the diagnostics it
appends to.  `none` is the panic of an unchecked type assertion: on the
attributes of a null or unknown element, and on the attributes of a null or
unknown `permission_filters`. -/
def accessFederationStarResourceModel.toAPIModel.target (elem : TFObject TargetAttrs)
    (ds : Diagnostics) : Option (accessFederationTargetAPIModel × Diagnostics) :=
  match elem.Attributes with
  | none => none
  | some attrs =>
    match attrs.permission_filters.Attributes with
    | none => none
    | some permissionFiltersAttrs =>
      let (includePatterns, d) := ElementsAs permissionFiltersAttrs.include_patterns
      let ds := if d.HasError then Diagnostics.Append ds d else ds
      let (excludePatterns, d) := ElementsAs permissionFiltersAttrs.exclude_patterns
      let ds := if d.HasError then Diagnostics.Append ds d else ds
      some
        ({ ID := attrs.id.ValueString
           URL := attrs.url.ValueString
           PermissionFilters :=
             { IncludePatterns := includePatterns, ExcludePatterns := excludePatterns } }, ds)

/-- The `lo.Map` of `toAPIModel` over the target elements, in order; a panic in
one element ends the whole conversion. -/
def accessFederationStarResourceModel.toAPIModel.targets :
    List (TFObject TargetAttrs) → Diagnostics →
      Option (List accessFederationTargetAPIModel × Diagnostics)
  | [], ds => some ([], ds)
  | elem :: rest, ds =>
    match accessFederationStarResourceModel.toAPIModel.target elem ds with
    | none => none
    | some (t, ds) =>
      match accessFederationStarResourceModel.toAPIModel.targets rest ds with
      | none => none
      | some (ts, ds) => some (t :: ts, ds)

/-- Method `accessFederationStarResourceModel.toAPIModel`
(resource_access_federation_star.go 194-237); `none` is a panic. -/
def accessFederationStarResourceModel.toAPIModel (r : accessFederationStarResourceModel) :
    Option (accessFederationRequestAPIModel × Diagnostics) :=
  let ds : Diagnostics := []
  let (entities, d) := ElementsAs r.Entities
  let ds := Diagnostics.Append ds d
  match accessFederationStarResourceModel.toAPIModel.targets r.Targets.Elements ds with
  | none => none
  | some (targets, ds) =>
    some ({ ID := r.ID.ValueString, Entities := entities, Targets := .mk targets }, ds)

/-- The star round trip: `toAPIModel`, then `fromAPIModel` applied (to a model
`r`) on a response that carries the entities and targets of the request. -/
def accessFederationStarResourceModel.roundTrip (r x : accessFederationStarResourceModel) :
    Option accessFederationStarResourceModel :=
  match x.toAPIModel with
  | none => none
  | some (request, _) =>
    some (r.fromAPIModel { Entities := request.Entities, Targets := request.Targets }).1

/-- What the round trip does to a pattern set: an empty set comes back null. -/
def normalizePatterns : TFSet TFString → TFSet TFString
  | .value [] => .null
  | s => s

/-- What the round trip does to a target with a `permission_filters` object. -/
def normalizeTarget : TFObject TargetAttrs → TFObject TargetAttrs
  | .value { id := i, url := u, permission_filters := .value pf } =>
    .value
      { id := i
        url := u
        permission_filters := .value
          { include_patterns := normalizePatterns pf.include_patterns
            exclude_patterns := normalizePatterns pf.exclude_patterns } }
  | t => t

/-- A set of strings that `ElementsAs` converts without error: null, or known
with known elements. -/
def convertibleSet : TFSet TFString → Prop
  | .null => True
  | .unknown => False
  | .value elems => ∀ e ∈ elems, e.state = .known

instance convertibleSet.decidable (s : TFSet TFString) : Decidable (convertibleSet s) :=
  match s with
  | .null => isTrue trivial
  | .unknown => isFalse (fun h => h)
  | .value elems => inferInstanceAs (Decidable (∀ e ∈ elems, e.state = .known))

/-- A set of strings as a plan, a configuration or a state holds it: null, or
known with known elements, and, being a set, without a repeated element. -/
def planSet (s : TFSet TFString) : Prop :=
  convertibleSet s ∧ s.Elements.Nodup

instance planSet.decidable (s : TFSet TFString) : Decidable (planSet s) :=
  inferInstanceAs (Decidable (convertibleSet s ∧ s.Elements.Nodup))

/-- A target as the schema admits it with a `permission_filters` object
present: known, `id` and `url` known (both are required), pattern sets null or
known with known elements, none repeated. -/
def targetWithFilters : TFObject TargetAttrs → Prop
  | .value { id := i, url := u, permission_filters := .value pf } =>
    i.state = .known ∧ u.state = .known ∧
      planSet pf.include_patterns ∧ planSet pf.exclude_patterns
  | _ => False

/-! ### Sample star models -/

/-- The target of the updated configuration of `TestAccAccessFederationStar_full`:
include patterns only. -/
def sampleTarget : TFObject TargetAttrs :=
  .value
    { id := .value "JPD-2"
      url := .value "http://host.docker.internal:9082/access"
      permission_filters := .value
        { include_patterns := .value [.value "foo"], exclude_patterns := .null } }

/-- The updated configuration of `TestAccAccessFederationStar_full`. -/
def sampleStar : accessFederationStarResourceModel :=
  { ID := .value "JPD-1"
    Entities := .value [.value "USERS", .value "GROUPS", .value "PERMISSIONS"]
    Targets := .value [sampleTarget] }

/-- The same configuration with `permission_filters` left out of the target,
which the schema allows (the attribute is optional). -/
def sampleStarNoFilters : accessFederationStarResourceModel :=
  { sampleStar with
      Targets := .value
        [.value
          { id := .value "JPD-2"
            url := .value "http://host.docker.internal:9082/access"
            permission_filters := .null }] }

/-- The same configuration with an empty `include_patterns` set. -/
def sampleStarEmptyPatterns : accessFederationStarResourceModel :=
  { sampleStar with
      Targets := .value
        [.value
          { id := .value "JPD-2"
            url := .value "http://host.docker.internal:9082/access"
            permission_filters := .value
              { include_patterns := .value [], exclude_patterns := .null } }] }

/-- A response in which the same target occurs twice. -/
def sampleStarResponseRepeated : accessFederationGetResponseAPIModel :=
  { Entities := .mk ["USERS"]
    Targets := .mk
      [{ ID := "JPD-2", URL := "http://host.docker.internal:9082/access",
         PermissionFilters := { IncludePatterns := .mk ["foo"], ExcludePatterns := .nil } },
       { ID := "JPD-2", URL := "http://host.docker.internal:9082/access",
         PermissionFilters := { IncludePatterns := .mk ["foo"], ExcludePatterns := .nil } }] }

/-- A response with two targets that differ only in how the absence of exclude
patterns is written: a nil list and an empty list. -/
def sampleStarResponseNilAndEmpty : accessFederationGetResponseAPIModel :=
  { Entities := .mk ["USERS"]
    Targets := .mk
      [{ ID := "JPD-2", URL := "http://host.docker.internal:9082/access",
         PermissionFilters := { IncludePatterns := .mk ["foo"], ExcludePatterns := .nil } },
       { ID := "JPD-2", URL := "http://host.docker.internal:9082/access",
         PermissionFilters := { IncludePatterns := .mk ["foo"], ExcludePatterns := .mk [] } }] }

/-- A response whose only target repeats the include pattern `foo`. -/
def sampleStarResponseRepeatedPattern : accessFederationGetResponseAPIModel :=
  { Entities := .mk ["USERS"]
    Targets := .mk
      [{ ID := "JPD-2", URL := "http://host.docker.internal:9082/access",
         PermissionFilters :=
           { IncludePatterns := .mk ["foo", "foo"], ExcludePatterns := .nil } }] }

/-! ## Access federation, mesh topology (resource_access_federation_mesh.go) -/

/-- Terraform model `accessFederationMeshResourceModel`. -/
structure accessFederationMeshResourceModel where
  ID : TFString
  IDs : TFSet TFString
  Entities : TFSet TFString
  deriving DecidableEq, Repr

/-- Wire type `accessFederationMeshRequestAPIModel`. -/
structure accessFederationMeshRequestAPIModel where
  IDs : GoSlice String
  Entities : GoSlice String
  deriving DecidableEq, Repr

/-- The part of `resource.ImportStateResponse` the code touches: diagnostics
and the state being built, one field per schema attribute. -/
structure meshImportStateResponse where
  Diagnostics : Diagnostics
  State : accessFederationMeshResourceModel
  deriving DecidableEq, Repr

/-- The response the framework hands to `ImportState`: no diagnostics and a
state in which every attribute is null. -/
def meshImportStateResponse.fresh : meshImportStateResponse :=
  { Diagnostics := [], State := { ID := .null, IDs := .null, Entities := .null } }

/-- Method `State.SetAttribute(ctx, path.Root("ids"), parts)` on the mesh state,
for a `[]string`: the slice is converted to the set type of the attribute as
`types.SetValueFrom` does; on an error of the conversion the attribute is left
as it was and the errors are returned, else the set is stored. -/
def meshState.SetAttribute.ids (state : accessFederationMeshResourceModel)
    (parts : List String) : accessFederationMeshResourceModel × Diagnostics :=
  let converted := SetValueFrom (.mk parts)
  if converted.2.HasError then (state, converted.2)
  else ({ state with IDs := converted.1 }, converted.2)

/-- Method `accessFederationMeshResource.ImportState`
(resource_access_federation_mesh.go 336-349), on the identifier `reqID` and the
response `resp` it fills in.  `State.SetAttribute` of the string attribute `id`
stores the text and adds no diagnostic; the diagnostics of both calls are
appended to the response. -/
def accessFederationMeshResource.ImportState (reqID : String) (resp : meshImportStateResponse) :
    meshImportStateResponse :=
  let parts := strings.Split reqID ':'
  if parts.length ≤ 1 then
    { resp with
        Diagnostics := Diagnostics.AddError resp.Diagnostics
          "Unexpected Import Identifier"
          "Expected at least one JPD ID in the form of: jpd_id_1:jpd_id_2:..." }
  else
    let resp : meshImportStateResponse :=
      { Diagnostics := Diagnostics.Append resp.Diagnostics []
        State := { resp.State with ID := .value reqID } }
    let stored := meshState.SetAttribute.ids resp.State parts
    { Diagnostics := Diagnostics.Append resp.Diagnostics stored.2, State := stored.1 }

/-! ## License bucket (resource_license_bucket.go) -/

/-- Terraform model `licenseBucketResourceModel`. -/
structure licenseBucketResourceModel where
  ID : TFString
  Name : TFString
  URL : TFString
  File : TFString
  Key : TFString
  Subject : TFString
  ProductName : TFString
  ProductID : TFInt64
  LicenseType : TFString
  IssuedDate : TFString
  ValidDate : TFString
  Signature : TFString
  Quantity : TFInt64
  Used : TFInt64
  deriving DecidableEq, Repr

/-- Wire type `licenseBucketPostRequestAPIModel`. -/
structure licenseBucketPostRequestAPIModel where
  Name : String
  URL : String
  Key : String
  deriving DecidableEq, Repr

/-- Wire type `licenseBucketPostResponseAPIModel`. -/
structure licenseBucketPostResponseAPIModel where
  ID : String
  Subject : String
  ProductName : String
  ProductID : Int
  LicenseType : String
  IssuedDate : String
  ValidDate : String
  Quantity : Int
  Signature : String
  Name : String
  Used : Int
  URL : String
  deriving DecidableEq, Repr

/-- Wire type `licenseBucketGetAPIModel`. -/
structure licenseBucketGetAPIModel where
  Identifier : String
  Name : String
  Size : Int
  Type_ : String
  deriving DecidableEq, Repr

/-- Method `licenseBucketResourceModel.fromAPIModel`
(resource_license_bucket.go 152-166). -/
def licenseBucketResourceModel.fromAPIModel (r : licenseBucketResourceModel)
    (apiModel : licenseBucketPostResponseAPIModel) : licenseBucketResourceModel × Diagnostics :=
  ({ r with
      ID := .value apiModel.ID
      Name := .value apiModel.Name
      Subject := .value apiModel.Subject
      ProductName := .value apiModel.ProductName
      ProductID := .value apiModel.ProductID
      LicenseType := .value apiModel.LicenseType
      IssuedDate := .value apiModel.IssuedDate
      ValidDate := .value apiModel.ValidDate
      Quantity := .value apiModel.Quantity
      Signature := .value apiModel.Signature
      Used := .value apiModel.Used }, [])

/-! ### License bucket schema (resource_license_bucket.go 48-133) -/

/-- Validation of `name`. -/
def licenseBucketResource.validateName (c : licenseBucketResourceModel) : Diagnostics :=
  Required "name" c.Name.state ++ LengthAtLeast 1 "name" c.Name

/-- Validation of `url`, with the URL validator of the shared module as the
parameter `IsURLHttpOrHttps`. -/
def licenseBucketResource.validateURL (IsURLHttpOrHttps : String → Bool)
    (c : licenseBucketResourceModel) : Diagnostics :=
  StringMatches IsURLHttpOrHttps "url" "must be a valid URL with host and http or https scheme"
      c.URL ++
    ConflictsWith "url" c.URL.state [("file", c.File.state)]

/-- Validation of `file`. -/
def licenseBucketResource.validateFile (c : licenseBucketResourceModel) : Diagnostics :=
  LengthAtLeast 1 "file" c.File ++ ConflictsWith "file" c.File.state [("url", c.URL.state)]

/-- Validation of `key`. -/
def licenseBucketResource.validateKey (c : licenseBucketResourceModel) : Diagnostics :=
  Required "key" c.Key.state ++ LengthAtLeast 1 "key" c.Key

/-- Validation of a license-bucket configuration against the schema of
`licenseBucketResource.Schema`: the diagnostics of all attribute validators. -/
def licenseBucketResource.ValidateConfig (IsURLHttpOrHttps : String → Bool)
    (c : licenseBucketResourceModel) : Diagnostics :=
  licenseBucketResource.validateName c ++
    licenseBucketResource.validateURL IsURLHttpOrHttps c ++
    licenseBucketResource.validateFile c ++ licenseBucketResource.validateKey c

/-! ## HTTP client

The resty client is a parameter of every lifecycle operation: a function from
the request to what the call yields.  Each operation returns, next to its
response, the requests it issued, in order. -/

/-- Body of a request. -/
inductive RequestBody where
  | none
  | jpd (body : jpdPostRequestAPIModel)
  | licenseBucket (body : licenseBucketPostRequestAPIModel)
  | multipart (fieldName fileName contentType : String) (content : List Nat)
      (formData : List (String × String))
  | accessFederation (body : accessFederationRequestAPIModel)
  | accessFederationMesh (body : accessFederationMeshRequestAPIModel)
  deriving DecidableEq, Repr

/-- One request of the resty client. -/
structure Request where
  method : String
  endpoint : String
  pathParams : List (String × String)
  queryParams : List (String × String)
  body : RequestBody
  deriving DecidableEq, Repr

/-- What a call of the client yields: a transport error (`err != nil`), or a
response with its status code, its body text (`response.String()`) and the
value the `SetResult` target holds after the call. -/
inductive HTTPOutcome (R : Type) where
  | transportError (err : String)
  | response (statusCode : Nat) (body : String) (result : R)
  deriving DecidableEq, Repr

/-- Method `resty.Response.IsError()`: status code above 399. -/
def IsError (statusCode : Nat) : Bool := decide (399 < statusCode)

/-- The part of `resource.CreateResponse` the code touches; `State` is `none`
until `State.Set` stores a model. -/
structure CreateResponse (M : Type) where
  Diagnostics : Diagnostics
  State : Option M
  deriving DecidableEq, Repr

/-- The response the framework hands to `Create`. -/
def CreateResponse.fresh {M : Type} : CreateResponse M := { Diagnostics := [], State := none }

/-- Helper `utilfw.UnableToCreateResourceError` of the shared module: an error
whose detail ends in the given text. -/
def UnableToCreateResourceError {M : Type} (resp : CreateResponse M) (err : String) :
    CreateResponse M :=
  { resp with
      Diagnostics := Diagnostics.AddError resp.Diagnostics "Unable to Create Resource"
        ("An unexpected error occurred while creating the resource. " ++
          "Please report this issue to the provider developers.\n\nError: " ++ err) }

/-- Go `filepath.Base` with the slash as separator. -/
def filepath.Base (path : String) : String :=
  if path = "" then "."
  else
    let stripped := path.data.reverse.dropWhile (fun c => c == '/')
    let last := stripped.takeWhile (fun c => c != '/')
    if last = [] then "/" else String.mk last.reverse

/-- Endpoint constant `licenseBucketsEndpoint`. -/
def licenseBucketsEndpoint : String := "mc/api/v1/buckets"

/-- The end of `licenseBucketResource.Create` (resource_license_bucket.go
257-274) once the call has been made: error handling, conversion, state. -/
def licenseBucketResource.Create.finish (resp : CreateResponse licenseBucketResourceModel)
    (plan : licenseBucketResourceModel)
    (outcome : HTTPOutcome licenseBucketPostResponseAPIModel) :
    CreateResponse licenseBucketResourceModel :=
  match outcome with
  | .transportError err => UnableToCreateResourceError resp err
  | .response statusCode body result =>
    if IsError statusCode then UnableToCreateResourceError resp body
    else
      let (plan, d) := plan.fromAPIModel result
      let resp := { resp with Diagnostics := Diagnostics.Append resp.Diagnostics d }
      if resp.Diagnostics.HasError then resp
      else { resp with State := some plan }

/-- Method `licenseBucketResource.Create` (resource_license_bucket.go 204-275)
on the plan read by `req.Plan.Get`, with the file system (`os.ReadFile`) and the
client as parameters.  Returns the response and the requests issued. -/
def licenseBucketResource.Create (ReadFile : String → Except String (List Nat))
    (client : Request → HTTPOutcome licenseBucketPostResponseAPIModel)
    (plan : licenseBucketResourceModel) (resp : CreateResponse licenseBucketResourceModel) :
    CreateResponse licenseBucketResourceModel × List Request :=
  if 0 < plan.URL.ValueString.utf8ByteSize then
    let license : licenseBucketPostRequestAPIModel :=
      { Name := plan.Name.ValueString, URL := plan.URL.ValueString, Key := plan.Key.ValueString }
    let request : Request :=
      { method := "POST", endpoint := licenseBucketsEndpoint, pathParams := [],
        queryParams := [], body := .licenseBucket license }
    (licenseBucketResource.Create.finish resp plan (client request), [request])
  else
    match ReadFile plan.File.ValueString with
    | .error err => (UnableToCreateResourceError resp err, [])
    | .ok fileBytes =>
      let request : Request :=
        { method := "POST", endpoint := licenseBucketsEndpoint, pathParams := [],
          queryParams := []
          body := .multipart "file" (filepath.Base plan.File.ValueString)
            "application/octet-stream" fileBytes
            [("name", plan.Name.ValueString), ("key", plan.Key.ValueString)] }
      (licenseBucketResource.Create.finish resp plan (client request), [request])

/-! ### Sample license-bucket configurations -/

/-- The configuration of `TestAccLicenseBucket_url`. -/
def sampleBucketURL : licenseBucketResourceModel :=
  { ID := .null, Name := .value "test-license-bucket"
    URL := .value "https://bucket.example.com/signed", File := .null, Key := .value "secret-key"
    Subject := .null, ProductName := .null, ProductID := .null, LicenseType := .null
    IssuedDate := .null, ValidDate := .null, Signature := .null, Quantity := .null
    Used := .null }

/-- A configuration with both `url` and `file`. -/
def sampleBucketBoth : licenseBucketResourceModel :=
  { sampleBucketURL with File := .value "/tmp/bucket.enc" }

/-- A configuration with neither `url` nor `file`. -/
def sampleBucketNeither : licenseBucketResourceModel :=
  { sampleBucketURL with URL := .null }

/-- A file system in which no file can be read. -/
def noFiles : String → Except String (List Nat) :=
  fun name => .error ("open " ++ name ++ ": no such file or directory")

/-- A remote that answers every call with status 201 and the given result. -/
def remoteCreated (result : licenseBucketPostResponseAPIModel) :
    Request → HTTPOutcome licenseBucketPostResponseAPIModel :=
  fun _ => .response 201 "" result

/-! ## Lifecycle responses and error helpers -/

/-- The part of `resource.ReadResponse` the code touches; the framework hands
it over with `State` holding the current state. -/
structure ReadResponse (M : Type) where
  Diagnostics : Diagnostics
  State : M
  deriving DecidableEq, Repr

/-- The part of `resource.UpdateResponse` the code touches; the framework hands
it over with `State` holding the prior state. -/
structure UpdateResponse (M : Type) where
  Diagnostics : Diagnostics
  State : M
  deriving DecidableEq, Repr

/-- The part of `resource.DeleteResponse` the code touches; the framework hands
it over with `State` holding the prior state. -/
structure DeleteResponse (M : Type) where
  Diagnostics : Diagnostics
  State : M
  deriving DecidableEq, Repr

/-- What the framework does with the state once `Delete` has returned: it
removes the resource unless an error was reported (the closing comment of every
`Delete` in this package says so). -/
def DeleteResponse.stateAfter {M : Type} (resp : DeleteResponse M) : Option M :=
  if resp.Diagnostics.HasError then some resp.State else none

/-- Text that the error helpers of the shared module put before the message
they are given, for a create. -/
def createErrorIntro : String :=
  "An unexpected error occurred while creating the resource. " ++
    "Please report this issue to the provider developers.\n\nError: "

/-- Text that the error helpers of the shared module put before the message
they are given, for a refresh. -/
def refreshErrorIntro : String :=
  "An unexpected error occurred while attempting to refresh resource state. " ++
    "Please retry the operation or report this issue to the provider developers.\n\nError: "

/-- Text that the error helpers of the shared module put before the message
they are given, for an update. -/
def updateErrorIntro : String :=
  "An unexpected error occurred while updating the resource. " ++
    "Please report this issue to the provider developers.\n\nError: "

/-- Helper `utilfw.UnableToRefreshResourceError` of the shared module: an error
whose detail ends in the given text. -/
def UnableToRefreshResourceError {M : Type} (resp : ReadResponse M) (err : String) :
    ReadResponse M :=
  { resp with
      Diagnostics := Diagnostics.AddError resp.Diagnostics "Unable to Refresh Resource"
        (refreshErrorIntro ++ err) }

/-- Helper `utilfw.UnableToUpdateResourceError` of the shared module: an error
whose detail ends in the given text. -/
def UnableToUpdateResourceError {M : Type} (resp : UpdateResponse M) (err : String) :
    UpdateResponse M :=
  { resp with
      Diagnostics := Diagnostics.AddError resp.Diagnostics "Unable to Update Resource"
        (updateErrorIntro ++ err) }

/-- Whether the characters `sub` occur consecutively in the list. -/
def containsChars (sub : List Char) : List Char → Bool
  | [] => sub.isEmpty
  | c :: cs => sub.isPrefixOf (c :: cs) || containsChars sub cs

/-- Go `strings.Contains(s, sub)`. -/
def strings.Contains (s sub : String) : Bool := containsChars sub.data s.data

/-! ## Helpers of `samber/lo` -/

/-- Helper `lo.Contains`. -/
def lo.Contains {α : Type} [DecidableEq α] (collection : GoSlice α) (element : α) : Bool :=
  decide (element ∈ collection.toList)

/-- Helper `lo.Every`: every element of `subset` is in `collection`; true for
an empty subset. -/
def lo.Every {α : Type} [DecidableEq α] (collection subset : GoSlice α) : Bool :=
  subset.toList.all (fun x => lo.Contains collection x)

/-- Helper `lo.Find`: the first element that satisfies the predicate. -/
def lo.Find {α : Type} (collection : GoSlice α) (predicate : α → Bool) : Option α :=
  collection.toList.find? predicate

/-- Helper `lo.Flatten`: always allocates the result. -/
def lo.Flatten {α : Type} (collection : GoSlice (GoSlice α)) : GoSlice α :=
  .mk (collection.toList.flatMap GoSlice.toList)

/-- First occurrences of the elements of a list, in order. -/
def uniqFrom {α : Type} [DecidableEq α] : List α → List α → List α
  | _, [] => []
  | seen, x :: xs => if x ∈ seen then uniqFrom seen xs else x :: uniqFrom (x :: seen) xs

/-- Helper `lo.Uniq`: each value once, in first-occurrence order; always
allocates the result. -/
def lo.Uniq {α : Type} [DecidableEq α] (collection : GoSlice α) : GoSlice α :=
  .mk (uniqFrom [] collection.toList)

/-! ## Mesh lifecycle (resource_access_federation_mesh.go) -/

/-- Wire type `accessFederationTargetGetAllAPIModel`: a target with its
entities. -/
structure accessFederationTargetGetAllAPIModel where
  ID : String
  URL : String
  PermissionFilters : accessFederationPermissionFiltersAPIModel
  Entities : GoSlice String
  deriving DecidableEq, Repr

/-- Wire type `accessFederationGetAllResponseAPIModel`: one entry of the
federation listing. -/
structure accessFederationGetAllResponseAPIModel where
  Source : String
  Targets : GoSlice accessFederationTargetGetAllAPIModel
  deriving DecidableEq, Repr

/-- The ids `fromAPIModel` collects from an entry: the source, then the target
ids in response order. -/
def accessFederationMeshResourceModel.fromAPIModel.ids
    (apiModel : accessFederationGetAllResponseAPIModel) : List String :=
  [apiModel.Source] ++ (lo.Map apiModel.Targets (fun target => target.ID)).toList

/-- Method `accessFederationMeshResourceModel.fromAPIModel`
(resource_access_federation_mesh.go 84-120).  The errors of the two
`types.SetValueFrom` conversions are appended to the result. -/
def accessFederationMeshResourceModel.fromAPIModel (r : accessFederationMeshResourceModel)
    (apiModel : accessFederationGetAllResponseAPIModel) :
    accessFederationMeshResourceModel × Diagnostics :=
  let ds : Diagnostics := []
  let ids := accessFederationMeshResourceModel.fromAPIModel.ids apiModel
  let idsSet := SetValueFrom (.mk ids)
  let ds := if idsSet.2.HasError then Diagnostics.Append ds idsSet.2 else ds
  let entitiesNested := lo.Map apiModel.Targets (fun target => target.Entities)
  let entities := lo.Uniq (lo.Flatten entitiesNested)
  let entitiesSet := SetValueFrom entities
  let ds := if entitiesSet.2.HasError then Diagnostics.Append ds entitiesSet.2 else ds
  ({ r with IDs := idsSet.1, ID := .value (strings.Join ids ":"), Entities := entitiesSet.1 }, ds)

/-- Method `accessFederationMeshResourceModel.toAPIModel`
(resource_access_federation_mesh.go 122-137). -/
def accessFederationMeshResourceModel.toAPIModel (r : accessFederationMeshResourceModel) :
    accessFederationMeshRequestAPIModel × Diagnostics :=
  let ds : Diagnostics := []
  let (ids, d) := ElementsAs r.IDs
  let ds := Diagnostics.Append ds d
  let (entities, d) := ElementsAs r.Entities
  let ds := Diagnostics.Append ds d
  ({ IDs := ids, Entities := entities }, ds)

/-- Endpoint constant `accessFederationsEndpoint`. -/
def accessFederationsEndpoint : String := "mc/api/v1/federation"

/-- Endpoint constant `accessFederationMeshEndpoint`. -/
def accessFederationMeshEndpoint : String := "mc/api/v1/federation/create_mesh"

/-- Method `accessFederationMeshResource.Create`
(resource_access_federation_mesh.go 162-209) on the plan read by
`req.Plan.Get`; returns the response and the requests issued. -/
def accessFederationMeshResource.Create
    (client : Request → HTTPOutcome (GoSlice accessFederationResponseAPIModel))
    (plan : accessFederationMeshResourceModel)
    (resp : CreateResponse accessFederationMeshResourceModel) :
    CreateResponse accessFederationMeshResourceModel × List Request :=
  let (accessFederation, d) := plan.toAPIModel
  let resp := { resp with Diagnostics := Diagnostics.Append resp.Diagnostics d }
  if resp.Diagnostics.HasError then (resp, [])
  else
    let request : Request :=
      { method := "POST", endpoint := accessFederationMeshEndpoint, pathParams := [],
        queryParams := [], body := .accessFederationMesh accessFederation }
    match client request with
    | .transportError err => (UnableToCreateResourceError resp err, [request])
    | .response statusCode body _ =>
      if IsError statusCode then (UnableToCreateResourceError resp body, [request])
      else
        let (ids, d) := ElementsAs plan.IDs
        let resp := { resp with Diagnostics := Diagnostics.Append resp.Diagnostics d }
        if resp.Diagnostics.HasError then (resp, [request])
        else
          let plan := { plan with ID := .value (strings.Join ids.toList ":") }
          ({ resp with State := some plan }, [request])

/-- Method `accessFederationMeshResource.Update`
(resource_access_federation_mesh.go 275-322) on the plan read by
`req.Plan.Get`. -/
def accessFederationMeshResource.Update
    (client : Request → HTTPOutcome (GoSlice accessFederationResponseAPIModel))
    (plan : accessFederationMeshResourceModel)
    (resp : UpdateResponse accessFederationMeshResourceModel) :
    UpdateResponse accessFederationMeshResourceModel × List Request :=
  let (accessFederation, d) := plan.toAPIModel
  let resp := { resp with Diagnostics := Diagnostics.Append resp.Diagnostics d }
  if resp.Diagnostics.HasError then (resp, [])
  else
    let request : Request :=
      { method := "POST", endpoint := accessFederationMeshEndpoint, pathParams := [],
        queryParams := [], body := .accessFederationMesh accessFederation }
    match client request with
    | .transportError err => (UnableToUpdateResourceError resp err, [request])
    | .response statusCode body _ =>
      if IsError statusCode then (UnableToUpdateResourceError resp body, [request])
      else
        let (ids, d) := ElementsAs plan.IDs
        let resp := { resp with Diagnostics := Diagnostics.Append resp.Diagnostics d }
        if resp.Diagnostics.HasError then (resp, [request])
        else
          let plan := { plan with ID := .value (strings.Join ids.toList ":") }
          ({ resp with State := plan }, [request])

/-- The predicate `Read` hands to `lo.Find`: the source is one of the ids of the
state and every target id is one of them. -/
def accessFederationMeshResource.Read.matches (jpdIDs : GoSlice String)
    (accessFederation : accessFederationGetAllResponseAPIModel) : Bool :=
  let targetIDs := lo.Map accessFederation.Targets (fun target => target.ID)
  lo.Contains jpdIDs accessFederation.Source && lo.Every jpdIDs targetIDs

/-- The request of the mesh `Read`. -/
def accessFederationMeshResource.Read.request : Request :=
  { method := "GET", endpoint := accessFederationsEndpoint, pathParams := [],
    queryParams := [("includeNonConfiguredJPDs", "false")], body := .none }

/-- Method `accessFederationMeshResource.Read`
(resource_access_federation_mesh.go 211-273) on the state read by
`req.State.Get`. -/
def accessFederationMeshResource.Read
    (client : Request → HTTPOutcome (GoSlice accessFederationGetAllResponseAPIModel))
    (state : accessFederationMeshResourceModel)
    (resp : ReadResponse accessFederationMeshResourceModel) :
    ReadResponse accessFederationMeshResourceModel × List Request :=
  let request := accessFederationMeshResource.Read.request
  match client request with
  | .transportError err => (UnableToRefreshResourceError resp err, [request])
  | .response statusCode body accessFederations =>
    if IsError statusCode then (UnableToRefreshResourceError resp body, [request])
    else
      let (jpdIDs, d) := ElementsAs state.IDs
      let resp := { resp with Diagnostics := Diagnostics.Append resp.Diagnostics d }
      if resp.Diagnostics.HasError then (resp, [request])
      else
        match lo.Find accessFederations (accessFederationMeshResource.Read.matches jpdIDs) with
        | none =>
          (UnableToRefreshResourceError resp
            ("unabled to find Access Federation Configurations for JPDs: " ++
              strings.Join jpdIDs.toList ", "), [request])
        | some sourceAccessFederation =>
          let (state, d) := state.fromAPIModel sourceAccessFederation
          let resp := { resp with Diagnostics := Diagnostics.Append resp.Diagnostics d }
          if resp.Diagnostics.HasError then (resp, [request])
          else ({ resp with State := state }, [request])

/-- The warning both access-federation `Delete` methods add. -/
def deletionNotSupported : Diagnostic :=
  ⟨.warning, "Access Federation deletion not supported",
    " The resource has be deleted from Terraform state. To delete Access Federation " ++
      "relationship, please use the JFrog UI."⟩

/-- Method `accessFederationMeshResource.Delete`
(resource_access_federation_mesh.go 324-334).  The client is at hand but is
not called; returns the response and the requests issued. -/
def accessFederationMeshResource.Delete {R : Type} (_client : Request → HTTPOutcome R)
    (resp : DeleteResponse accessFederationMeshResourceModel) :
    DeleteResponse accessFederationMeshResourceModel × List Request :=
  ({ resp with
      Diagnostics := Diagnostics.AddWarning resp.Diagnostics deletionNotSupported.summary
        deletionNotSupported.detail }, [])

/-- Method `accessFederationStarResource.Delete`
(resource_access_federation_star.go 396-406). -/
def accessFederationStarResource.Delete {R : Type} (_client : Request → HTTPOutcome R)
    (resp : DeleteResponse accessFederationStarResourceModel) :
    DeleteResponse accessFederationStarResourceModel × List Request :=
  ({ resp with
      Diagnostics := Diagnostics.AddWarning resp.Diagnostics deletionNotSupported.summary
        deletionNotSupported.detail }, [])

/-! ### Sample mesh values -/

/-- The configuration of `TestAccAccessFederationMesh_full`. -/
def sampleMesh : accessFederationMeshResourceModel :=
  { ID := .null
    IDs := .value [.value "JPD-1", .value "JPD-2"]
    Entities := .value [.value "USERS", .value "GROUPS", .value "PERMISSIONS", .value "TOKENS"] }

/-- A remote that answers the mesh creation with status 200 and no result
entries. -/
def meshRemoteOK : Request → HTTPOutcome (GoSlice accessFederationResponseAPIModel) :=
  fun _ => .response 200 "[]" (.mk [])

/-- A mesh state with three participants. -/
def sampleMesh3 : accessFederationMeshResourceModel :=
  { ID := .value "JPD-1:JPD-2:JPD-3"
    IDs := .value [.value "JPD-1", .value "JPD-2", .value "JPD-3"]
    Entities := .value [.value "USERS"] }

/-- A federation listing whose only entry links `JPD-1` to `JPD-2`. -/
def sampleListingPair : GoSlice accessFederationGetAllResponseAPIModel :=
  .mk
    [{ Source := "JPD-1"
       Targets := .mk
         [{ ID := "JPD-2", URL := "http://host.docker.internal:9082/access"
            PermissionFilters := { IncludePatterns := .nil, ExcludePatterns := .nil }
            Entities := .mk ["USERS"] }] }]

/-- A federation listing whose only entry has the source `JPD-1` and no
targets. -/
def sampleListingAlone : GoSlice accessFederationGetAllResponseAPIModel :=
  .mk [{ Source := "JPD-1", Targets := .mk [] }]

/-- A remote that answers the listing request with status 200 and the given
listing. -/
def meshRemoteListing (listing : GoSlice accessFederationGetAllResponseAPIModel) :
    Request → HTTPOutcome (GoSlice accessFederationGetAllResponseAPIModel) :=
  fun _ => .response 200 "" listing

/-- A federation entry whose only target has the id of the source. -/
def sampleEntryRepeatedID : accessFederationGetAllResponseAPIModel :=
  { Source := "JPD-1"
    Targets := .mk
      [{ ID := "JPD-1", URL := "http://host.docker.internal:9082/access"
         PermissionFilters := { IncludePatterns := .nil, ExcludePatterns := .nil }
         Entities := .mk ["USERS"] }] }

/-! ## Provider configuration (provider.go 19-134) -/

/-- Variable `Version`. -/
def Version : String := "1.0.0"

/-- Variable `productId`. -/
def productId : String := "terraform-provider-mission-control/" ++ Version

/-- Model `missionControlProviderModel`. -/
structure missionControlProviderModel where
  URL : TFString
  AccessToken : TFString
  OIDCProviderName : TFString
  deriving DecidableEq, Repr

/-- What `Configure` hands to the resources (`util.ProviderMetadata`): the
client and the Artifactory version; `Configure` sets no other field. -/
structure ProviderMetadata (C : Type) where
  Client : C
  ArtifactoryVersion : String
  deriving DecidableEq, Repr

/-- The part of `provider.ConfigureResponse` the code touches. -/
structure ConfigureResponse (C : Type) where
  Diagnostics : Diagnostics
  DataSourceData : Option (ProviderMetadata C)
  ResourceData : Option (ProviderMetadata C)
  deriving DecidableEq, Repr

/-- The response the framework hands to `Configure`. -/
def ConfigureResponse.fresh {C : Type} : ConfigureResponse C :=
  { Diagnostics := [], DataSourceData := none, ResourceData := none }

/-- What `Configure` calls outside this package, for a client type `C`: the
process environment, `client.Build`, `util.OIDCTokenExchange`, `client.AddAuth`
(which sets the token on the client) and `util.GetArtifactoryVersion`. -/
structure ProviderEnv (C : Type) where
  Getenv : String → String
  Build : String → String → Except String C
  OIDCTokenExchange : C → String → Except String String
  AddAuth : C → String → String → Except String C
  GetArtifactoryVersion : C → Except String String

/-- A call `Configure` makes outside this package, with its arguments. -/
inductive ConfigureCall where
  | Build (url productId : String)
  | OIDCTokenExchange (providerName : String)
  | AddAuth (apiKey accessToken : String)
  | GetArtifactoryVersion
  deriving DecidableEq, Repr

/-- Helper `util.CheckEnvVars` of the shared module: the value of the first
variable that is set to a non-empty text, else the default. -/
def CheckEnvVars (Getenv : String → String) (vars : List String) (dv : String) : String :=
  match vars.find? (fun k => Getenv k != "") with
  | some k => Getenv k
  | none => dv

/-- The error `Configure` adds when no URL is found. -/
def missingURLConfiguration : Diagnostic :=
  ⟨.error, "Missing URL Configuration",
    "While configuring the provider, the url was not found in the JFROG_URL environment " ++
      "variable or provider configuration block url attribute."⟩

/-- The warning `Configure` adds when no access token is found. -/
def missingAccessToken : Diagnostic :=
  ⟨.warning, "Missing JFrog Access Token",
    "Access Token was not found in the JFROG_ACCESS_TOKEN environment variable, provider " ++
      "configuration block access_token attribute, or Terraform Cloud " ++
      "TFC_WORKLOAD_IDENTITY_TOKEN environment variable. Mission Control functionality " ++
      "will be affected."⟩

/-- Method `MissionControlProvider.Configure` (provider.go 42-134) on the
configuration read by `req.Config.Get`; returns the response and the outside
calls made, in order. -/
def MissionControlProvider.Configure {C : Type} (env : ProviderEnv C)
    (config : missionControlProviderModel) (resp : ConfigureResponse C) :
    ConfigureResponse C × List ConfigureCall :=
  let url := CheckEnvVars env.Getenv ["JFROG_URL"] ""
  let accessToken := CheckEnvVars env.Getenv ["JFROG_ACCESS_TOKEN"] ""
  let url := if config.URL.ValueString ≠ "" then config.URL.ValueString else url
  if url = "" then
    ({ resp with
        Diagnostics := Diagnostics.AddError resp.Diagnostics missingURLConfiguration.summary
          missingURLConfiguration.detail }, [])
  else
    let calls := [ConfigureCall.Build url productId]
    match env.Build url productId with
    | .error err =>
      ({ resp with
          Diagnostics := Diagnostics.AddError resp.Diagnostics "Error creating Resty client" err },
        calls)
    | .ok platformClient =>
      let calls := calls ++ [.OIDCTokenExchange config.OIDCProviderName.ValueString]
      match env.OIDCTokenExchange platformClient config.OIDCProviderName.ValueString with
      | .error err =>
        ({ resp with
            Diagnostics := Diagnostics.AddError resp.Diagnostics "Failed OIDC ID token exchange"
              err }, calls)
      | .ok oidcAccessToken =>
        let accessToken := if oidcAccessToken ≠ "" then oidcAccessToken else accessToken
        let accessToken :=
          if config.AccessToken.ValueString ≠ "" then config.AccessToken.ValueString
          else accessToken
        let resp :=
          if accessToken = "" then
            { resp with
                Diagnostics := Diagnostics.AddWarning resp.Diagnostics missingAccessToken.summary
                  missingAccessToken.detail }
          else resp
        let calls := calls ++ [.AddAuth "" accessToken]
        match env.AddAuth platformClient "" accessToken with
        | .error err =>
          ({ resp with
              Diagnostics := Diagnostics.AddError resp.Diagnostics
                "Error adding Auth to Resty client" err }, calls)
        | .ok platformClient =>
          let calls := calls ++ [.GetArtifactoryVersion]
          match env.GetArtifactoryVersion platformClient with
          | .error err =>
            ({ resp with
                Diagnostics := Diagnostics.AddError resp.Diagnostics
                  "Error getting Artifactory version" err }, calls)
          | .ok version =>
            let meta : ProviderMetadata C :=
              { Client := platformClient, ArtifactoryVersion := version }
            ({ resp with DataSourceData := some meta, ResourceData := some meta }, calls)

/-- The URL `Configure` resolves: the configured `url` if non-empty, else the
value of `JFROG_URL`. -/
def resolvedURL (Getenv : String → String) (config : missionControlProviderModel) : String :=
  if config.URL.ValueString ≠ "" then config.URL.ValueString else Getenv "JFROG_URL"

/-- The access token `Configure` resolves from the configuration, the token the
OIDC exchange returned and the environment: the configured `access_token` if
non-empty, else the exchanged token if non-empty, else the value of
`JFROG_ACCESS_TOKEN`. -/
def resolvedAccessToken (Getenv : String → String) (config : missionControlProviderModel)
    (oidcAccessToken : String) : String :=
  if config.AccessToken.ValueString ≠ "" then config.AccessToken.ValueString
  else if oidcAccessToken ≠ "" then oidcAccessToken
  else Getenv "JFROG_ACCESS_TOKEN"

/-- A client as far as the sample environment tracks it: its base URL and the
access token set on it. -/
structure SampleClient where
  url : String
  accessToken : String
  deriving DecidableEq, Repr

/-- A sample environment: the given variables, a client builder that always
succeeds, an OIDC exchange that returns the given token, an `AddAuth` that, like
the one of the shared module, sets a non-empty access token, else accepts a
non-empty API key, and refuses to go on without either, and a platform that
reports version 7.77.3. -/
def sampleEnv (vars : List (String × String)) (oidcAccessToken : String) :
    ProviderEnv SampleClient :=
  { Getenv := fun k => ((vars.lookup k).getD "")
    Build := fun url _ => .ok { url := url, accessToken := "" }
    OIDCTokenExchange := fun _ _ => .ok oidcAccessToken
    AddAuth := fun c apiKey accessToken =>
      if accessToken ≠ "" then .ok { c with accessToken := accessToken }
      else if apiKey ≠ "" then .ok c
      else .error "no authentication details supplied"
    GetArtifactoryVersion := fun _ => .ok "7.77.3" }

/-- A provider configuration block with a url and an access token. -/
def sampleProviderConfig : missionControlProviderModel :=
  { URL := .value "https://platform.example.com", AccessToken := .value "config-token"
    OIDCProviderName := .null }

/-- An empty provider configuration block. -/
def emptyProviderConfig : missionControlProviderModel :=
  { URL := .null, AccessToken := .null, OIDCProviderName := .null }

/-! ## JPD lifecycle (resource_jpd.go 457-597) -/

/-- Endpoint constant `jpdsEndpoint`. -/
def jpdsEndpoint : String := "mc/api/v1/jpds"

/-- Endpoint constant `jpdEndpoint`. -/
def jpdEndpoint : String := "mc/api/v1/jpds/\x7bid\x7d"

/-- The text a failed call hands to the error helper: the transport error, or
the body of a response whose status `IsError`; `none` when the call did not
fail. -/
def HTTPOutcome.failure {R : Type} : HTTPOutcome R → Option String
  | .transportError err => some err
  | .response statusCode body _ => if IsError statusCode then some body else none

/-- The request of `jpdResource.Create`. -/
def jpdResource.Create.request (jpd : jpdPostRequestAPIModel) : Request :=
  { method := "POST", endpoint := jpdsEndpoint, pathParams := [], queryParams := [],
    body := .jpd jpd }

/-- Method `jpdResource.Create` (resource_jpd.go 457-497) on the plan read by
`req.Plan.Get`, with the Artifactory version of the provider data; `none` is the
panic of `toAPIModel`. -/
def jpdResource.Create (CheckVersion : String → String → Except String Bool)
    (ArtifactoryVersion : String) (client : Request → HTTPOutcome jpdGetResponseAPIModel)
    (plan : jpdResourceModel) (resp : CreateResponse jpdResourceModel) :
    Option (CreateResponse jpdResourceModel × List Request) :=
  match plan.toAPIModel CheckVersion ArtifactoryVersion with
  | none => none
  | some (jpd, d) =>
    let resp := { resp with Diagnostics := Diagnostics.Append resp.Diagnostics d }
    if resp.Diagnostics.HasError then some (resp, [])
    else
      let request := jpdResource.Create.request jpd
      match client request with
      | .transportError err => some (UnableToCreateResourceError resp err, [request])
      | .response statusCode body result =>
        if IsError statusCode then some (UnableToCreateResourceError resp body, [request])
        else
          let (plan, d) := plan.fromAPIModel result
          let resp := { resp with Diagnostics := Diagnostics.Append resp.Diagnostics d }
          if resp.Diagnostics.HasError then some (resp, [request])
          else some ({ resp with State := some plan }, [request])

/-- The request of `jpdResource.Read`, and the second request of
`jpdResource.Update`. -/
def jpdResource.Read.request (state : jpdResourceModel) : Request :=
  { method := "GET", endpoint := jpdEndpoint, pathParams := [("id", state.ID.ValueString)],
    queryParams := [], body := .none }

/-- Method `jpdResource.Read` (resource_jpd.go 499-533) on the state read by
`req.State.Get`. -/
def jpdResource.Read (client : Request → HTTPOutcome jpdGetResponseAPIModel)
    (state : jpdResourceModel) (resp : ReadResponse jpdResourceModel) :
    ReadResponse jpdResourceModel × List Request :=
  let request := jpdResource.Read.request state
  match client request with
  | .transportError err => (UnableToRefreshResourceError resp err, [request])
  | .response statusCode body jpd =>
    if IsError statusCode then (UnableToRefreshResourceError resp body, [request])
    else
      let (state, d) := state.fromAPIModel jpd
      let resp := { resp with Diagnostics := Diagnostics.Append resp.Diagnostics d }
      if resp.Diagnostics.HasError then (resp, [request])
      else ({ resp with State := state }, [request])

/-- The first request of `jpdResource.Update`. -/
def jpdResource.Update.request (state : jpdResourceModel) (jpd : jpdPostRequestAPIModel) :
    Request :=
  { method := "PUT", endpoint := jpdEndpoint, pathParams := [("id", state.ID.ValueString)],
    queryParams := [], body := .jpd jpd }

/-- Method `jpdResource.Update` (resource_jpd.go 535-597) on the plan and the
prior state read by `req.Plan.Get` and `req.State.Get`; the PUT sets no result
target, so the client's result is ignored for it.  `none` is the panic of
`toAPIModel`. -/
def jpdResource.Update (CheckVersion : String → String → Except String Bool)
    (ArtifactoryVersion : String) (client : Request → HTTPOutcome jpdGetResponseAPIModel)
    (plan state : jpdResourceModel) (resp : UpdateResponse jpdResourceModel) :
    Option (UpdateResponse jpdResourceModel × List Request) :=
  match plan.toAPIModel CheckVersion ArtifactoryVersion with
  | none => none
  | some (jpd, d) =>
    let resp := { resp with Diagnostics := Diagnostics.Append resp.Diagnostics d }
    if resp.Diagnostics.HasError then some (resp, [])
    else
      let putRequest := jpdResource.Update.request state jpd
      match client putRequest with
      | .transportError err => some (UnableToUpdateResourceError resp err, [putRequest])
      | .response statusCode body _ =>
        if IsError statusCode then some (UnableToUpdateResourceError resp body, [putRequest])
        else
          let getRequest := jpdResource.Read.request state
          match client getRequest with
          | .transportError err =>
            some (UnableToUpdateResourceError resp err, [putRequest, getRequest])
          | .response statusCode body result =>
            if IsError statusCode then
              some (UnableToUpdateResourceError resp body, [putRequest, getRequest])
            else
              let (plan, d) := plan.fromAPIModel result
              let resp := { resp with Diagnostics := Diagnostics.Append resp.Diagnostics d }
              if resp.Diagnostics.HasError then some (resp, [putRequest, getRequest])
              else some ({ resp with State := plan }, [putRequest, getRequest])

/-! ## Star creation (resource_access_federation_star.go 274-315) -/

/-- Endpoint constant `accessFederationEndpoint`. -/
def accessFederationEndpoint : String := "mc/api/v1/federation/\x7bid\x7d"

/-- The request of `accessFederationStarResource.Create`. -/
def accessFederationStarResource.Create.request (plan : accessFederationStarResourceModel)
    (accessFederation : accessFederationRequestAPIModel) : Request :=
  { method := "PUT", endpoint := accessFederationEndpoint
    pathParams := [("id", plan.ID.ValueString)], queryParams := []
    body := .accessFederation accessFederation }

/-- Method `accessFederationStarResource.Create`
(resource_access_federation_star.go 274-315) on the plan read by
`req.Plan.Get`; `none` is the panic of `toAPIModel`. -/
def accessFederationStarResource.Create
    (client : Request → HTTPOutcome (GoSlice accessFederationResponseAPIModel))
    (plan : accessFederationStarResourceModel)
    (resp : CreateResponse accessFederationStarResourceModel) :
    Option (CreateResponse accessFederationStarResourceModel × List Request) :=
  match plan.toAPIModel with
  | none => none
  | some (accessFederation, d) =>
    let resp := { resp with Diagnostics := Diagnostics.Append resp.Diagnostics d }
    if resp.Diagnostics.HasError then some (resp, [])
    else
      let request := accessFederationStarResource.Create.request plan accessFederation
      match client request with
      | .transportError err => some (UnableToCreateResourceError resp err, [request])
      | .response statusCode body _ =>
        if IsError statusCode then some (UnableToCreateResourceError resp body, [request])
        else some ({ resp with State := some plan }, [request])

/-! ## License bucket refresh (resource_license_bucket.go 277-319) -/

/-- The request of `licenseBucketResource.Read`. -/
def licenseBucketResource.Read.request : Request :=
  { method := "GET", endpoint := licenseBucketsEndpoint, pathParams := [], queryParams := [],
    body := .none }

/-- Method `licenseBucketResource.Read` (resource_license_bucket.go 277-319) on
the state read by `req.State.Get`. -/
def licenseBucketResource.Read
    (client : Request → HTTPOutcome (GoSlice licenseBucketGetAPIModel))
    (state : licenseBucketResourceModel) (resp : ReadResponse licenseBucketResourceModel) :
    ReadResponse licenseBucketResourceModel × List Request :=
  let request := licenseBucketResource.Read.request
  match client request with
  | .transportError err => (UnableToRefreshResourceError resp err, [request])
  | .response statusCode body licenseBuckets =>
    if IsError statusCode then (UnableToRefreshResourceError resp body, [request])
    else
      match lo.Find licenseBuckets
          (fun licenseBucket => licenseBucket.Name == state.Name.ValueString) with
      | none =>
        (UnableToRefreshResourceError resp
          ("bucket " ++ state.Name.ValueString ++ " can\x27t be found"), [request])
      | some matchedBucket =>
        let state :=
          { state with
              Name := .value matchedBucket.Name
              Quantity := .value matchedBucket.Size
              LicenseType := .value matchedBucket.Type_ }
        ({ resp with State := state }, [request])

/-! ### Sample remotes -/

/-- The zero value of `jpdGetResponseAPIModel`: what the result target holds
when no body was decoded into it. -/
def jpdGetResponseAPIModel.zero : jpdGetResponseAPIModel :=
  { ID := "", Name := "", URL := "", BaseURL := ""
    Location := { CityName := "", CountryCode := "", Latitude := ⟨0⟩, Longitude := ⟨0⟩ }
    Local := false, Licenses := .nil, Services := .nil
    Status := { Code := "", Message := "", Warnings := .nil }
    Tags := .nil, IsColdStorage := false, ColdStorageJPD := "" }

/-- A remote that answers every call with the given status and body and decodes
nothing. -/
def jpdRemoteStatus (statusCode : Nat) (body : String) :
    Request → HTTPOutcome jpdGetResponseAPIModel :=
  fun _ => .response statusCode body jpdGetResponseAPIModel.zero

/-- The JPD state of the acceptance test once created, with the id `jpd-17`. -/
def sampleJPDState : jpdResourceModel :=
  { sampleJPD with ID := .value "jpd-17" }

/-- A license-bucket listing with two buckets. -/
def sampleBucketListing : GoSlice licenseBucketGetAPIModel :=
  .mk
    [{ Identifier := "b1", Name := "other-bucket", Size := 3, Type_ := "ENTERPRISE" },
     { Identifier := "b2", Name := "test-license-bucket", Size := 5,
       Type_ := "ENTERPRISE_PLUS_TRIAL" }]

/-- A remote that answers the bucket listing request with status 200 and the
given listing. -/
def bucketRemoteListing (listing : GoSlice licenseBucketGetAPIModel) :
    Request → HTTPOutcome (GoSlice licenseBucketGetAPIModel) :=
  fun _ => .response 200 "" listing

/-! ## License bucket update (resource_license_bucket.go 321-323) -/

/-- Method `licenseBucketResource.Update`: the body is empty.  The client, the
plan and the prior state are at hand but are not used; returns the response and
the requests issued. -/
def licenseBucketResource.Update {R : Type} (_client : Request → HTTPOutcome R)
    (_plan _state : licenseBucketResourceModel)
    (resp : UpdateResponse licenseBucketResourceModel) :
    UpdateResponse licenseBucketResourceModel × List Request :=
  (resp, [])

/-! ## Star update (resource_access_federation_star.go 353-394) -/

/-- Method `accessFederationStarResource.Update`
(resource_access_federation_star.go 353-394) on the plan read by
`req.Plan.Get`; the request is built as in `Create`.  `none` is the panic of
`toAPIModel`. -/
def accessFederationStarResource.Update
    (client : Request → HTTPOutcome (GoSlice accessFederationResponseAPIModel))
    (plan : accessFederationStarResourceModel)
    (resp : UpdateResponse accessFederationStarResourceModel) :
    Option (UpdateResponse accessFederationStarResourceModel × List Request) :=
  match plan.toAPIModel with
  | none => none
  | some (accessFederation, d) =>
    let resp := { resp with Diagnostics := Diagnostics.Append resp.Diagnostics d }
    if resp.Diagnostics.HasError then some (resp, [])
    else
      let request : Request :=
        { method := "PUT", endpoint := accessFederationEndpoint
          pathParams := [("id", plan.ID.ValueString)], queryParams := []
          body := .accessFederation accessFederation }
      match client request with
      | .transportError err => some (UnableToUpdateResourceError resp err, [request])
      | .response statusCode body _ =>
        if IsError statusCode then some (UnableToUpdateResourceError resp body, [request])
        else some ({ resp with State := plan }, [request])

/-- A remote that answers the star upsert with status 200 and no result
entries. -/
def starRemoteOK : Request → HTTPOutcome (GoSlice accessFederationResponseAPIModel) :=
  fun _ => .response 200 "[]" (.mk [])

/-- A mesh plan over `JPD-1` and `JPD-3`, with the entities of `sampleMesh`. -/
def sampleMeshOther : accessFederationMeshResourceModel :=
  { sampleMesh with IDs := .value [.value "JPD-1", .value "JPD-3"] }

/-- A license-bucket configuration with a file as source. -/
def sampleBucketFile : licenseBucketResourceModel :=
  { sampleBucketURL with URL := .null, File := .value "/tmp/licenses/bucket.enc" }

/-- A file system that holds one file, `/tmp/licenses/bucket.enc`, of three
bytes. -/
def oneFile : String → Except String (List Nat) :=
  fun name =>
    if name = "/tmp/licenses/bucket.enc" then .ok [1, 2, 3]
    else .error ("open " ++ name ++ ": no such file or directory")

/-- A create response for a license bucket, with a non-empty `url`. -/
def sampleBucketResponse : licenseBucketPostResponseAPIModel :=
  { ID := "bucket-7", Subject := "JFROG TEST", ProductName := "Multiproducts", ProductID := 7
    LicenseType := "ENTERPRISE_PLUS_TRIAL", IssuedDate := "2023-12-23T08:46:48.000Z"
    ValidDate := "2025-01-04T00:00:00.000Z", Quantity := 5, Signature := "sig"
    Name := "test-license-bucket", Used := 0, URL := "https://bucket.example.com/signed" }

/-- A listing entry lies within the ids `S`: its source is in `S` and all of
its target ids are in `S`. -/
def meshEntryWithin (S : List String) (entry : accessFederationGetAllResponseAPIModel) : Prop :=
  entry.Source ∈ S ∧ ∀ target ∈ entry.Targets.toList, target.ID ∈ S

/-- The message of the refresh error the mesh `Read` adds when no entry
matches. -/
def meshNotFoundMessage (S : List String) : String :=
  "unabled to find Access Federation Configurations for JPDs: " ++ strings.Join S ", "

end MissionControl

/-! ## Theorems -/

namespace MissionControl

/-- C1. For every JPD model `m` with a location object (the schema requires
one) and every Artifactory version `v` on which the version check succeeds:
when `v >= 7.0.0` the wire token is `m`'s token and the wire username and
password are empty; when `v < 7.0.0` the wire username and password are `m`'s
and the wire token is empty. -/
theorem jpd_toAPIModel_credentials
    (CheckVersion : String → String → Except String Bool)
    (m : jpdResourceModel) (v : String) (loc : LocationAttrs)
    (hloc : m.Location = .value loc) :
    (CheckVersion v "7.0.0" = .ok true →
      ∃ api ds, jpdResourceModel.toAPIModel CheckVersion m v = some (api, ds) ∧
        api.Token = m.Token.ValueString ∧ api.Username = "" ∧ api.Password = "") ∧
    (CheckVersion v "7.0.0" = .ok false →
      ∃ api ds, jpdResourceModel.toAPIModel CheckVersion m v = some (api, ds) ∧
        api.Username = m.Username.ValueString ∧
        api.Password = m.Password.ValueString ∧ api.Token = "") := by
  constructor
  · intro hv
    simp [jpdResourceModel.toAPIModel, hloc, hv, TFValue.Attributes]
  · intro hv
    simp [jpdResourceModel.toAPIModel, hloc, hv, TFValue.Attributes]

theorem jpd_toAPIModel_panics_iff (CheckVersion : String → String → Except String Bool)
    (m : jpdResourceModel) (v : String) :
    jpdResourceModel.toAPIModel CheckVersion m v = none ↔ m.Location.Attributes = none := by
  cases hloc : m.Location.Attributes with
  | none => simp [jpdResourceModel.toAPIModel, hloc]
  | some attrs =>
    simp only [jpdResourceModel.toAPIModel, hloc]
    cases CheckVersion v "7.0.0" with
    | error e => simp
    | ok b => cases b <;> simp

/-- Witness of C1 on the acceptance-test model at version 7.77.3: the token is
sent, username and password are not. -/
theorem jpd_toAPIModel_credentials_witness :
    ∃ api ds, jpdResourceModel.toAPIModel checkVersionDotted sampleJPD "7.77.3" = some (api, ds) ∧
      api.Token = sampleJPD.Token.ValueString ∧ api.Username = "" ∧ api.Password = "" :=
  (jpd_toAPIModel_credentials checkVersionDotted sampleJPD "7.77.3" sampleLocation rfl).1 rfl

/-! ### Diagnostics lemmas -/

theorem hasError_append (a b : Diagnostics) :
    Diagnostics.HasError (a ++ b) = (Diagnostics.HasError a || Diagnostics.HasError b) := by
  simp [Diagnostics.HasError, List.any_append]

theorem hasError_nil : Diagnostics.HasError [] = false := rfl

theorem hasError_cons (d : Diagnostic) (ds : Diagnostics) :
    Diagnostics.HasError (d :: ds) = (d.severity == .error || Diagnostics.HasError ds) := by
  simp [Diagnostics.HasError]

theorem hasError_Append (ds new : Diagnostics) :
    (Diagnostics.Append ds new).HasError = (ds.HasError || new.HasError) := by
  unfold Diagnostics.Append
  induction new generalizing ds with
  | nil => simp [hasError_nil]
  | cons d rest ih =>
    simp only [List.foldl_cons]
    rw [ih]
    by_cases hd : d ∈ ds
    · have : d.severity = .error → ds.HasError = true := by
        intro he
        simp only [Diagnostics.HasError, List.any_eq_true]
        exact ⟨d, hd, by simp [he]⟩
      simp only [hd, if_true, hasError_cons]
      cases hs : d.severity <;> cases h1 : ds.HasError <;> simp_all
    · simp only [hd, if_false, hasError_append, hasError_cons, hasError_nil, Bool.or_false,
        Bool.or_assoc]

theorem hasError_AddError (ds : Diagnostics) (summary detail : String) :
    (Diagnostics.AddError ds summary detail).HasError = true := by
  simp [Diagnostics.AddError, hasError_Append, hasError_cons]

theorem hasError_AddWarning (ds : Diagnostics) (summary detail : String) :
    (Diagnostics.AddWarning ds summary detail).HasError = ds.HasError := by
  simp [Diagnostics.AddWarning, hasError_Append, hasError_cons, hasError_nil]

theorem mem_Append (ds new : Diagnostics) (x : Diagnostic) :
    x ∈ Diagnostics.Append ds new ↔ x ∈ ds ∨ x ∈ new := by
  unfold Diagnostics.Append
  induction new generalizing ds with
  | nil => simp
  | cons d rest ih =>
    simp only [List.foldl_cons, ih, List.mem_cons]
    by_cases hd : d ∈ ds
    · simp only [hd, if_true]
      constructor
      · rintro (h | h)
        · exact Or.inl h
        · exact Or.inr (Or.inr h)
      · rintro (h | h | h)
        · exact Or.inl h
        · exact Or.inl (h ▸ hd)
        · exact Or.inr h
    · simp only [hd, if_false, List.mem_append, List.mem_singleton]
      tauto

theorem append_nil_left (new : Diagnostics) (h : new.Nodup) :
    Diagnostics.Append [] new = new := by
  suffices hgen : ∀ (acc : Diagnostics), (acc ++ new).Nodup →
      Diagnostics.Append acc new = acc ++ new by
    simpa using hgen [] (by simpa using h)
  clear h
  unfold Diagnostics.Append
  induction new with
  | nil => intro acc _; simp
  | cons d rest ih =>
    intro acc hnd
    have hd : d ∉ acc := by
      intro hmem
      rw [List.nodup_append] at hnd
      exact hnd.2.2 hmem (List.mem_cons_self _ _)
    simp only [List.foldl_cons, hd, if_false]
    have hnd2 : ((acc ++ [d]) ++ rest).Nodup := by simpa using hnd
    rw [ih (acc ++ [d]) hnd2]
    simp

theorem append_nil_diagnostics (ds : Diagnostics) : Diagnostics.Append ds [] = ds := rfl

/-! ### Set conversion -/

theorem setDuplicates_eq_nil_iff (xs : List String) : setDuplicates xs = [] ↔ xs.Nodup := by
  induction xs with
  | nil => simp [setDuplicates]
  | cons x rest ih =>
    simp only [setDuplicates, List.append_eq_nil, ih, List.nodup_cons, List.filter_eq_nil_iff,
      beq_iff_eq]
    constructor
    · rintro ⟨h1, h2⟩
      exact ⟨fun hx => h1 x hx rfl, h2⟩
    · rintro ⟨h1, h2⟩
      exact ⟨fun y hy hyx => h1 (hyx ▸ hy), h2⟩

theorem mem_setDuplicates (xs : List String) (x : String) (h : x ∈ setDuplicates xs) :
    x ∈ xs := by
  induction xs with
  | nil => simp [setDuplicates] at h
  | cons y rest ih =>
    simp only [setDuplicates, List.mem_append, List.mem_filter] at h
    rcases h with h | h
    · exact List.mem_cons_of_mem _ h.1
    · exact List.mem_cons_of_mem _ (ih h)

theorem hasError_map_duplicateSetElement (xs : List String) :
    Diagnostics.HasError (xs.map duplicateSetElement) = !xs.isEmpty := by
  cases xs with
  | nil => rfl
  | cons x rest => simp [Diagnostics.HasError, duplicateSetElement]

theorem setValueFrom_nil : SetValueFrom .nil = (.null, []) := rfl

theorem setValueFrom_nodup (xs : List String) (h : xs.Nodup) :
    SetValueFrom (.mk xs) = (.value (xs.map TFValue.value), []) := by
  have hd : setDuplicates xs = [] := (setDuplicates_eq_nil_iff xs).mpr h
  simp [SetValueFrom, hd, Diagnostics.Append, Diagnostics.HasError]

theorem setValueFrom_repeated (xs : List String) (h : ¬ xs.Nodup) :
    (SetValueFrom (.mk xs)).1 = .unknown ∧ (SetValueFrom (.mk xs)).2.HasError = true ∧
      ∀ d ∈ (SetValueFrom (.mk xs)).2, ∃ x ∈ xs, d = duplicateSetElement x := by
  have hd : setDuplicates xs ≠ [] := fun hnil => h ((setDuplicates_eq_nil_iff xs).mp hnil)
  have herr : (Diagnostics.Append [] ((setDuplicates xs).map duplicateSetElement)).HasError =
      true := by
    rw [hasError_Append, hasError_map_duplicateSetElement]
    cases hs : setDuplicates xs with
    | nil => exact absurd hs hd
    | cons y rest => simp
  simp only [SetValueFrom, herr, if_true]
  refine ⟨trivial, trivial, ?_⟩
  intro d hmem
  rw [mem_Append] at hmem
  rcases hmem with hmem | hmem
  · simp at hmem
  · obtain ⟨x, hx, rfl⟩ := List.mem_map.mp hmem
    exact ⟨x, mem_setDuplicates xs x hx, rfl⟩

theorem setValueFrom_hasError_iff (s : GoSlice String) :
    (SetValueFrom s).2.HasError = true ↔ ¬ s.toList.Nodup := by
  cases s with
  | nil => simp [SetValueFrom, GoSlice.toList, Diagnostics.HasError]
  | mk xs =>
    by_cases h : xs.Nodup
    · simp [setValueFrom_nodup xs h, GoSlice.toList, h, Diagnostics.HasError]
    · simp [(setValueFrom_repeated xs h).2.1, GoSlice.toList, h]

theorem setValueFrom_of_nodup (s : GoSlice String) (h : s.toList.Nodup) :
    SetValueFrom s =
      (match s with
        | .nil => .null
        | .mk xs => .value (xs.map TFValue.value), []) := by
  cases s with
  | nil => rfl
  | mk xs => exact setValueFrom_nodup xs h

theorem setValueFrom_diags (s : GoSlice String) :
    ∀ d ∈ (SetValueFrom s).2, ∃ x ∈ s.toList, d = duplicateSetElement x := by
  cases s with
  | nil => intro d hd; simp [SetValueFrom] at hd
  | mk xs =>
    by_cases h : xs.Nodup
    · intro d hd
      simp [setValueFrom_nodup xs h] at hd
    · exact (setValueFrom_repeated xs h).2.2

theorem setValueFrom_noError (s : GoSlice String) (h : s.toList.Nodup) :
    (SetValueFrom s).2 = [] := by
  rw [setValueFrom_of_nodup s h]

theorem setValueFrom_unknown (s : GoSlice String) (h : ¬ s.toList.Nodup) :
    (SetValueFrom s).1 = .unknown := by
  cases s with
  | nil => exact absurd List.nodup_nil h
  | mk xs => exact (setValueFrom_repeated xs h).1

/-! ### First-occurrence deduplication -/

theorem mem_uniqFrom {α : Type} [DecidableEq α] (xs seen : List α) (x : α) :
    x ∈ uniqFrom seen xs ↔ x ∈ xs ∧ x ∉ seen := by
  induction xs generalizing seen with
  | nil => simp [uniqFrom]
  | cons y ys ih =>
    by_cases hy : y ∈ seen
    · simp only [uniqFrom, hy, if_true, ih, List.mem_cons]
      constructor
      · rintro ⟨h1, h2⟩
        exact ⟨Or.inr h1, h2⟩
      · rintro ⟨h1 | h1, h2⟩
        · exact absurd (h1 ▸ hy) h2
        · exact ⟨h1, h2⟩
    · simp only [uniqFrom, hy, if_false, List.mem_cons, ih]
      constructor
      · rintro (h | ⟨h1, h2⟩)
        · exact ⟨Or.inl h, h ▸ hy⟩
        · exact ⟨Or.inr h1, fun hs => h2 (Or.inr hs)⟩
      · rintro ⟨h1 | h1, h2⟩
        · exact Or.inl h1
        · by_cases hxy : x = y
          · exact Or.inl hxy
          · exact Or.inr ⟨h1, fun hs => hs.elim hxy h2⟩

theorem nodup_uniqFrom {α : Type} [DecidableEq α] (xs seen : List α) :
    (uniqFrom seen xs).Nodup := by
  induction xs generalizing seen with
  | nil => simp [uniqFrom]
  | cons y ys ih =>
    by_cases hy : y ∈ seen
    · simpa [uniqFrom, hy] using ih seen
    · simp only [uniqFrom, hy, if_false, List.nodup_cons]
      refine ⟨?_, ih _⟩
      rw [mem_uniqFrom]
      simp

theorem uniqFrom_congr {α : Type} [DecidableEq α] (xs s1 s2 : List α)
    (h : ∀ x, x ∈ s1 ↔ x ∈ s2) : uniqFrom s1 xs = uniqFrom s2 xs := by
  induction xs generalizing s1 s2 with
  | nil => rfl
  | cons y ys ih =>
    by_cases hy : y ∈ s1
    · have hy2 : y ∈ s2 := (h y).mp hy
      simp only [uniqFrom, hy, hy2, if_true]
      exact ih s1 s2 h
    · have hy2 : y ∉ s2 := fun m => hy ((h y).mpr m)
      simp only [uniqFrom, hy, hy2, if_false]
      rw [ih (y :: s1) (y :: s2) (by intro x; simp [h x])]

theorem uniqFrom_cons_seen {α : Type} [DecidableEq α] (xs seen : List α) (a : α) :
    uniqFrom (a :: seen) xs = (uniqFrom seen xs).filter (fun y => decide (y ≠ a)) := by
  induction xs generalizing seen with
  | nil => rfl
  | cons y ys ih =>
    by_cases hy : y ∈ seen
    · have hy2 : y ∈ a :: seen := List.mem_cons_of_mem _ hy
      simp only [uniqFrom, hy, hy2, if_true]
      exact ih seen
    · by_cases hya : y = a
      · subst hya
        simp only [uniqFrom, List.mem_cons_self, if_true, hy, if_false, List.filter_cons, ne_eq,
          not_true_eq_false, decide_False, Bool.false_eq_true]
        symm
        rw [List.filter_eq_self]
        intro x hx
        rw [mem_uniqFrom] at hx
        have hne : x ≠ y := fun h => hx.2 (by rw [h]; exact List.mem_cons_self _ _)
        simpa using hne
      · have hy2 : y ∉ a :: seen := by
          simp [hya, hy]
        simp only [uniqFrom, hy, hy2, if_false, List.filter_cons, ne_eq, hya, not_false_eq_true,
          decide_True, if_true]
        rw [← ih (y :: seen)]
        congr 1
        apply uniqFrom_congr
        intro x
        simp only [List.mem_cons]
        tauto

theorem uniqFrom_nil_cons {α : Type} [DecidableEq α] (x : α) (xs : List α) :
    uniqFrom [] (x :: xs) = x :: (uniqFrom [] xs).filter (fun y => decide (y ≠ x)) := by
  simp [uniqFrom, uniqFrom_cons_seen]

/-! ### Mesh entry conversion -/

theorem mesh_fromAPIModel_entities (e : accessFederationGetAllResponseAPIModel) :
    SetValueFrom (lo.Uniq (lo.Flatten (lo.Map e.Targets (fun target => target.Entities)))) =
      (.value ((uniqFrom [] (e.Targets.toList.flatMap (fun target => target.Entities.toList))).map
        TFValue.value), []) := by
  have h : lo.Uniq (lo.Flatten (lo.Map e.Targets (fun target => target.Entities))) =
      .mk (uniqFrom [] (e.Targets.toList.flatMap (fun target => target.Entities.toList))) := by
    simp [lo.Uniq, lo.Flatten, lo.Map, GoSlice.toList, List.flatMap_map]
  rw [h]
  exact setValueFrom_nodup _ (nodup_uniqFrom _ _)

theorem mesh_fromAPIModel_ids (e : accessFederationGetAllResponseAPIModel) :
    accessFederationMeshResourceModel.fromAPIModel.ids e =
      e.Source :: e.Targets.toList.map (fun target => target.ID) := by
  simp [accessFederationMeshResourceModel.fromAPIModel.ids, lo.Map, GoSlice.toList]

theorem mesh_fromAPIModel_distinct (r : accessFederationMeshResourceModel)
    (e : accessFederationGetAllResponseAPIModel)
    (h : (e.Source :: e.Targets.toList.map (fun target => target.ID)).Nodup) :
    r.fromAPIModel e =
      ({ ID := .value (strings.Join (e.Source :: e.Targets.toList.map (fun target => target.ID)) ":")
         IDs := .value ((e.Source :: e.Targets.toList.map (fun target => target.ID)).map
           TFValue.value)
         Entities := .value
           ((uniqFrom [] (e.Targets.toList.flatMap (fun target => target.Entities.toList))).map
             TFValue.value) }, []) := by
  simp only [accessFederationMeshResourceModel.fromAPIModel, mesh_fromAPIModel_entities e,
    mesh_fromAPIModel_ids, setValueFrom_nodup _ h, hasError_nil, Bool.false_eq_true, if_false]

theorem mesh_fromAPIModel_repeated (r : accessFederationMeshResourceModel)
    (e : accessFederationGetAllResponseAPIModel)
    (h : ¬ (e.Source :: e.Targets.toList.map (fun target => target.ID)).Nodup) :
    r.fromAPIModel e =
      ({ ID := .value (strings.Join (e.Source :: e.Targets.toList.map (fun target => target.ID)) ":")
         IDs := .unknown
         Entities := .value
           ((uniqFrom [] (e.Targets.toList.flatMap (fun target => target.Entities.toList))).map
             TFValue.value) },
        Diagnostics.Append []
          (SetValueFrom
            (.mk (e.Source :: e.Targets.toList.map (fun target => target.ID)))).2) := by
  simp only [accessFederationMeshResourceModel.fromAPIModel, mesh_fromAPIModel_entities e,
    mesh_fromAPIModel_ids, (setValueFrom_repeated _ h).1, (setValueFrom_repeated _ h).2.1,
    hasError_nil, Bool.false_eq_true, if_false, if_true]

theorem mesh_fromAPIModel_hasError_iff (r : accessFederationMeshResourceModel)
    (e : accessFederationGetAllResponseAPIModel) :
    (r.fromAPIModel e).2.HasError = true ↔
      ¬ (e.Source :: e.Targets.toList.map (fun target => target.ID)).Nodup := by
  by_cases h : (e.Source :: e.Targets.toList.map (fun target => target.ID)).Nodup
  · rw [mesh_fromAPIModel_distinct r e h]
    simp [hasError_nil, h]
  · rw [mesh_fromAPIModel_repeated r e h]
    simp [hasError_Append, (setValueFrom_repeated _ h).2.1, h]

theorem mesh_fromAPIModel_diags (r : accessFederationMeshResourceModel)
    (e : accessFederationGetAllResponseAPIModel) :
    ∀ d ∈ (r.fromAPIModel e).2,
      ∃ x ∈ e.Source :: e.Targets.toList.map (fun target => target.ID),
        d = duplicateSetElement x := by
  by_cases h : (e.Source :: e.Targets.toList.map (fun target => target.ID)).Nodup
  · rw [mesh_fromAPIModel_distinct r e h]
    intro d hd
    simp at hd
  · rw [mesh_fromAPIModel_repeated r e h]
    intro d hd
    rw [mem_Append] at hd
    rcases hd with hd | hd
    · simp at hd
    · exact (setValueFrom_repeated _ h).2.2 d hd

/-! ### JPD response conversion: diagnostics -/

theorem jpd_fromAPIModel_diagnostics (r : jpdResourceModel) (apiModel : jpdGetResponseAPIModel) :
    (r.fromAPIModel apiModel).2 =
      (if (SetValueFrom apiModel.Tags).2.HasError = true then
        Diagnostics.Append
          (if (SetValueFrom apiModel.Status.Warnings).2.HasError = true then
            Diagnostics.Append [] (SetValueFrom apiModel.Status.Warnings).2
           else [])
          (SetValueFrom apiModel.Tags).2
       else
        (if (SetValueFrom apiModel.Status.Warnings).2.HasError = true then
          Diagnostics.Append [] (SetValueFrom apiModel.Status.Warnings).2
         else [])) := rfl

theorem jpd_fromAPIModel_hasError_iff (r : jpdResourceModel)
    (apiModel : jpdGetResponseAPIModel) :
    (r.fromAPIModel apiModel).2.HasError = true ↔
      (¬ apiModel.Status.Warnings.toList.Nodup ∨ ¬ apiModel.Tags.toList.Nodup) := by
  rw [jpd_fromAPIModel_diagnostics]
  by_cases hwn : apiModel.Status.Warnings.toList.Nodup <;>
    by_cases htn : apiModel.Tags.toList.Nodup
  · rw [setValueFrom_noError _ hwn, setValueFrom_noError _ htn]
    simp [hasError_nil, hwn, htn]
  · have e2 := (setValueFrom_hasError_iff _).mpr htn
    rw [setValueFrom_noError _ hwn]
    simp [e2, hasError_nil, hasError_Append, hwn, htn]
  · have e1 := (setValueFrom_hasError_iff _).mpr hwn
    rw [setValueFrom_noError _ htn]
    simp [e1, hasError_nil, hasError_Append, hwn, htn]
  · have e1 := (setValueFrom_hasError_iff _).mpr hwn
    have e2 := (setValueFrom_hasError_iff _).mpr htn
    simp [e1, e2, hasError_Append, hwn, htn]

theorem jpd_fromAPIModel_clean (r : jpdResourceModel) (apiModel : jpdGetResponseAPIModel)
    (h : (r.fromAPIModel apiModel).2.HasError = false) : (r.fromAPIModel apiModel).2 = [] := by
  have hn : ¬ (¬ apiModel.Status.Warnings.toList.Nodup ∨ ¬ apiModel.Tags.toList.Nodup) := by
    intro hcon
    rw [(jpd_fromAPIModel_hasError_iff r apiModel).mpr hcon] at h
    exact Bool.noConfusion h
  have hw : apiModel.Status.Warnings.toList.Nodup := by
    by_contra hcon
    exact hn (Or.inl hcon)
  have ht : apiModel.Tags.toList.Nodup := by
    by_contra hcon
    exact hn (Or.inr hcon)
  rw [jpd_fromAPIModel_diagnostics, setValueFrom_noError _ hw, setValueFrom_noError _ ht]
  simp [hasError_nil]

theorem jpd_fromAPIModel_diags (r : jpdResourceModel) (apiModel : jpdGetResponseAPIModel) :
    ∀ d ∈ (r.fromAPIModel apiModel).2, ∃ x, d = duplicateSetElement x := by
  intro d hd
  rw [jpd_fromAPIModel_diagnostics] at hd
  have hinner : d ∈ (if (SetValueFrom apiModel.Status.Warnings).2.HasError = true then
      Diagnostics.Append [] (SetValueFrom apiModel.Status.Warnings).2 else []) →
      ∃ x, d = duplicateSetElement x := by
    intro hmem
    split at hmem
    · rw [mem_Append] at hmem
      rcases hmem with hmem | hmem
      · simp at hmem
      · obtain ⟨x, _, hx⟩ := setValueFrom_diags _ d hmem
        exact ⟨x, hx⟩
    · simp at hmem
  split at hd
  · rw [mem_Append] at hd
    rcases hd with hd | hd
    · exact hinner hd
    · obtain ⟨x, _, hx⟩ := setValueFrom_diags _ d hd
      exact ⟨x, hx⟩
  · exact hinner hd

theorem hasError_Append_nil_left (ds : Diagnostics) :
    (Diagnostics.Append [] ds).HasError = ds.HasError := by
  rw [hasError_Append, hasError_nil, Bool.false_or]

/-! ### Provider root -/

/-- C2 (evaluation of the code). `MissionControlProvider.Resources` registers
the license-bucket and JPD resources only: the star and mesh resource types are
not among the registered type names. -/
theorem resources_registers_two_of_four :
    MissionControlProvider.ResourceTypeNames =
        ["missioncontrol_license_bucket", "missioncontrol_jpd"] ∧
      (NewAccessFederationStarResource ()).TypeName ∉ MissionControlProvider.ResourceTypeNames ∧
      (NewAccessFederationMeshResource ()).TypeName ∉ MissionControlProvider.ResourceTypeNames := by
  refine ⟨rfl, ?_, ?_⟩ <;> decide

/-! ### Cross-attribute validators -/

theorem conflictsWith_loop_keeps_error (attrName : String) (others : List (String × ValueState))
    (acc : Diagnostics) (h : acc.HasError = true) :
    (ConflictsWith.loop attrName others acc).HasError = true := by
  induction others generalizing acc with
  | nil => simpa [ConflictsWith.loop] using h
  | cons o rest ih =>
    obtain ⟨other, st⟩ := o
    cases st
    · simpa [ConflictsWith.loop] using ih acc h
    · simpa [ConflictsWith.loop] using h
    · simp only [ConflictsWith.loop]
      exact ih _ (by simp [hasError_Append, h])

theorem conflictsWith_known (attrName other : String) (self : ValueState)
    (rest : List (String × ValueState)) (hself : self ≠ .null) :
    (ConflictsWith attrName self ((other, .known) :: rest)).HasError = true := by
  simp only [ConflictsWith, hself, if_false, ConflictsWith.loop]
  exact conflictsWith_loop_keeps_error _ _ _ (by simp [hasError_Append, hasError_cons])

theorem conflictsWith_null_head (attrName other : String) (self : ValueState)
    (rest : List (String × ValueState)) :
    ConflictsWith attrName self ((other, .null) :: rest) = ConflictsWith attrName self rest := by
  simp [ConflictsWith, ConflictsWith.loop]

theorem conflictsWith_none (attrName : String) (self : ValueState) :
    ConflictsWith attrName self [] = [] := by
  simp [ConflictsWith, ConflictsWith.loop]

theorem conflictsWith_self_null (attrName : String) (others : List (String × ValueState)) :
    ConflictsWith attrName .null others = [] := by
  simp [ConflictsWith]

theorem alsoRequires_loop_keeps_error (attrName : String) (others : List (String × ValueState))
    (acc : Diagnostics) (h : acc.HasError = true) :
    (AlsoRequires.loop attrName others acc).HasError = true := by
  induction others generalizing acc with
  | nil => simpa [AlsoRequires.loop] using h
  | cons o rest ih =>
    obtain ⟨other, st⟩ := o
    cases st
    · simp only [AlsoRequires.loop]
      exact ih _ (by simp [hasError_Append, h])
    · simpa [AlsoRequires.loop] using h
    · simpa [AlsoRequires.loop] using ih acc h

theorem alsoRequires_null (attrName other : String) (self : ValueState)
    (rest : List (String × ValueState)) (hself : self ≠ .null) :
    (AlsoRequires attrName self ((other, .null) :: rest)).HasError = true := by
  simp only [AlsoRequires, hself, if_false, AlsoRequires.loop]
  exact alsoRequires_loop_keeps_error _ _ _ (by simp [hasError_Append, hasError_cons])

theorem alsoRequires_self_null (attrName : String) (others : List (String × ValueState)) :
    AlsoRequires attrName .null others = [] := by
  simp [AlsoRequires]

theorem utf8ByteSize_go_pos (c : Char) (cs : List Char) :
    0 < String.utf8ByteSize.go (c :: cs) := by
  have h := Char.utf8Size_pos c
  simp only [String.utf8ByteSize.go]
  omega

theorem utf8ByteSize_lt_one (t : String) (ht : t ≠ "") : ¬ t.utf8ByteSize < 1 := by
  obtain ⟨cs⟩ := t
  cases cs with
  | nil => exact absurd rfl ht
  | cons c cs =>
    have h := utf8ByteSize_go_pos c cs
    simp only [String.utf8ByteSize]
    omega

theorem lengthAtLeast_one_ok (attrName t : String) (ht : t ≠ "") :
    LengthAtLeast 1 attrName (.value t) = [] := by
  simp [LengthAtLeast, utf8ByteSize_lt_one t ht]

theorem lengthAtLeast_null (n : Nat) (attrName : String) :
    LengthAtLeast n attrName .null = [] := rfl

/-! ### JPD schema validation -/

/-- C3 (refutation of the claim as stated). A configuration with valid name,
url and location and with no token, no username and no password passes the JPD
schema validators. -/
theorem jpd_validate_accepts_no_credentials :
    sampleJPDNoCredentials.Token = .null ∧ sampleJPDNoCredentials.Username = .null ∧
      sampleJPDNoCredentials.Password = .null ∧
      jpdResource.ValidateConfig hasHttpScheme sampleJPDNoCredentials = [] := by
  refine ⟨rfl, rfl, rfl, ?_⟩
  rfl

theorem jpd_validate_rejects_username_with_url :
    (jpdResource.ValidateConfig hasHttpScheme sampleLegacyJPD).HasError = true := by
  rfl

/-- C3 (amended). For a configuration whose name, url and location pass their
validators: a token together with a username or password is rejected (the
values being known, since an unknown value delays the check); a username
without a password, or a password without a username, is rejected; a non-empty
token alone is accepted; and a configuration with no credential at all is
accepted as well. -/
theorem jpd_validate_credentials (IsURLHttpOrHttps : String → Bool) (c : jpdResourceModel)
    (hname : (jpdResource.validateName c).HasError = false)
    (hurl : (jpdResource.validateURL IsURLHttpOrHttps c).HasError = false)
    (hloc : (jpdResource.validateLocation c).HasError = false) :
    (c.Token.state = .known → c.Username.state ≠ .unknown →
        (c.Username.state = .known ∨ c.Password.state = .known) →
        (jpdResource.ValidateConfig IsURLHttpOrHttps c).HasError = true) ∧
    ((c.Username.state = .known ∧ c.Password.state = .null) ∨
        (c.Username.state = .null ∧ c.Password.state = .known) →
        (jpdResource.ValidateConfig IsURLHttpOrHttps c).HasError = true) ∧
    (∀ t, c.Token = .value t → t ≠ "" → c.Username = .null → c.Password = .null →
        (jpdResource.ValidateConfig IsURLHttpOrHttps c).HasError = false) ∧
    (c.Token = .null → c.Username = .null → c.Password = .null →
        (jpdResource.ValidateConfig IsURLHttpOrHttps c).HasError = false) := by
  refine ⟨?_, ?_, ?_, ?_⟩
  · intro ht hu hup
    have hne : c.Token.state ≠ .null := by simp [ht]
    have htok : (jpdResource.validateToken c).HasError = true := by
      simp only [jpdResource.validateToken, hasError_append]
      cases hU : c.Username.state
      · rw [hU] at hup
        rcases hup with hup | hup
        · cases hup
        · rw [hup, conflictsWith_null_head, conflictsWith_known _ _ _ _ hne]; simp
      · exact absurd hU hu
      · rw [conflictsWith_known _ _ _ _ hne]; simp
    simp [jpdResource.ValidateConfig, hasError_append, htok]
  · intro h
    rcases h with ⟨hu, hp⟩ | ⟨hu, hp⟩
    · have huser : (jpdResource.validateUsername c).HasError = true := by
        simp only [jpdResource.validateUsername, hasError_append, hp]
        rw [alsoRequires_null _ _ _ _ (by simp [hu])]; simp
      simp [jpdResource.ValidateConfig, hasError_append, huser]
    · have hpass : (jpdResource.validatePassword c).HasError = true := by
        simp only [jpdResource.validatePassword, hasError_append, hu]
        rw [alsoRequires_null _ _ _ _ (by simp [hp])]; simp
      simp [jpdResource.ValidateConfig, hasError_append, hpass]
  · intro t hT ht hU hP
    simp [jpdResource.ValidateConfig, hasError_append, hname, hurl, hloc,
      jpdResource.validateToken, jpdResource.validateUsername, jpdResource.validatePassword,
      hT, hU, hP, TFValue.state, conflictsWith_null_head, conflictsWith_none,
      conflictsWith_self_null, alsoRequires_self_null, lengthAtLeast_one_ok _ t ht,
      lengthAtLeast_null, hasError_nil]
  · intro hT hU hP
    simp [jpdResource.ValidateConfig, hasError_append, hname, hurl, hloc,
      jpdResource.validateToken, jpdResource.validateUsername, jpdResource.validatePassword,
      hT, hU, hP, TFValue.state, conflictsWith_self_null, alsoRequires_self_null,
      lengthAtLeast_null, hasError_nil]

/-- Witness of C3 (amended) on the acceptance-test configuration, which supplies
a token alone: it is accepted. -/
theorem jpd_validate_credentials_witness :
    (jpdResource.ValidateConfig hasHttpScheme sampleJPD).HasError = false :=
  (jpd_validate_credentials hasHttpScheme sampleJPD rfl rfl rfl).2.2.1
    "join-key" rfl (by decide) rfl rfl

/-! ### Star conversion -/

/-- C5 (evaluation of the code). On the schema-valid star model whose single
target leaves the optional `permission_filters` out, `toAPIModel` panics instead
of returning a request with empty pattern lists. -/
theorem star_toAPIModel_panics_without_filters :
    sampleStarNoFilters.toAPIModel = none := by
  rfl

theorem knownStrings_of_known (elems : List TFString) (h : ∀ e ∈ elems, e.state = .known) :
    ∃ xs, knownStrings elems = some xs ∧ xs.map TFValue.value = elems := by
  induction elems with
  | nil => exact ⟨[], rfl, rfl⟩
  | cons e rest ih =>
    obtain ⟨xs, hxs, hmap⟩ := ih (fun a ha => h a (List.mem_cons_of_mem _ ha))
    have he := h e (List.mem_cons_self _ _)
    cases e with
    | null => simp [TFValue.state] at he
    | unknown => simp [TFValue.state] at he
    | value a =>
      refine ⟨a :: xs, ?_, by simp [hmap]⟩
      simp [knownStrings, hxs, knownString]

theorem elementsAs_known (elems : List TFString) (h : ∀ e ∈ elems, e.state = .known) :
    ∃ xs, ElementsAs (.value elems) = (.mk xs, []) ∧ xs.map TFValue.value = elems := by
  obtain ⟨xs, hxs, hmap⟩ := knownStrings_of_known elems h
  exact ⟨xs, by simp [ElementsAs, hxs], hmap⟩

theorem nodup_of_map_value (xs : List String) (h : (xs.map TFValue.value).Nodup) :
    xs.Nodup :=
  List.Nodup.of_map _ h

theorem elementsAs_convertible (s : TFSet TFString) (h : planSet s) :
    (ElementsAs s).2 = [] ∧
      accessFederationStarResourceModel.fromAPIModel.patterns (ElementsAs s).1 =
        (normalizePatterns s, []) := by
  obtain ⟨hc, hnd⟩ := h
  cases s with
  | null => exact ⟨rfl, rfl⟩
  | unknown => exact absurd hc (by simp [convertibleSet])
  | value elems =>
    obtain ⟨xs, hxs, hmap⟩ := elementsAs_known elems hc
    rw [hxs]
    refine ⟨rfl, ?_⟩
    subst hmap
    cases xs with
    | nil => rfl
    | cons a rest =>
      have hx : (a :: rest).Nodup := nodup_of_map_value _ hnd
      simp [accessFederationStarResourceModel.fromAPIModel.patterns, GoSlice.len,
        GoSlice.toList, setValueFrom_nodup _ hx, normalizePatterns]

theorem star_target_roundTrip (t : TFObject TargetAttrs) (ds : Diagnostics)
    (h : targetWithFilters t) :
    ∃ wire, accessFederationStarResourceModel.toAPIModel.target t ds = some (wire, ds) ∧
      ∀ ds2, accessFederationStarResourceModel.fromAPIModel.target wire ds2 =
        (normalizeTarget t, ds2) := by
  cases t with
  | null => exact absurd h (by simp [targetWithFilters])
  | unknown => exact absurd h (by simp [targetWithFilters])
  | value attrs =>
    obtain ⟨i, u, pfo⟩ := attrs
    cases pfo with
    | null => exact absurd h (by simp [targetWithFilters])
    | unknown => exact absurd h (by simp [targetWithFilters])
    | value pf =>
      obtain ⟨hi, hu, hinc, hexc⟩ := h
      obtain ⟨hi1, hi2⟩ := elementsAs_convertible pf.include_patterns hinc
      obtain ⟨he1, he2⟩ := elementsAs_convertible pf.exclude_patterns hexc
      cases i with
      | null => simp [TFValue.state] at hi
      | unknown => simp [TFValue.state] at hi
      | value iv =>
        cases u with
        | null => simp [TFValue.state] at hu
        | unknown => simp [TFValue.state] at hu
        | value uv =>
          refine ⟨{ ID := iv, URL := uv,
                    PermissionFilters :=
                      { IncludePatterns := (ElementsAs pf.include_patterns).1
                        ExcludePatterns := (ElementsAs pf.exclude_patterns).1 } }, ?_, ?_⟩
          · simp only [accessFederationStarResourceModel.toAPIModel.target, TFValue.Attributes,
              hi1, he1, hasError_nil]
            rfl
          · intro ds2
            simp only [accessFederationStarResourceModel.fromAPIModel.target, hi2, he2,
              normalizeTarget, TFValue.ValueString, hasError_nil, Bool.false_eq_true, if_false]

theorem star_targets_roundTrip (ts : List (TFObject TargetAttrs)) (ds : Diagnostics)
    (h : ∀ t ∈ ts, targetWithFilters t) :
    ∃ wire, accessFederationStarResourceModel.toAPIModel.targets ts ds = some (wire, ds) ∧
      (∀ ds2, accessFederationStarResourceModel.fromAPIModel.targets wire ds2 =
        (ts.map normalizeTarget, ds2)) ∧
      wire.length = ts.length := by
  induction ts with
  | nil => exact ⟨[], rfl, fun _ => rfl, rfl⟩
  | cons t rest ih =>
    obtain ⟨w, hw, hwmap⟩ := star_target_roundTrip t ds (h t (List.mem_cons_self _ _))
    obtain ⟨ws, hws, hwsmap, hlen⟩ := ih (fun a ha => h a (List.mem_cons_of_mem _ ha))
    refine ⟨w :: ws, ?_, ?_, by simp [hlen]⟩
    · simp [accessFederationStarResourceModel.toAPIModel.targets, hw, hws]
    · intro ds2
      simp [accessFederationStarResourceModel.fromAPIModel.targets, hwmap, hwsmap]

/-- C6 (refutation of the claim as stated). On the schema-valid star model whose
target has an empty `include_patterns` set, the round trip returns targets that
differ from the original: the empty set comes back null. -/
theorem star_roundTrip_loses_empty_patterns :
    ∃ y, accessFederationStarResourceModel.roundTrip sampleStarEmptyPatterns
        sampleStarEmptyPatterns = some y ∧
      y.Targets ≠ sampleStarEmptyPatterns.Targets ∧
      y.Targets = .value
        [.value
          { id := .value "JPD-2"
            url := .value "http://host.docker.internal:9082/access"
            permission_filters := .value
              { include_patterns := .null, exclude_patterns := .null } }] := by
  refine ⟨_, rfl, ?_, rfl⟩
  decide

/-- C6 (amended). Star round trip: for every star model `x` whose entities are a
known set of known strings and whose targets each have known `id` and `url` and
a `permission_filters` object with pattern sets that are null or known (sets of
a plan: none of them holds a repeated element), `toAPIModel` returns a request,
and `fromAPIModel` on a response carrying that request's entities and targets
yields entities equal to `x`'s and targets equal to `x`'s, element by element
and in the same order, except that an empty pattern set comes back null and an
empty targets set comes back null. -/
theorem star_roundTrip (r x : accessFederationStarResourceModel)
    (es : List TFString) (ts : List (TFObject TargetAttrs))
    (hE : x.Entities = .value es) (hes : ∀ e ∈ es, e.state = .known) (hnd : es.Nodup)
    (hT : x.Targets = .value ts) (hts : ∀ t ∈ ts, targetWithFilters t) :
    accessFederationStarResourceModel.roundTrip r x =
      some
        { ID := r.ID
          Entities := x.Entities
          Targets := if ts = [] then .null else .value (ts.map normalizeTarget) } := by
  obtain ⟨xs, hxs, hxmap⟩ := elementsAs_known es hes
  obtain ⟨wire, hwire, hwmap, hlen⟩ := star_targets_roundTrip ts [] hts
  have hxnd : xs.Nodup := nodup_of_map_value xs (by rw [hxmap]; exact hnd)
  have hcond : (0 < wire.length) = ¬ (ts = []) := by
    rw [hlen]
    cases ts <;> simp
  simp only [accessFederationStarResourceModel.roundTrip,
    accessFederationStarResourceModel.toAPIModel, hE, hxs, hT, TFValue.Elements,
    Diagnostics.Append, List.foldl_nil, hwire,
    accessFederationStarResourceModel.fromAPIModel, GoSlice.len, GoSlice.toList, lo.Map,
    setValueFrom_nodup xs hxnd, hxmap, hwmap, hcond]
  by_cases hnil : ts = [] <;> simp [hnil]

/-- Witness of C6 (amended) on the updated configuration of the acceptance test,
which has no empty set: the round trip restores it exactly. -/
theorem star_roundTrip_witness :
    accessFederationStarResourceModel.roundTrip sampleStar sampleStar = some sampleStar :=
  (star_roundTrip sampleStar sampleStar
    [.value "USERS", .value "GROUPS", .value "PERMISSIONS"] [sampleTarget] rfl
    (by decide) (by decide) rfl
    (by
      intro t ht
      rw [List.mem_singleton] at ht
      subst ht
      exact ⟨rfl, rfl, by decide, by decide⟩)).trans rfl

/-! ### JPD response conversion -/

/-- C8. For every JPD API response, `fromAPIModel` sets `cold_storage_jpd` to
null when `is_cold_storage` is false, whatever the response's
`cold_storage_jpd` holds, and to the string value of the response's
`cold_storage_jpd` when `is_cold_storage` is true; with the flag false the
result is never the known empty string. -/
theorem jpd_fromAPIModel_coldStorage (r : jpdResourceModel) (apiModel : jpdGetResponseAPIModel) :
    (r.fromAPIModel apiModel).1.ColdStorageJPD =
        (if apiModel.IsColdStorage then TFValue.value apiModel.ColdStorageJPD else TFValue.null) ∧
      (r.fromAPIModel { apiModel with IsColdStorage := false }).1.ColdStorageJPD = TFValue.null ∧
      (r.fromAPIModel { apiModel with IsColdStorage := false }).1.ColdStorageJPD ≠
        TFValue.value "" ∧
      (r.fromAPIModel { apiModel with IsColdStorage := true }).1.ColdStorageJPD =
        TFValue.value apiModel.ColdStorageJPD ∧
      (r.fromAPIModel apiModel).1.IsColdStorage = TFValue.value apiModel.IsColdStorage := by
  refine ⟨rfl, rfl, ?_, rfl, rfl⟩
  simp [jpdResourceModel.fromAPIModel]

/-! ### Star response conversion -/

/-- C9 (refutation of the claim as stated). A response that repeats one target
gives a model with two target elements although the response has one distinct
target; and a response with two distinct targets that differ only in a nil
versus an empty exclude list gives a model whose two elements are equal. -/
theorem star_fromAPIModel_target_count_not_distinct :
    ((sampleStar.fromAPIModel sampleStarResponseRepeated).1.Targets.Elements.length = 2 ∧
        sampleStarResponseRepeated.Targets.toList.dedup.length = 1) ∧
      (sampleStarResponseNilAndEmpty.Targets.toList.dedup.length = 2 ∧
        (sampleStar.fromAPIModel sampleStarResponseNilAndEmpty).1.Targets.Elements.dedup.length
          = 1) := by
  refine ⟨⟨rfl, ?_⟩, ?_, ?_⟩ <;> decide

theorem star_patterns_empty (wire : GoSlice String) (h : wire.len = 0) :
    accessFederationStarResourceModel.fromAPIModel.patterns wire = (.null, []) := by
  simp [accessFederationStarResourceModel.fromAPIModel.patterns, h]

theorem star_patterns_nonempty (wire : GoSlice String) (h : wire.len ≠ 0) :
    accessFederationStarResourceModel.fromAPIModel.patterns wire = SetValueFrom wire := by
  have hpos : 0 < wire.len := Nat.pos_of_ne_zero h
  simp [accessFederationStarResourceModel.fromAPIModel.patterns, hpos]

theorem star_patterns_hasError_iff (wire : GoSlice String) :
    (accessFederationStarResourceModel.fromAPIModel.patterns wire).2.HasError = true ↔
      ¬ wire.toList.Nodup := by
  by_cases h : wire.len = 0
  · have hnil : wire.toList = [] := List.length_eq_zero.mp h
    rw [star_patterns_empty wire h, hnil]
    simp [Diagnostics.HasError]
  · rw [star_patterns_nonempty wire h]
    exact setValueFrom_hasError_iff wire

theorem star_patterns_clean (wire : GoSlice String) (h : wire.toList.Nodup) :
    (accessFederationStarResourceModel.fromAPIModel.patterns wire).2 = [] := by
  by_cases h0 : wire.len = 0
  · rw [star_patterns_empty wire h0]
  · rw [star_patterns_nonempty wire h0]
    exact setValueFrom_noError wire h

theorem star_patterns_diags (wire : GoSlice String) :
    ∀ d ∈ (accessFederationStarResourceModel.fromAPIModel.patterns wire).2,
      ∃ x ∈ wire.toList, d = duplicateSetElement x := by
  by_cases h0 : wire.len = 0
  · rw [star_patterns_empty wire h0]
    intro d hd
    simp at hd
  · rw [star_patterns_nonempty wire h0]
    exact setValueFrom_diags wire

theorem star_target_hasError_iff (t : accessFederationTargetAPIModel) (ds : Diagnostics) :
    (accessFederationStarResourceModel.fromAPIModel.target t ds).2.HasError = true ↔
      (ds.HasError = true ∨ ¬ t.PermissionFilters.IncludePatterns.toList.Nodup ∨
        ¬ t.PermissionFilters.ExcludePatterns.toList.Nodup) := by
  have hi := star_patterns_hasError_iff t.PermissionFilters.IncludePatterns
  have he := star_patterns_hasError_iff t.PermissionFilters.ExcludePatterns
  simp only [accessFederationStarResourceModel.fromAPIModel.target]
  by_cases h1 : t.PermissionFilters.IncludePatterns.toList.Nodup <;>
    by_cases h2 : t.PermissionFilters.ExcludePatterns.toList.Nodup
  · have e1 := star_patterns_clean _ h1
    have e2 := star_patterns_clean _ h2
    simp [e1, e2, h1, h2, hasError_nil]
  · have e1 := star_patterns_clean _ h1
    have e2 := he.mpr h2
    simp [e1, e2, h1, h2, hasError_nil, hasError_Append]
  · have e1 := hi.mpr h1
    have e2 := star_patterns_clean _ h2
    simp [e1, e2, h1, h2, hasError_nil, hasError_Append]
  · have e1 := hi.mpr h1
    have e2 := he.mpr h2
    simp [e1, e2, h1, h2, hasError_Append]

theorem star_target_clean (t : accessFederationTargetAPIModel) (ds : Diagnostics)
    (h1 : t.PermissionFilters.IncludePatterns.toList.Nodup)
    (h2 : t.PermissionFilters.ExcludePatterns.toList.Nodup) :
    (accessFederationStarResourceModel.fromAPIModel.target t ds).2 = ds := by
  simp [accessFederationStarResourceModel.fromAPIModel.target, star_patterns_clean _ h1,
    star_patterns_clean _ h2, hasError_nil]

theorem star_target_diags (t : accessFederationTargetAPIModel) (ds : Diagnostics) :
    ∀ d ∈ (accessFederationStarResourceModel.fromAPIModel.target t ds).2,
      d ∈ ds ∨ ∃ x, d = duplicateSetElement x := by
  intro d hd
  simp only [accessFederationStarResourceModel.fromAPIModel.target] at hd
  have key : ∀ (acc : Diagnostics) (w : GoSlice String),
      d ∈ (if (accessFederationStarResourceModel.fromAPIModel.patterns w).2.HasError = true then
             Diagnostics.Append acc (accessFederationStarResourceModel.fromAPIModel.patterns w).2
           else acc) →
      d ∈ acc ∨ ∃ x, d = duplicateSetElement x := by
    intro acc w hmem
    split at hmem
    · rw [mem_Append] at hmem
      rcases hmem with hmem | hmem
      · exact Or.inl hmem
      · obtain ⟨x, _, hx⟩ := star_patterns_diags w d hmem
        exact Or.inr ⟨x, hx⟩
    · exact Or.inl hmem
  rcases key _ _ hd with h | h
  · exact key _ _ h
  · exact Or.inr h

theorem star_targets_elements (ts : List accessFederationTargetAPIModel) (ds : Diagnostics) :
    (accessFederationStarResourceModel.fromAPIModel.targets ts ds).1 =
      ts.map (fun t => (accessFederationStarResourceModel.fromAPIModel.target t []).1) := by
  induction ts generalizing ds with
  | nil => rfl
  | cons t rest ih =>
    simp only [accessFederationStarResourceModel.fromAPIModel.targets, List.map_cons, ih]
    rfl

theorem star_targets_hasError_iff (ts : List accessFederationTargetAPIModel)
    (ds : Diagnostics) :
    (accessFederationStarResourceModel.fromAPIModel.targets ts ds).2.HasError = true ↔
      (ds.HasError = true ∨ ∃ t ∈ ts, ¬ t.PermissionFilters.IncludePatterns.toList.Nodup ∨
        ¬ t.PermissionFilters.ExcludePatterns.toList.Nodup) := by
  induction ts generalizing ds with
  | nil => simp [accessFederationStarResourceModel.fromAPIModel.targets]
  | cons t rest ih =>
    simp only [accessFederationStarResourceModel.fromAPIModel.targets, ih,
      star_target_hasError_iff]
    constructor
    · rintro ((h | h) | ⟨a, ha, h⟩)
      · exact Or.inl h
      · exact Or.inr ⟨t, List.mem_cons_self _ _, h⟩
      · exact Or.inr ⟨a, List.mem_cons_of_mem _ ha, h⟩
    · rintro (h | ⟨a, ha, h⟩)
      · exact Or.inl (Or.inl h)
      · rcases List.mem_cons.mp ha with rfl | ha
        · exact Or.inl (Or.inr h)
        · exact Or.inr ⟨a, ha, h⟩

theorem star_targets_clean (ts : List accessFederationTargetAPIModel) (ds : Diagnostics)
    (h : ∀ t ∈ ts, t.PermissionFilters.IncludePatterns.toList.Nodup ∧
      t.PermissionFilters.ExcludePatterns.toList.Nodup) :
    (accessFederationStarResourceModel.fromAPIModel.targets ts ds).2 = ds := by
  induction ts generalizing ds with
  | nil => rfl
  | cons t rest ih =>
    have ht := h t (List.mem_cons_self _ _)
    simp only [accessFederationStarResourceModel.fromAPIModel.targets]
    rw [ih _ (fun a ha => h a (List.mem_cons_of_mem _ ha)), star_target_clean t ds ht.1 ht.2]

theorem star_targets_diags (ts : List accessFederationTargetAPIModel) (ds : Diagnostics) :
    ∀ d ∈ (accessFederationStarResourceModel.fromAPIModel.targets ts ds).2,
      d ∈ ds ∨ ∃ x, d = duplicateSetElement x := by
  induction ts generalizing ds with
  | nil => intro d hd; exact Or.inl hd
  | cons t rest ih =>
    intro d hd
    simp only [accessFederationStarResourceModel.fromAPIModel.targets] at hd
    rcases ih _ d hd with h | h
    · exact star_target_diags t ds d h
    · exact Or.inr h

theorem star_fromAPIModel_diagnostics (r : accessFederationStarResourceModel)
    (apiModel : accessFederationGetResponseAPIModel) :
    (r.fromAPIModel apiModel).2 =
      (if (SetValueFrom apiModel.Entities).2.HasError = true then
        Diagnostics.Append
          (accessFederationStarResourceModel.fromAPIModel.targets apiModel.Targets.toList []).2
          (SetValueFrom apiModel.Entities).2
       else
        (accessFederationStarResourceModel.fromAPIModel.targets apiModel.Targets.toList []).2) := by
  by_cases h : 0 < apiModel.Targets.len
  · simp [accessFederationStarResourceModel.fromAPIModel, h]
  · have hnil : apiModel.Targets.toList = [] := by
      have : apiModel.Targets.len = 0 := by omega
      exact List.length_eq_zero.mp this
    simp [accessFederationStarResourceModel.fromAPIModel, h, hnil,
      accessFederationStarResourceModel.fromAPIModel.targets]

/-- C9 (amended). For every star API response, `fromAPIModel` sets targets to
null when the response has no targets and otherwise to one element per response
target, in response order and without merging repeated targets, so the number of
target elements in the model equals the number of targets in the response; each
element carries the target's id and url and a `permission_filters` object whose
include (respectively exclude) set is null when the wire list is empty or
missing, the known set of exactly the wire list's elements when the list holds
no repeated element, and unknown when it repeats one; entities are null for a
missing list, the known set of the response's entities when none is repeated,
and unknown otherwise.  `fromAPIModel` returns an error exactly when the
entities or some pattern list repeat an element; every diagnostic it returns is
a `Duplicate Set Element` error, and without a repeat there is none. -/
theorem star_fromAPIModel_targets (r : accessFederationStarResourceModel)
    (apiModel : accessFederationGetResponseAPIModel) :
    (r.fromAPIModel apiModel).1.Targets =
        (if apiModel.Targets.len = 0 then TFValue.null
         else TFValue.value
           (apiModel.Targets.toList.map
             (fun t => (accessFederationStarResourceModel.fromAPIModel.target t []).1))) ∧
      (r.fromAPIModel apiModel).1.Targets.Elements.length = apiModel.Targets.len ∧
      (∀ (t : accessFederationTargetAPIModel) (ds : Diagnostics),
        (accessFederationStarResourceModel.fromAPIModel.target t ds).1 =
          TFValue.value
            { id := TFValue.value t.ID
              url := TFValue.value t.URL
              permission_filters := TFValue.value
                { include_patterns :=
                    (accessFederationStarResourceModel.fromAPIModel.patterns
                      t.PermissionFilters.IncludePatterns).1
                  exclude_patterns :=
                    (accessFederationStarResourceModel.fromAPIModel.patterns
                      t.PermissionFilters.ExcludePatterns).1 } }) ∧
      (∀ wire : GoSlice String,
        (wire.len = 0 →
          accessFederationStarResourceModel.fromAPIModel.patterns wire = (TFValue.null, [])) ∧
        (wire.len ≠ 0 → wire.toList.Nodup →
          accessFederationStarResourceModel.fromAPIModel.patterns wire =
            (TFValue.value (wire.toList.map TFValue.value), [])) ∧
        (¬ wire.toList.Nodup →
          (accessFederationStarResourceModel.fromAPIModel.patterns wire).1 = TFValue.unknown ∧
            (accessFederationStarResourceModel.fromAPIModel.patterns wire).2.HasError = true)) ∧
      (apiModel.Entities = .nil → (r.fromAPIModel apiModel).1.Entities = TFValue.null) ∧
      (∀ xs, apiModel.Entities = .mk xs → xs.Nodup →
        (r.fromAPIModel apiModel).1.Entities = TFValue.value (xs.map TFValue.value)) ∧
      (¬ apiModel.Entities.toList.Nodup →
        (r.fromAPIModel apiModel).1.Entities = TFValue.unknown) ∧
      (r.fromAPIModel apiModel).1.ID = r.ID ∧
      ((r.fromAPIModel apiModel).2.HasError = true ↔
        (¬ apiModel.Entities.toList.Nodup ∨
          ∃ t ∈ apiModel.Targets.toList,
            ¬ t.PermissionFilters.IncludePatterns.toList.Nodup ∨
              ¬ t.PermissionFilters.ExcludePatterns.toList.Nodup)) ∧
      ((r.fromAPIModel apiModel).2.HasError = false → (r.fromAPIModel apiModel).2 = []) ∧
      (∀ d ∈ (r.fromAPIModel apiModel).2, ∃ x, d = duplicateSetElement x) := by
  have hT : (r.fromAPIModel apiModel).1.Targets =
      (if apiModel.Targets.len = 0 then TFValue.null
       else TFValue.value
         (apiModel.Targets.toList.map
           (fun t => (accessFederationStarResourceModel.fromAPIModel.target t []).1))) := by
    by_cases h : apiModel.Targets.len = 0
    · simp [accessFederationStarResourceModel.fromAPIModel, h]
    · have hpos : 0 < apiModel.Targets.len := Nat.pos_of_ne_zero h
      simp only [accessFederationStarResourceModel.fromAPIModel, h, hpos, if_true, if_false,
        star_targets_elements]
  have hE : (r.fromAPIModel apiModel).1.Entities = (SetValueFrom apiModel.Entities).1 := rfl
  have hiff : (r.fromAPIModel apiModel).2.HasError = true ↔
      (¬ apiModel.Entities.toList.Nodup ∨
        ∃ t ∈ apiModel.Targets.toList,
          ¬ t.PermissionFilters.IncludePatterns.toList.Nodup ∨
            ¬ t.PermissionFilters.ExcludePatterns.toList.Nodup) := by
    rw [star_fromAPIModel_diagnostics]
    have hs := setValueFrom_hasError_iff apiModel.Entities
    have ht := star_targets_hasError_iff apiModel.Targets.toList []
    by_cases he : (SetValueFrom apiModel.Entities).2.HasError = true
    · rw [if_pos he, hasError_Append, he, Bool.or_true]
      exact ⟨fun _ => Or.inl (hs.mp he), fun _ => rfl⟩
    · rw [if_neg he, ht]
      have hn : apiModel.Entities.toList.Nodup := by
        by_contra hcon
        exact he (hs.mpr hcon)
      constructor
      · rintro (h | h)
        · simp [hasError_nil] at h
        · exact Or.inr h
      · rintro (h | h)
        · exact absurd hn h
        · exact Or.inr h
  refine ⟨hT, ?_, fun t ds => rfl, ?_, ?_, ?_, ?_, rfl, hiff, ?_, ?_⟩
  · rw [hT]
    by_cases h : apiModel.Targets.len = 0
    · rw [if_pos h, h]
      rfl
    · rw [if_neg h]
      simp [TFValue.Elements, GoSlice.len]
  · intro wire
    refine ⟨star_patterns_empty wire, ?_, ?_⟩
    · intro h0 hnd
      rw [star_patterns_nonempty wire h0, setValueFrom_of_nodup wire hnd]
      cases wire with
      | nil => simp [GoSlice.len, GoSlice.toList] at h0
      | mk xs => rfl
    · intro hnd
      have h0 : wire.len ≠ 0 := by
        intro h0
        have hnil : wire.toList = [] := List.length_eq_zero.mp h0
        exact hnd (by rw [hnil]; exact List.nodup_nil)
      rw [star_patterns_nonempty wire h0]
      exact ⟨setValueFrom_unknown wire hnd, (setValueFrom_hasError_iff wire).mpr hnd⟩
  · intro hnil
    rw [hE, hnil]
    rfl
  · intro xs hxs hnd
    rw [hE, hxs, setValueFrom_nodup xs hnd]
  · intro hnd
    rw [hE]
    exact setValueFrom_unknown _ hnd
  · intro hno
    have hnot : ¬ (¬ apiModel.Entities.toList.Nodup ∨
        ∃ t ∈ apiModel.Targets.toList,
          ¬ t.PermissionFilters.IncludePatterns.toList.Nodup ∨
            ¬ t.PermissionFilters.ExcludePatterns.toList.Nodup) := by
      intro hcon
      rw [hiff.mpr hcon] at hno
      exact Bool.noConfusion hno
    have hen : apiModel.Entities.toList.Nodup := by
      by_contra hcon
      exact hnot (Or.inl hcon)
    have hts : ∀ t ∈ apiModel.Targets.toList,
        t.PermissionFilters.IncludePatterns.toList.Nodup ∧
          t.PermissionFilters.ExcludePatterns.toList.Nodup := by
      intro t ht
      constructor
      · by_contra hcon
        exact hnot (Or.inr ⟨t, ht, Or.inl hcon⟩)
      · by_contra hcon
        exact hnot (Or.inr ⟨t, ht, Or.inr hcon⟩)
    rw [star_fromAPIModel_diagnostics, setValueFrom_noError _ hen, star_targets_clean _ _ hts]
    simp [hasError_nil]
  · intro d hd
    rw [star_fromAPIModel_diagnostics] at hd
    split at hd
    · rw [mem_Append] at hd
      rcases hd with hd | hd
      · rcases star_targets_diags _ _ d hd with h | h
        · simp at h
        · exact h
      · obtain ⟨x, _, hx⟩ := setValueFrom_diags _ d hd
        exact ⟨x, hx⟩
    · rcases star_targets_diags _ _ d hd with h | h
      · simp at h
      · exact h

/-- Witness of C9 (amended) on a response whose only target repeats the include
pattern `foo`: the conversion reports an error and the include set is unknown. -/
theorem star_fromAPIModel_targets_witness :
    (sampleStar.fromAPIModel sampleStarResponseRepeatedPattern).2.HasError = true ∧
      (accessFederationStarResourceModel.fromAPIModel.patterns (.mk ["foo", "foo"])).1 =
        TFValue.unknown :=
  ⟨(star_fromAPIModel_targets sampleStar sampleStarResponseRepeatedPattern).2.2.2.2.2.2.2.2.1.mpr
      (Or.inr ⟨_, List.mem_singleton.mpr rfl, Or.inl (by decide)⟩),
    ((star_fromAPIModel_targets sampleStar sampleStarResponseRepeatedPattern).2.2.2.1
      (.mk ["foo", "foo"])).2.2 (by decide) |>.1⟩

/-! ### Mesh import -/

theorem meshSetIds_nodup (state : accessFederationMeshResourceModel) (parts : List String)
    (h : parts.Nodup) :
    meshState.SetAttribute.ids state parts =
      ({ state with IDs := .value (parts.map TFValue.value) }, []) := by
  simp [meshState.SetAttribute.ids, setValueFrom_nodup parts h, hasError_nil]

theorem meshSetIds_repeated (state : accessFederationMeshResourceModel) (parts : List String)
    (h : ¬ parts.Nodup) :
    meshState.SetAttribute.ids state parts = (state, (SetValueFrom (.mk parts)).2) := by
  simp [meshState.SetAttribute.ids, (setValueFrom_repeated parts h).2.1]

/-- C10 (refutation of the claim as stated). The identifier `A:A` splits into 2
segments, yet `ImportState` reports the error `Duplicate Set Element`: `id` is
set to `A:A` and `ids` is left null. -/
theorem mesh_importState_rejects_repeated_segment :
    (strings.Split "A:A" ':').length = 2 ∧
      accessFederationMeshResource.ImportState "A:A" meshImportStateResponse.fresh =
        { Diagnostics := [duplicateSetElement "A"]
          State :=
            { ID := TFValue.value "A:A", IDs := TFValue.null, Entities := TFValue.null } } ∧
      (accessFederationMeshResource.ImportState "A:A"
        meshImportStateResponse.fresh).Diagnostics.HasError = true := by
  refine ⟨by decide, ?_, ?_⟩ <;> rfl

/-- C10 (amended). For every import identifier `s`, `ImportState` on a fresh
response succeeds exactly when splitting `s` on the colon yields at least 2
segments that are pairwise distinct; on success it adds no diagnostic, sets `id`
to `s` verbatim and `ids` to exactly the segments, in order.  With fewer than 2
segments it adds the error `Unexpected Import Identifier` and sets no state
attribute; with at least 2 segments one of which is repeated it sets `id` to
`s`, leaves `ids` null and reports `Duplicate Set Element` errors, each for a
segment.  In particular `A:B:C` gives the ids `A`, `B`, `C`, and the
single-segment `A` fails. -/
theorem mesh_importState (s : String) :
    ((accessFederationMeshResource.ImportState s meshImportStateResponse.fresh).Diagnostics.HasError
        = false ↔ (2 ≤ (strings.Split s ':').length ∧ (strings.Split s ':').Nodup)) ∧
      (2 ≤ (strings.Split s ':').length → (strings.Split s ':').Nodup →
        accessFederationMeshResource.ImportState s meshImportStateResponse.fresh =
          { Diagnostics := []
            State :=
              { ID := TFValue.value s
                IDs := TFValue.value ((strings.Split s ':').map TFValue.value)
                Entities := TFValue.null } }) ∧
      (2 ≤ (strings.Split s ':').length → ¬ (strings.Split s ':').Nodup →
        (accessFederationMeshResource.ImportState s meshImportStateResponse.fresh).State =
            { ID := TFValue.value s, IDs := TFValue.null, Entities := TFValue.null } ∧
          (accessFederationMeshResource.ImportState s
            meshImportStateResponse.fresh).Diagnostics.HasError = true ∧
          ∀ d ∈ (accessFederationMeshResource.ImportState s
              meshImportStateResponse.fresh).Diagnostics,
            ∃ x ∈ strings.Split s ':', d = duplicateSetElement x) ∧
      (¬ 2 ≤ (strings.Split s ':').length →
        (accessFederationMeshResource.ImportState s meshImportStateResponse.fresh).Diagnostics =
            [⟨Severity.error, "Unexpected Import Identifier",
              "Expected at least one JPD ID in the form of: jpd_id_1:jpd_id_2:..."⟩] ∧
          (accessFederationMeshResource.ImportState s meshImportStateResponse.fresh).State =
            meshImportStateResponse.fresh.State) ∧
      (accessFederationMeshResource.ImportState "A:B:C" meshImportStateResponse.fresh).State.IDs =
        TFValue.value [TFValue.value "A", TFValue.value "B", TFValue.value "C"] ∧
      (accessFederationMeshResource.ImportState "A" meshImportStateResponse.fresh).Diagnostics.HasError
        = true ∧
      (accessFederationMeshResource.ImportState "A" meshImportStateResponse.fresh).State =
        meshImportStateResponse.fresh.State := by
  have hok : 2 ≤ (strings.Split s ':').length → (strings.Split s ':').Nodup →
      accessFederationMeshResource.ImportState s meshImportStateResponse.fresh =
        { Diagnostics := []
          State :=
            { ID := TFValue.value s
              IDs := TFValue.value ((strings.Split s ':').map TFValue.value)
              Entities := TFValue.null } } := by
    intro h2 hnd
    have h : ¬ (strings.Split s ':').length ≤ 1 := by omega
    simp [accessFederationMeshResource.ImportState, h, meshImportStateResponse.fresh,
      meshSetIds_nodup _ _ hnd, append_nil_diagnostics]
  have hrep : 2 ≤ (strings.Split s ':').length → ¬ (strings.Split s ':').Nodup →
      accessFederationMeshResource.ImportState s meshImportStateResponse.fresh =
        { Diagnostics := Diagnostics.Append [] (SetValueFrom (.mk (strings.Split s ':'))).2
          State := { ID := TFValue.value s, IDs := TFValue.null, Entities := TFValue.null } } := by
    intro h2 hnd
    have h : ¬ (strings.Split s ':').length ≤ 1 := by omega
    simp [accessFederationMeshResource.ImportState, h, meshImportStateResponse.fresh,
      meshSetIds_repeated _ _ hnd, append_nil_diagnostics]
  have hshort : ¬ 2 ≤ (strings.Split s ':').length →
      (accessFederationMeshResource.ImportState s meshImportStateResponse.fresh).Diagnostics =
          [⟨Severity.error, "Unexpected Import Identifier",
            "Expected at least one JPD ID in the form of: jpd_id_1:jpd_id_2:..."⟩] ∧
        (accessFederationMeshResource.ImportState s meshImportStateResponse.fresh).State =
          meshImportStateResponse.fresh.State := by
    intro h2
    have h : (strings.Split s ':').length ≤ 1 := by omega
    simp [accessFederationMeshResource.ImportState, h, meshImportStateResponse.fresh,
      Diagnostics.AddError, Diagnostics.Append]
  refine ⟨?_, hok, ?_, hshort, rfl, rfl, rfl⟩
  · by_cases h2 : 2 ≤ (strings.Split s ':').length
    · by_cases hnd : (strings.Split s ':').Nodup
      · rw [hok h2 hnd]
        exact ⟨fun _ => ⟨h2, hnd⟩, fun _ => rfl⟩
      · rw [hrep h2 hnd]
        simp only [hasError_Append, hasError_nil, Bool.false_or,
          (setValueFrom_repeated _ hnd).2.1]
        exact ⟨fun h => Bool.noConfusion h, fun h => absurd h.2 hnd⟩
    · rw [(hshort h2).1]
      exact ⟨fun h => Bool.noConfusion h, fun h => absurd h.1 h2⟩
  · intro h2 hnd
    rw [hrep h2 hnd]
    refine ⟨rfl, ?_, ?_⟩
    · simp only [hasError_Append, hasError_nil, Bool.false_or,
        (setValueFrom_repeated _ hnd).2.1]
    · intro d hd
      simp only [mem_Append] at hd
      rcases hd with hd | hd
      · simp at hd
      · exact (setValueFrom_repeated _ hnd).2.2 d hd

/-- Witness of C10 (amended) on the identifier of the acceptance test,
`JPD-1:JPD-2`. -/
theorem mesh_importState_witness :
    accessFederationMeshResource.ImportState "JPD-1:JPD-2" meshImportStateResponse.fresh =
      { Diagnostics := []
        State :=
          { ID := TFValue.value "JPD-1:JPD-2"
            IDs := TFValue.value [TFValue.value "JPD-1", TFValue.value "JPD-2"]
            Entities := TFValue.null } } :=
  ((mesh_importState "JPD-1:JPD-2").2.1 (by decide) (by decide)).trans rfl

/-! ### License bucket validation and creation -/

/-- C4 (refutation of the claim as stated). A license-bucket configuration with
neither `url` nor `file` passes the schema validators. -/
theorem licenseBucket_validate_accepts_neither :
    sampleBucketNeither.URL = .null ∧ sampleBucketNeither.File = .null ∧
      licenseBucketResource.ValidateConfig hasHttpScheme sampleBucketNeither = [] := by
  refine ⟨rfl, rfl, ?_⟩
  rfl

/-- C4 (amended). For a license-bucket configuration whose name and key pass
their validators: with both `url` and `file` set validation rejects it; with
exactly one of them set (a valid url, or a non-empty file path) validation
accepts it; with neither set validation accepts it too, and `Create` then
issues no HTTP request, because reading the file at the empty path fails: it
adds the create error and stores no state. -/
theorem licenseBucket_validate_source (IsURLHttpOrHttps : String → Bool)
    (c : licenseBucketResourceModel)
    (hname : (licenseBucketResource.validateName c).HasError = false)
    (hkey : (licenseBucketResource.validateKey c).HasError = false) :
    (c.URL.state = .known → c.File.state = .known →
        (licenseBucketResource.ValidateConfig IsURLHttpOrHttps c).HasError = true) ∧
    (∀ u, c.URL = .value u → IsURLHttpOrHttps u = true → c.File = .null →
        (licenseBucketResource.ValidateConfig IsURLHttpOrHttps c).HasError = false) ∧
    (∀ f, c.File = .value f → f ≠ "" → c.URL = .null →
        (licenseBucketResource.ValidateConfig IsURLHttpOrHttps c).HasError = false) ∧
    (c.URL = .null → c.File = .null →
        (licenseBucketResource.ValidateConfig IsURLHttpOrHttps c).HasError = false ∧
        ∀ (ReadFile : String → Except String (List Nat))
          (client : Request → HTTPOutcome licenseBucketPostResponseAPIModel)
          (resp : CreateResponse licenseBucketResourceModel) (err : String),
          ReadFile "" = .error err →
            licenseBucketResource.Create ReadFile client c resp =
                (UnableToCreateResourceError resp err, []) ∧
              (UnableToCreateResourceError resp err).Diagnostics.HasError = true ∧
              (UnableToCreateResourceError resp err).State = resp.State) := by
  refine ⟨?_, ?_, ?_, ?_⟩
  · intro hu hf
    have hurl : (licenseBucketResource.validateURL IsURLHttpOrHttps c).HasError = true := by
      simp only [licenseBucketResource.validateURL, hasError_append, hf]
      rw [conflictsWith_known _ _ _ _ (by simp [hu])]; simp
    simp [licenseBucketResource.ValidateConfig, hasError_append, hurl]
  · intro u hU hok hF
    simp [licenseBucketResource.ValidateConfig, hasError_append, hname, hkey,
      licenseBucketResource.validateURL, licenseBucketResource.validateFile, hU, hF,
      TFValue.state, StringMatches, hok, conflictsWith_null_head, conflictsWith_none,
      conflictsWith_self_null, lengthAtLeast_null, hasError_nil]
  · intro f hF hf hU
    simp [licenseBucketResource.ValidateConfig, hasError_append, hname, hkey,
      licenseBucketResource.validateURL, licenseBucketResource.validateFile, hU, hF,
      TFValue.state, StringMatches, conflictsWith_null_head, conflictsWith_none,
      conflictsWith_self_null, lengthAtLeast_one_ok _ f hf, hasError_nil]
  · intro hU hF
    refine ⟨?_, ?_⟩
    · simp [licenseBucketResource.ValidateConfig, hasError_append, hname, hkey,
        licenseBucketResource.validateURL, licenseBucketResource.validateFile, hU, hF,
        TFValue.state, StringMatches, conflictsWith_self_null, lengthAtLeast_null, hasError_nil]
    · intro ReadFile client resp err hread
      have h0 : ¬ 0 < ("" : String).utf8ByteSize := by decide
      refine ⟨?_, ?_, rfl⟩
      · simp [licenseBucketResource.Create, hU, hF, TFValue.ValueString, h0, hread]
      · simp [UnableToCreateResourceError, hasError_AddError]

/-- Witness of C4 (amended) on the configuration with neither source and a file
system without files: `Create` issues no request. -/
theorem licenseBucket_validate_source_witness :
    licenseBucketResource.Create noFiles
        (remoteCreated
          { ID := "", Subject := "", ProductName := "", ProductID := 0, LicenseType := "",
            IssuedDate := "", ValidDate := "", Quantity := 0, Signature := "", Name := "",
            Used := 0, URL := "" })
        sampleBucketNeither CreateResponse.fresh =
      (UnableToCreateResourceError CreateResponse.fresh
        "open : no such file or directory", []) :=
  (((licenseBucket_validate_source hasHttpScheme sampleBucketNeither rfl rfl).2.2.2 rfl rfl).2
    noFiles _ CreateResponse.fresh "open : no such file or directory" rfl).1

/-! ### JPD round trip -/

theorem elementsAs_setValueFrom (s : TFSet TFString) (h : planSet s) :
    (ElementsAs s).2 = [] ∧ SetValueFrom (ElementsAs s).1 = (s, []) := by
  obtain ⟨hc, hnd⟩ := h
  cases s with
  | null => exact ⟨rfl, rfl⟩
  | unknown => exact absurd hc (by simp [convertibleSet])
  | value elems =>
    obtain ⟨xs, hxs, hmap⟩ := elementsAs_known elems hc
    rw [hxs]
    subst hmap
    exact ⟨rfl, setValueFrom_nodup xs (nodup_of_map_value xs hnd)⟩

/-- C7. JPD round trip: for every JPD model `x` that satisfies the schema (known
`name` and `url`, a `location` object with known `city_name`, `country_code`,
`latitude` and `longitude`, and `tags` null or a known set of known strings)
and every version `v`, `toAPIModel` returns a request, and `fromAPIModel` applied
to any response that echoes the request's name, url, location and tags yields a
model whose name, url and location equal `x`'s, and whose tags equal `x`'s
(element by element and in the same order, hence also as an unordered set) when
the tags hold no repeated element, as every set of a plan does. -/
theorem jpd_roundTrip (CheckVersion : String → String → Except String Bool)
    (r x : jpdResourceModel) (v n u city code : String) (lat lon : Float64)
    (hName : x.Name = .value n) (hURL : x.URL = .value u)
    (hLoc : x.Location = .value
      { city_name := .value city, country_code := .value code
        latitude := .value lat, longitude := .value lon })
    (hTags : convertibleSet x.Tags) :
    ∃ api ds, jpdResourceModel.toAPIModel CheckVersion x v = some (api, ds) ∧
      ∀ resp : jpdGetResponseAPIModel,
        resp.Name = api.Name → resp.URL = api.URL → resp.Location = api.Location →
        resp.Tags = api.Tags →
          (r.fromAPIModel resp).1.Name = x.Name ∧ (r.fromAPIModel resp).1.URL = x.URL ∧
            (r.fromAPIModel resp).1.Location = x.Location ∧
            (x.Tags.Elements.Nodup →
              (r.fromAPIModel resp).1.Tags = x.Tags ∧
                ((r.fromAPIModel resp).2.HasError = true ↔
                  ¬ resp.Status.Warnings.toList.Nodup)) := by
  have key : ∀ (api : jpdPostRequestAPIModel),
      api.Name = n → api.URL = u →
      api.Location = { CityName := city, CountryCode := code, Latitude := lat, Longitude := lon } →
      api.Tags = (ElementsAs x.Tags).1 →
      ∀ resp : jpdGetResponseAPIModel,
        resp.Name = api.Name → resp.URL = api.URL → resp.Location = api.Location →
        resp.Tags = api.Tags →
          (r.fromAPIModel resp).1.Name = x.Name ∧ (r.fromAPIModel resp).1.URL = x.URL ∧
            (r.fromAPIModel resp).1.Location = x.Location ∧
            (x.Tags.Elements.Nodup →
              (r.fromAPIModel resp).1.Tags = x.Tags ∧
                ((r.fromAPIModel resp).2.HasError = true ↔
                  ¬ resp.Status.Warnings.toList.Nodup)) := by
    intro api h1 h2 h3 h4 resp g1 g2 g3 g4
    refine ⟨?_, ?_, ?_, ?_⟩
    · simp only [jpdResourceModel.fromAPIModel, g1, h1, hName]
    · simp only [jpdResourceModel.fromAPIModel, g2, h2, hURL]
    · simp only [jpdResourceModel.fromAPIModel, g3, h3, hLoc]
    · intro hnd
      obtain ⟨_, hset⟩ := elementsAs_setValueFrom x.Tags ⟨hTags, hnd⟩
      have htags : SetValueFrom resp.Tags = (x.Tags, []) := by
        rw [g4, h4]
        exact hset
      have hrn : resp.Tags.toList.Nodup := by
        by_contra hcon
        have := (setValueFrom_hasError_iff resp.Tags).mpr hcon
        rw [htags] at this
        exact Bool.noConfusion this
      refine ⟨?_, ?_⟩
      · simp only [jpdResourceModel.fromAPIModel, htags]
      · rw [jpd_fromAPIModel_hasError_iff]
        constructor
        · rintro (h | h)
          · exact h
          · exact absurd hrn h
        · intro h
          exact Or.inl h
  have hret : ∃ tok usr pwd ds, jpdResourceModel.toAPIModel CheckVersion x v =
      some ({ Name := n, URL := u, Token := tok, Username := usr, Password := pwd
              Location := { CityName := city, CountryCode := code, Latitude := lat,
                            Longitude := lon }
              Tags := (ElementsAs x.Tags).1 }, ds) := by
    cases hv : CheckVersion v "7.0.0" with
    | error e =>
      exact ⟨"", x.Username.ValueString, x.Password.ValueString, _, by
        simp [jpdResourceModel.toAPIModel, hLoc, hv, hName, hURL, TFValue.Attributes,
          TFValue.ValueString, TFValue.ValueFloat64]
        rfl⟩
    | ok b =>
      cases b with
      | false =>
        exact ⟨"", x.Username.ValueString, x.Password.ValueString, _, by
          simp [jpdResourceModel.toAPIModel, hLoc, hv, hName, hURL, TFValue.Attributes,
            TFValue.ValueString, TFValue.ValueFloat64]
          rfl⟩
      | true =>
        exact ⟨x.Token.ValueString, "", "", _, by
          simp [jpdResourceModel.toAPIModel, hLoc, hv, hName, hURL, TFValue.Attributes,
            TFValue.ValueString, TFValue.ValueFloat64]
          rfl⟩
  obtain ⟨tok, usr, pwd, ds, hret⟩ := hret
  exact ⟨_, ds, hret, key _ rfl rfl rfl rfl⟩

/-- Witness of C7 on the configuration of the acceptance test at version
7.77.3. -/
theorem jpd_roundTrip_witness :
    ∃ api ds, jpdResourceModel.toAPIModel checkVersionDotted sampleJPD "7.77.3" = some (api, ds) ∧
      ∀ resp : jpdGetResponseAPIModel,
        resp.Name = api.Name → resp.URL = api.URL → resp.Location = api.Location →
        resp.Tags = api.Tags →
          (sampleJPD.fromAPIModel resp).1.Name = sampleJPD.Name ∧
            (sampleJPD.fromAPIModel resp).1.URL = sampleJPD.URL ∧
            (sampleJPD.fromAPIModel resp).1.Location = sampleJPD.Location ∧
            (sampleJPD.fromAPIModel resp).1.Tags = sampleJPD.Tags :=
  have h := jpd_roundTrip checkVersionDotted sampleJPD sampleJPD "7.77.3" "test-jpd"
    "http://host.docker.internal:9082/" "San Francisco" "US" ⟨4630513161858373072⟩
    ⟨4638314916377853008⟩ rfl rfl rfl (by decide)
  let ⟨api, ds, h1, h2⟩ := h
  ⟨api, ds, h1, fun resp g1 g2 g3 g4 =>
    ⟨(h2 resp g1 g2 g3 g4).1, (h2 resp g1 g2 g3 g4).2.1, (h2 resp g1 g2 g3 g4).2.2.1,
      ((h2 resp g1 g2 g3 g4).2.2.2 (by decide)).1⟩⟩

/-! ### Mesh identity -/

theorem splitChars_without_sep (sep : Char) (cs : List Char) (h : sep ∉ cs) :
    splitChars sep cs = [cs] := by
  induction cs with
  | nil => rfl
  | cons c cs ih =>
    have hc : c ≠ sep := fun e => h (e ▸ List.mem_cons_self _ _)
    have hcs : sep ∉ cs := fun m => h (List.mem_cons_of_mem _ m)
    simp [splitChars, hc, ih hcs]

theorem splitChars_append_sep (sep : Char) (a b : List Char) (h : sep ∉ a) :
    splitChars sep (a ++ sep :: b) = a :: splitChars sep b := by
  induction a with
  | nil => simp [splitChars]
  | cons c a ih =>
    have hc : c ≠ sep := fun e => h (e ▸ List.mem_cons_self _ _)
    have ha : sep ∉ a := fun m => h (List.mem_cons_of_mem _ m)
    simp [splitChars, hc, ih ha]

theorem splitChars_joined (sep : Char) (rest : List (List Char)) (e : List Char)
    (he : sep ∉ e) (hrest : ∀ x ∈ rest, sep ∉ x) :
    splitChars sep (e ++ rest.flatMap (fun x => sep :: x)) = e :: rest := by
  induction rest generalizing e with
  | nil => simpa using splitChars_without_sep sep e he
  | cons x rest ih =>
    have hx : sep ∉ x := hrest x (List.mem_cons_self _ _)
    have hr : ∀ y ∈ rest, sep ∉ y := fun y hy => hrest y (List.mem_cons_of_mem _ hy)
    simp only [List.flatMap_cons, List.cons_append]
    rw [splitChars_append_sep sep e _ he, ih x hx hr]

theorem join_foldl_data (sep : String) (rest : List String) (acc : String) :
    (rest.foldl (fun acc x => acc ++ sep ++ x) acc).data =
      acc.data ++ rest.flatMap (fun x => sep.data ++ x.data) := by
  induction rest generalizing acc with
  | nil => simp
  | cons x rest ih =>
    simp only [List.foldl_cons, List.flatMap_cons]
    rw [ih]
    simp [String.data_append, List.append_assoc]

theorem split_join_colon (ids : List String) (hne : ids ≠ [])
    (hcolon : ∀ i ∈ ids, ':' ∉ i.data) :
    strings.Split (strings.Join ids ":") ':' = ids := by
  cases ids with
  | nil => exact absurd rfl hne
  | cons e rest =>
    have hdata : (strings.Join (e :: rest) ":").data =
        e.data ++ (rest.map String.data).flatMap (fun x => ':' :: x) := by
      simp only [strings.Join, join_foldl_data, List.flatMap_map]
      rfl
    have hsplit := splitChars_joined ':' (rest.map String.data) e.data
      (hcolon e (List.mem_cons_self _ _))
      (by
        intro x hx
        obtain ⟨y, hy, rfl⟩ := List.mem_map.mp hx
        exact hcolon y (List.mem_cons_of_mem _ hy))
    simp only [strings.Split, hdata, hsplit, List.map_cons, List.map_map]
    congr 1
    exact List.map_id'' (fun x => rfl) rest

theorem knownStrings_values (ids : List String) :
    knownStrings (ids.map TFValue.value) = some ids := by
  induction ids with
  | nil => rfl
  | cons i rest ih => simp [knownStrings, knownString, ih]

theorem elementsAs_values (ids : List String) :
    ElementsAs (.value (ids.map TFValue.value)) = (.mk ids, []) := by
  simp [ElementsAs, knownStrings_values]

theorem mesh_create_stores (client : Request → HTTPOutcome (GoSlice accessFederationResponseAPIModel))
    (plan : accessFederationMeshResourceModel)
    (resp : CreateResponse accessFederationMeshResourceModel)
    (ids : List String) (entities : GoSlice String) (statusCode : Nat) (body : String)
    (results : GoSlice accessFederationResponseAPIModel)
    (hids : ElementsAs plan.IDs = (.mk ids, [])) (hents : ElementsAs plan.Entities = (entities, []))
    (hresp : resp.Diagnostics.HasError = false)
    (hcall : client
      { method := "POST", endpoint := accessFederationMeshEndpoint, pathParams := [],
        queryParams := [], body := .accessFederationMesh { IDs := .mk ids, Entities := entities } }
      = .response statusCode body results)
    (hok : IsError statusCode = false) :
    (accessFederationMeshResource.Create client plan resp).1 =
      { resp with State := some { plan with ID := .value (strings.Join ids ":") } } := by
  simp [accessFederationMeshResource.Create, accessFederationMeshResourceModel.toAPIModel,
    hids, hents, append_nil_diagnostics, hresp, hcall, hok, GoSlice.toList]

/-- C11. Mesh identity round trip: for every list `ids` of at least two JPD ids
none of which contains a colon (the elements of the `ids` set of a plan, so
pairwise distinct), the identity that a successful mesh `Create` stores for a
plan with these ids is `ids` joined with colons; `ImportState` accepts that
identity, keeps it verbatim as `id` and splits it back into exactly the same ids
in the same order: `split(join(ids, ":"), ":") = ids`. -/
theorem mesh_identity_roundTrip (ids : List String) (hlen : 2 ≤ ids.length)
    (hcolon : ∀ i ∈ ids, ':' ∉ i.data) (hnd : ids.Nodup) :
    strings.Split (strings.Join ids ":") ':' = ids ∧
      accessFederationMeshResource.ImportState (strings.Join ids ":")
          meshImportStateResponse.fresh =
        { Diagnostics := []
          State :=
            { ID := .value (strings.Join ids ":")
              IDs := .value (ids.map TFValue.value)
              Entities := .null } } ∧
      ∀ (client : Request → HTTPOutcome (GoSlice accessFederationResponseAPIModel))
        (plan : accessFederationMeshResourceModel) (entities : GoSlice String)
        (statusCode : Nat) (body : String) (results : GoSlice accessFederationResponseAPIModel),
        plan.IDs = .value (ids.map TFValue.value) →
        ElementsAs plan.Entities = (entities, []) →
        client
            { method := "POST", endpoint := accessFederationMeshEndpoint, pathParams := [],
              queryParams := []
              body := .accessFederationMesh { IDs := .mk ids, Entities := entities } }
          = .response statusCode body results →
        IsError statusCode = false →
        (accessFederationMeshResource.Create client plan CreateResponse.fresh).1.State =
          some { plan with ID := .value (strings.Join ids ":") } := by
  have hne : ids ≠ [] := by
    intro h
    rw [h] at hlen
    simp at hlen
  have hsplit := split_join_colon ids hne hcolon
  refine ⟨hsplit, ?_, ?_⟩
  · have h2 : ¬ ids.length ≤ 1 := by omega
    simp only [accessFederationMeshResource.ImportState, hsplit, meshImportStateResponse.fresh]
    rw [if_neg h2]
    simp only [meshSetIds_nodup _ _ hnd, append_nil_diagnostics]
  · intro client plan entities statusCode body results hIDs hents hcall hok
    have hids : ElementsAs plan.IDs = (.mk ids, []) := by
      rw [hIDs]
      exact elementsAs_values ids
    rw [mesh_create_stores client plan CreateResponse.fresh ids entities statusCode body results
      hids hents rfl hcall hok]

/-- Witness of C11 on the ids of the acceptance test, `JPD-1` and `JPD-2`. -/
theorem mesh_identity_roundTrip_witness :
    strings.Split (strings.Join ["JPD-1", "JPD-2"] ":") ':' = ["JPD-1", "JPD-2"] ∧
      (accessFederationMeshResource.Create meshRemoteOK sampleMesh CreateResponse.fresh).1.State =
        some { sampleMesh with ID := .value "JPD-1:JPD-2" } :=
  have h := mesh_identity_roundTrip ["JPD-1", "JPD-2"] (by decide) (by decide) (by decide)
  ⟨h.1, h.2.2 meshRemoteOK sampleMesh (.mk ["USERS", "GROUPS", "PERMISSIONS", "TOKENS"]) 200 "[]"
    (.mk []) rfl rfl rfl rfl⟩

/-! ### Mesh refresh -/

theorem mesh_read_found
    (client : Request → HTTPOutcome (GoSlice accessFederationGetAllResponseAPIModel))
    (state : accessFederationMeshResourceModel)
    (resp : ReadResponse accessFederationMeshResourceModel)
    (statusCode : Nat) (body : String)
    (listing : GoSlice accessFederationGetAllResponseAPIModel) (jpdIDs : GoSlice String)
    (entry : accessFederationGetAllResponseAPIModel)
    (hcall : client accessFederationMeshResource.Read.request = .response statusCode body listing)
    (hok : IsError statusCode = false)
    (hids : ElementsAs state.IDs = (jpdIDs, []))
    (hresp : resp.Diagnostics.HasError = false)
    (hfind : lo.Find listing (accessFederationMeshResource.Read.matches jpdIDs) = some entry)
    (hnd : (entry.Source :: entry.Targets.toList.map (fun target => target.ID)).Nodup) :
    accessFederationMeshResource.Read client state resp =
      ({ resp with State := (state.fromAPIModel entry).1 },
        [accessFederationMeshResource.Read.request]) := by
  simp [accessFederationMeshResource.Read, hcall, hok, hids, append_nil_diagnostics, hresp, hfind,
    mesh_fromAPIModel_distinct state entry hnd]

theorem mesh_read_found_repeated
    (client : Request → HTTPOutcome (GoSlice accessFederationGetAllResponseAPIModel))
    (state : accessFederationMeshResourceModel)
    (resp : ReadResponse accessFederationMeshResourceModel)
    (statusCode : Nat) (body : String)
    (listing : GoSlice accessFederationGetAllResponseAPIModel) (jpdIDs : GoSlice String)
    (entry : accessFederationGetAllResponseAPIModel)
    (hcall : client accessFederationMeshResource.Read.request = .response statusCode body listing)
    (hok : IsError statusCode = false)
    (hids : ElementsAs state.IDs = (jpdIDs, []))
    (hresp : resp.Diagnostics.HasError = false)
    (hfind : lo.Find listing (accessFederationMeshResource.Read.matches jpdIDs) = some entry)
    (hnd : ¬ (entry.Source :: entry.Targets.toList.map (fun target => target.ID)).Nodup) :
    accessFederationMeshResource.Read client state resp =
      ({ resp with
          Diagnostics := Diagnostics.Append resp.Diagnostics (state.fromAPIModel entry).2 },
        [accessFederationMeshResource.Read.request]) := by
  have herr : (Diagnostics.Append resp.Diagnostics (state.fromAPIModel entry).2).HasError =
      true := by
    rw [hasError_Append, (mesh_fromAPIModel_hasError_iff state entry).mpr hnd, Bool.or_true]
  simp only [accessFederationMeshResource.Read, hcall, hok, hids, append_nil_diagnostics, hresp,
    hfind, Bool.false_eq_true, if_false, herr, if_true]

theorem mesh_matches_ids_subset (jpdIDs : GoSlice String)
    (entry : accessFederationGetAllResponseAPIModel)
    (h : accessFederationMeshResource.Read.matches jpdIDs entry = true) :
    ∀ i ∈ accessFederationMeshResourceModel.fromAPIModel.ids entry, i ∈ jpdIDs.toList := by
  simp only [accessFederationMeshResource.Read.matches, Bool.and_eq_true, lo.Contains,
    decide_eq_true_eq, lo.Every, List.all_eq_true, lo.Map, GoSlice.toList] at h
  intro i hi
  simp only [accessFederationMeshResourceModel.fromAPIModel.ids, lo.Map, GoSlice.toList,
    List.singleton_append, List.mem_cons] at hi
  rcases hi with rfl | hi
  · exact h.1
  · exact h.2 i hi

/-- C12 (refutation of the claim as stated). A mesh state with the ids `JPD-1`,
`JPD-2`, `JPD-3` is refreshed against a listing whose entry links `JPD-1` to
`JPD-2` only: `Read` accepts the entry without error and the refreshed ids are
`JPD-1`, `JPD-2`; `JPD-3` is gone. -/
theorem mesh_read_shrinks_ids :
    (accessFederationMeshResource.Read (meshRemoteListing sampleListingPair) sampleMesh3
        { Diagnostics := [], State := sampleMesh3 }).1 =
      { Diagnostics := []
        State :=
          { ID := .value "JPD-1:JPD-2"
            IDs := .value [.value "JPD-1", .value "JPD-2"]
            Entities := .value [.value "USERS"] } } ∧
      sampleMesh3.IDs = .value [.value "JPD-1", .value "JPD-2", .value "JPD-3"] := by
  exact ⟨rfl, rfl⟩

/-- C12 (amended). For every prior mesh state whose ids convert to the list `S`
and every successfully fetched listing in which `Read` finds a matching entry:
the source and the target ids of the first matching entry are members of `S`,
and they have the same members as `S` exactly when every id of `S` is the source
or a target of that entry.  When they are pairwise distinct, `Read` adds no
diagnostic and the refreshed ids are the source followed by the target ids, in
response order, so a subset of `S`.  When the entry repeats an id, `Read` adds
the `Duplicate Set Element` errors of the conversion and leaves the state as it
was. -/
theorem mesh_read_ids_subset
    (client : Request → HTTPOutcome (GoSlice accessFederationGetAllResponseAPIModel))
    (state : accessFederationMeshResourceModel)
    (resp : ReadResponse accessFederationMeshResourceModel)
    (statusCode : Nat) (body : String)
    (listing : GoSlice accessFederationGetAllResponseAPIModel) (S : GoSlice String)
    (entry : accessFederationGetAllResponseAPIModel)
    (hcall : client accessFederationMeshResource.Read.request = .response statusCode body listing)
    (hok : IsError statusCode = false)
    (hids : ElementsAs state.IDs = (S, []))
    (hresp : resp.Diagnostics.HasError = false)
    (hfind : lo.Find listing (accessFederationMeshResource.Read.matches S) = some entry) :
    ((entry.Source :: entry.Targets.toList.map (fun target => target.ID)).Nodup →
        (accessFederationMeshResource.Read client state resp).1.Diagnostics = resp.Diagnostics ∧
          (accessFederationMeshResource.Read client state resp).1.State.IDs =
            .value ((entry.Source :: entry.Targets.toList.map (fun target => target.ID)).map
              TFValue.value)) ∧
      (¬ (entry.Source :: entry.Targets.toList.map (fun target => target.ID)).Nodup →
        (accessFederationMeshResource.Read client state resp).1.State = resp.State ∧
          (accessFederationMeshResource.Read client state resp).1.Diagnostics.HasError = true ∧
          ∀ d ∈ (accessFederationMeshResource.Read client state resp).1.Diagnostics,
            d ∈ resp.Diagnostics ∨
              ∃ x ∈ entry.Source :: entry.Targets.toList.map (fun target => target.ID),
                d = duplicateSetElement x) ∧
      (∀ i ∈ entry.Source :: entry.Targets.toList.map (fun target => target.ID),
        i ∈ S.toList) ∧
      ((∀ i, i ∈ entry.Source :: entry.Targets.toList.map (fun target => target.ID) ↔
          i ∈ S.toList) ↔
        ∀ i ∈ S.toList, i ∈ entry.Source :: entry.Targets.toList.map (fun target => target.ID)) := by
  have hmatch : accessFederationMeshResource.Read.matches S entry = true := by
    simp only [lo.Find] at hfind
    exact List.find?_some hfind
  have hsub := mesh_matches_ids_subset S entry hmatch
  simp only [accessFederationMeshResourceModel.fromAPIModel.ids, lo.Map, GoSlice.toList,
    List.singleton_append] at hsub
  refine ⟨?_, ?_, hsub, ?_⟩
  · intro hnd
    rw [mesh_read_found client state resp statusCode body listing S entry hcall hok hids hresp
      hfind hnd, mesh_fromAPIModel_distinct state entry hnd]
    exact ⟨rfl, rfl⟩
  · intro hnd
    rw [mesh_read_found_repeated client state resp statusCode body listing S entry hcall hok hids
      hresp hfind hnd]
    refine ⟨rfl, ?_, ?_⟩
    · simp only [hasError_Append, (mesh_fromAPIModel_hasError_iff state entry).mpr hnd,
        Bool.or_true]
    · intro d hd
      simp only [mem_Append] at hd
      rcases hd with hd | hd
      · exact Or.inl hd
      · exact Or.inr (mesh_fromAPIModel_diags state entry d hd)
  · constructor
    · intro h i hi
      exact (h i).mpr hi
    · intro h i
      exact ⟨hsub i, h i⟩

/-- Witness of C12 (amended) on the three-participant state and the listing that
links `JPD-1` to `JPD-2`. -/
theorem mesh_read_ids_subset_witness :
    (accessFederationMeshResource.Read (meshRemoteListing sampleListingPair) sampleMesh3
        { Diagnostics := [], State := sampleMesh3 }).1.State.IDs =
      .value [.value "JPD-1", .value "JPD-2"] :=
  ((mesh_read_ids_subset (meshRemoteListing sampleListingPair) sampleMesh3
    { Diagnostics := [], State := sampleMesh3 } 200 "" sampleListingPair
    (.mk ["JPD-1", "JPD-2", "JPD-3"])
    { Source := "JPD-1"
      Targets := .mk
        [{ ID := "JPD-2", URL := "http://host.docker.internal:9082/access"
           PermissionFilters := { IncludePatterns := .nil, ExcludePatterns := .nil }
           Entities := .mk ["USERS"] }] }
    rfl rfl rfl rfl rfl).1 (by decide)).2

/-! ### Mesh participants invariant -/

/-- C13 (evaluation of the code). A mesh state with the two ids `JPD-1`, `JPD-2`,
as the schema's size-at-least-2 rule demands, is refreshed against a
successfully fetched listing whose only entry has the source `JPD-1` and no
targets: `Read` takes that entry as the mesh, reports no diagnostic and stores a
state whose `ids` set holds the single id `JPD-1`, fewer than the 2 that the
rule and its description ask for. -/
theorem mesh_read_stores_single_id :
    (accessFederationMeshResource.Read (meshRemoteListing sampleListingAlone) sampleMesh
        { Diagnostics := [], State := sampleMesh }).1 =
      { Diagnostics := []
        State := { ID := .value "JPD-1", IDs := .value [.value "JPD-1"], Entities := .value [] } } ∧
      sampleMesh.IDs = .value [.value "JPD-1", .value "JPD-2"] ∧
      sampleListingAlone = .mk [{ Source := "JPD-1", Targets := .mk [] }] ∧
      accessFederationMeshResource.Read.matches (.mk ["JPD-1", "JPD-2"])
        { Source := "JPD-1", Targets := .mk [] } = true ∧
      (accessFederationMeshResource.Read (meshRemoteListing sampleListingAlone) sampleMesh
        { Diagnostics := [], State := sampleMesh }).1.State.IDs.Elements.length = 1 := by
  exact ⟨rfl, rfl, rfl, rfl, rfl⟩

/-! ### Access federation deletion -/

/-- C14. For every prior state and whatever the remote would answer, `Delete` of
the star resource and `Delete` of the mesh resource issue no request, add
exactly one warning diagnostic and no error diagnostic, and complete so that the
framework removes the resource from state. -/
theorem accessFederation_delete_warns_only {R : Type} (client : Request → HTTPOutcome R)
    (star : accessFederationStarResourceModel) (mesh : accessFederationMeshResourceModel) :
    ((accessFederationStarResource.Delete client { Diagnostics := [], State := star }).2 = [] ∧
        (accessFederationStarResource.Delete client
          { Diagnostics := [], State := star }).1.Diagnostics = [deletionNotSupported] ∧
        (accessFederationStarResource.Delete client
          { Diagnostics := [], State := star }).1.Diagnostics.Warnings.length = 1 ∧
        (accessFederationStarResource.Delete client
          { Diagnostics := [], State := star }).1.Diagnostics.Errors = [] ∧
        (accessFederationStarResource.Delete client
          { Diagnostics := [], State := star }).1.stateAfter = none) ∧
      ((accessFederationMeshResource.Delete client { Diagnostics := [], State := mesh }).2 = [] ∧
        (accessFederationMeshResource.Delete client
          { Diagnostics := [], State := mesh }).1.Diagnostics = [deletionNotSupported] ∧
        (accessFederationMeshResource.Delete client
          { Diagnostics := [], State := mesh }).1.Diagnostics.Warnings.length = 1 ∧
        (accessFederationMeshResource.Delete client
          { Diagnostics := [], State := mesh }).1.Diagnostics.Errors = [] ∧
        (accessFederationMeshResource.Delete client
          { Diagnostics := [], State := mesh }).1.stateAfter = none) := by
  refine ⟨⟨rfl, rfl, rfl, rfl, rfl⟩, ⟨rfl, rfl, rfl, rfl, rfl⟩⟩

/-! ### Provider configuration -/

theorem checkEnvVars_single (Getenv : String → String) (k : String) :
    CheckEnvVars Getenv [k] "" = Getenv k := by
  by_cases h : Getenv k = ""
  · simp [CheckEnvVars, List.find?, h]
  · have hb : (Getenv k != "") = true := by simp [h]
    simp only [CheckEnvVars, List.find?, hb]

/-- C15. For every provider configuration, environment and outcome of the
outside calls, `Configure` resolves the URL as the configured `url` if non-empty,
else the `JFROG_URL` environment value: it makes no outside call when that URL is
empty and otherwise builds the client for exactly that URL.  Once the client is
built and the OIDC exchange has returned, it resolves the access token as the
configured `access_token` if non-empty, else the exchanged token if non-empty,
else the `JFROG_ACCESS_TOKEN` environment value, and sets exactly that token on
the client.  An environment value is thus used only when the corresponding
configuration field is empty. -/
theorem configure_resolution {C : Type} (env : ProviderEnv C)
    (config : missionControlProviderModel) (resp : ConfigureResponse C) :
    (resolvedURL env.Getenv config = "" →
        (MissionControlProvider.Configure env config resp).2 = []) ∧
      (resolvedURL env.Getenv config ≠ "" →
        (MissionControlProvider.Configure env config resp).2.head? =
          some (.Build (resolvedURL env.Getenv config) productId)) ∧
      (∀ (c : C) (oidcAccessToken : String),
        resolvedURL env.Getenv config ≠ "" →
        env.Build (resolvedURL env.Getenv config) productId = .ok c →
        env.OIDCTokenExchange c config.OIDCProviderName.ValueString = .ok oidcAccessToken →
        (MissionControlProvider.Configure env config resp).2.take 3 =
          [.Build (resolvedURL env.Getenv config) productId,
            .OIDCTokenExchange config.OIDCProviderName.ValueString,
            .AddAuth "" (resolvedAccessToken env.Getenv config oidcAccessToken)]) ∧
      (config.URL.ValueString ≠ "" → resolvedURL env.Getenv config = config.URL.ValueString) ∧
      (∀ oidcAccessToken : String, config.AccessToken.ValueString ≠ "" →
        resolvedAccessToken env.Getenv config oidcAccessToken = config.AccessToken.ValueString) ∧
      (∀ oidcAccessToken : String, config.AccessToken.ValueString = "" → oidcAccessToken ≠ "" →
        resolvedAccessToken env.Getenv config oidcAccessToken = oidcAccessToken) := by
  refine ⟨?_, ?_, ?_, ?_, ?_, ?_⟩
  · intro h
    simp only [resolvedURL] at h
    simp [MissionControlProvider.Configure, checkEnvVars_single, h]
  · intro h
    simp only [resolvedURL] at h ⊢
    simp only [MissionControlProvider.Configure, checkEnvVars_single, h, if_false]
    cases env.Build _ productId with
    | error err => rfl
    | ok c =>
      simp only []
      cases env.OIDCTokenExchange c config.OIDCProviderName.ValueString with
      | error err => rfl
      | ok oidc =>
        simp only []
        cases env.AddAuth c "" _ with
        | error err => rfl
        | ok c2 =>
          simp only []
          cases env.GetArtifactoryVersion c2 <;> rfl
  · intro c oidc h hbuild hoidc
    simp only [resolvedURL] at h hbuild ⊢
    simp only [MissionControlProvider.Configure, checkEnvVars_single, h, if_false, hbuild, hoidc,
      resolvedAccessToken]
    cases env.AddAuth c "" _ with
    | error err => rfl
    | ok c2 =>
      simp only []
      cases env.GetArtifactoryVersion c2 <;> rfl
  · intro h
    simp [resolvedURL, h]
  · intro oidc h
    simp [resolvedAccessToken, h]
  · intro oidc h1 h2
    simp [resolvedAccessToken, h1, h2]

/-- Witness of C15: with an empty configuration block, an OIDC exchange that
returns nothing and both environment variables set, the environment values are
used. -/
theorem configure_resolution_witness :
    (MissionControlProvider.Configure
        (sampleEnv [("JFROG_URL", "https://env.example.com"), ("JFROG_ACCESS_TOKEN", "env-token")]
          "")
        emptyProviderConfig ConfigureResponse.fresh).2.take 3 =
      [.Build "https://env.example.com" productId, .OIDCTokenExchange "",
        .AddAuth "" "env-token"] :=
  ((configure_resolution
      (sampleEnv [("JFROG_URL", "https://env.example.com"), ("JFROG_ACCESS_TOKEN", "env-token")]
        "")
      emptyProviderConfig ConfigureResponse.fresh).2.2.1
    { url := "https://env.example.com", accessToken := "" } "" (by decide) rfl rfl).trans rfl

theorem addError_nil (summary detail : String) :
    Diagnostics.AddError [] summary detail = [⟨.error, summary, detail⟩] := by
  simp [Diagnostics.AddError, Diagnostics.Append]

theorem addWarning_nil (summary detail : String) :
    Diagnostics.AddWarning [] summary detail = [⟨.warning, summary, detail⟩] := by
  simp [Diagnostics.AddWarning, Diagnostics.Append]

theorem addError_after_warning (w : Diagnostic) (hw : w.severity = .warning)
    (summary detail : String) :
    Diagnostics.AddError [w] summary detail = [w, ⟨.error, summary, detail⟩] := by
  have hne : (⟨.error, summary, detail⟩ : Diagnostic) ≠ w := by
    intro h
    rw [← h] at hw
    cases hw
  simp [Diagnostics.AddError, Diagnostics.Append, hne]

theorem addError_after_warning_fields (ws wd summary detail : String) :
    Diagnostics.AddError [⟨.warning, ws, wd⟩] summary detail =
      [⟨.warning, ws, wd⟩, ⟨.error, summary, detail⟩] :=
  addError_after_warning ⟨.warning, ws, wd⟩ rfl summary detail

theorem configure_with_url {C : Type} (env : ProviderEnv C)
    (config : missionControlProviderModel) (h : resolvedURL env.Getenv config ≠ "") :
    missingURLConfiguration ∉
        (MissionControlProvider.Configure env config ConfigureResponse.fresh).1.Diagnostics ∧
      (MissionControlProvider.Configure env config ConfigureResponse.fresh).2 ≠ [] := by
  simp only [resolvedURL] at h
  simp only [MissionControlProvider.Configure, checkEnvVars_single, h, if_false,
    ConfigureResponse.fresh, addError_nil]
  cases env.Build _ productId with
  | error err => simp [missingURLConfiguration]
  | ok c =>
    simp only []
    cases env.OIDCTokenExchange c config.OIDCProviderName.ValueString with
    | error err => simp [missingURLConfiguration]
    | ok oidc =>
      simp only []
      generalize (if config.AccessToken.ValueString ≠ "" then config.AccessToken.ValueString
        else if oidc ≠ "" then oidc else env.Getenv "JFROG_ACCESS_TOKEN") = t
      by_cases ht : t = ""
      · simp only [ht, if_true, addWarning_nil]
        cases env.AddAuth c "" "" with
        | error err =>
          simp [addError_after_warning, missingURLConfiguration]
        | ok c2 =>
          simp only []
          cases env.GetArtifactoryVersion c2 with
          | error err => simp [addError_after_warning, missingURLConfiguration]
          | ok v => simp [missingURLConfiguration]
      · simp only [ht, if_false]
        cases env.AddAuth c "" t with
        | error err => simp [addError_nil, missingURLConfiguration]
        | ok c2 =>
          simp only []
          cases env.GetArtifactoryVersion c2 with
          | error err => simp [addError_nil, missingURLConfiguration]
          | ok v => simp

/-- C16 (refutation of the claim as stated). With a URL from the environment
and no access token anywhere, in an environment whose `AddAuth` refuses empty
credentials as the one of the shared module does, `Configure` adds the warning
`Missing JFrog Access Token` and then, for that very reason, the error `Error
adding Auth to Resty client`; it does not go on to the version probe and hands
no provider data to the resources. -/
theorem configure_without_token_fails :
    MissionControlProvider.Configure (sampleEnv [("JFROG_URL", "https://env.example.com")] "")
        emptyProviderConfig ConfigureResponse.fresh =
      ({ Diagnostics :=
           [missingAccessToken,
             ⟨.error, "Error adding Auth to Resty client", "no authentication details supplied"⟩]
         DataSourceData := none
         ResourceData := none },
        [.Build "https://env.example.com" productId, .OIDCTokenExchange "", .AddAuth "" ""]) ∧
      (MissionControlProvider.Configure (sampleEnv [("JFROG_URL", "https://env.example.com")] "")
        emptyProviderConfig ConfigureResponse.fresh).1.Diagnostics.HasError = true := by
  exact ⟨rfl, rfl⟩

/-- C16 (amended). On a fresh response, `Configure` adds the error `Missing URL
Configuration` and makes no outside call (it stops before building any client)
if and only if the resolved URL is empty.  When the URL is non-empty, the client
is built, the OIDC exchange returns and no access token is resolved, it adds
exactly one warning, `Missing JFrog Access Token`, and calls `AddAuth` with an
empty API key and the empty token; when `AddAuth` refuses them, as the one of
the shared module does, `Configure` adds the error `Error adding Auth to Resty
client` with the reason, makes no further call and sets no provider data. -/
theorem configure_missing_url_and_token {C : Type} (env : ProviderEnv C)
    (config : missionControlProviderModel) :
    ((missingURLConfiguration ∈
          (MissionControlProvider.Configure env config ConfigureResponse.fresh).1.Diagnostics ∧
        (MissionControlProvider.Configure env config ConfigureResponse.fresh).2 = []) ↔
        resolvedURL env.Getenv config = "") ∧
      (resolvedURL env.Getenv config = "" →
        MissionControlProvider.Configure env config ConfigureResponse.fresh =
          ({ Diagnostics := [missingURLConfiguration], DataSourceData := none,
             ResourceData := none }, [])) ∧
      (∀ (c : C) (oidcAccessToken : String),
        resolvedURL env.Getenv config ≠ "" →
        env.Build (resolvedURL env.Getenv config) productId = .ok c →
        env.OIDCTokenExchange c config.OIDCProviderName.ValueString = .ok oidcAccessToken →
        resolvedAccessToken env.Getenv config oidcAccessToken = "" →
          (MissionControlProvider.Configure env config ConfigureResponse.fresh).2.take 3 =
              [.Build (resolvedURL env.Getenv config) productId,
                .OIDCTokenExchange config.OIDCProviderName.ValueString, .AddAuth "" ""] ∧
            (MissionControlProvider.Configure env config
              ConfigureResponse.fresh).1.Diagnostics.Warnings = [missingAccessToken] ∧
            (∀ err : String, env.AddAuth c "" "" = .error err →
              MissionControlProvider.Configure env config ConfigureResponse.fresh =
                ({ Diagnostics :=
                     [missingAccessToken,
                       ⟨.error, "Error adding Auth to Resty client", err⟩]
                   DataSourceData := none
                   ResourceData := none },
                  [.Build (resolvedURL env.Getenv config) productId,
                    .OIDCTokenExchange config.OIDCProviderName.ValueString,
                    .AddAuth "" ""]))) := by
  have hempty : resolvedURL env.Getenv config = "" →
      MissionControlProvider.Configure env config ConfigureResponse.fresh =
        ({ Diagnostics := [missingURLConfiguration], DataSourceData := none,
           ResourceData := none }, []) := by
    intro h
    simp only [resolvedURL] at h
    simp only [MissionControlProvider.Configure, checkEnvVars_single, h, if_true,
      ConfigureResponse.fresh, addError_nil]
    rfl
  refine ⟨?_, hempty, ?_⟩
  · constructor
    · intro h
      by_contra hne
      exact (configure_with_url env config hne).1 h.1
    · intro h
      rw [hempty h]
      exact ⟨List.mem_singleton.mpr rfl, rfl⟩
  · intro c oidc hurl hbuild hoidc htok
    simp only [resolvedURL] at hurl hbuild ⊢
    simp only [resolvedAccessToken] at htok
    simp only [MissionControlProvider.Configure, checkEnvVars_single, hurl, if_false, hbuild, hoidc,
      htok, if_true, ConfigureResponse.fresh, addWarning_nil]
    cases hauth : env.AddAuth c "" "" with
    | error err =>
      dsimp only
      refine ⟨rfl, ?_, ?_⟩
      · simp [addError_after_warning_fields, Diagnostics.Warnings, missingAccessToken]
      · intro err2 h2
        cases h2
        rw [addError_after_warning_fields]
        rfl
    | ok c1 =>
      simp only []
      cases hver : env.GetArtifactoryVersion c1 with
      | error err =>
        dsimp only
        refine ⟨rfl, ?_, ?_⟩
        · simp [addError_after_warning_fields, Diagnostics.Warnings, missingAccessToken]
        · intro err2 h2
          cases h2
      | ok version =>
        dsimp only
        refine ⟨rfl, ?_, ?_⟩
        · simp [Diagnostics.Warnings, missingAccessToken]
        · intro err2 h2
          cases h2

/-- Witness of C16 (amended): with a URL from the environment and no access
token anywhere, `Configure` warns once and then ends with the error of
`AddAuth`. -/
theorem configure_missing_url_and_token_witness :
    MissionControlProvider.Configure (sampleEnv [("JFROG_URL", "https://env.example.com")] "")
        emptyProviderConfig ConfigureResponse.fresh =
      ({ Diagnostics :=
           [missingAccessToken,
             ⟨.error, "Error adding Auth to Resty client", "no authentication details supplied"⟩]
         DataSourceData := none
         ResourceData := none },
        [.Build "https://env.example.com" productId, .OIDCTokenExchange "", .AddAuth "" ""]) :=
  (((configure_missing_url_and_token (sampleEnv [("JFROG_URL", "https://env.example.com")] "")
      emptyProviderConfig).2.2
    { url := "https://env.example.com", accessToken := "" } "" (by decide) rfl rfl rfl).2.2
    "no authentication details supplied" rfl).trans rfl

/-! ### Failed creation -/

theorem unableToCreate_fresh {M : Type} (text : String) :
    UnableToCreateResourceError (CreateResponse.fresh : CreateResponse M) text =
      { Diagnostics := [⟨.error, "Unable to Create Resource", createErrorIntro ++ text⟩]
        State := none } := by
  simp [UnableToCreateResourceError, CreateResponse.fresh, addError_nil, createErrorIntro]

theorem licenseBucket_finish_failure (resp : CreateResponse licenseBucketResourceModel)
    (plan : licenseBucketResourceModel)
    (outcome : HTTPOutcome licenseBucketPostResponseAPIModel) (text : String)
    (h : outcome.failure = some text) :
    licenseBucketResource.Create.finish resp plan outcome =
      UnableToCreateResourceError resp text := by
  cases outcome with
  | transportError err =>
    simp only [HTTPOutcome.failure, Option.some.injEq] at h
    simp [licenseBucketResource.Create.finish, h]
  | response statusCode body result =>
    by_cases hs : IsError statusCode = true
    · simp only [HTTPOutcome.failure, hs, if_true, Option.some.injEq] at h
      simp [licenseBucketResource.Create.finish, hs, h]
    · simp [HTTPOutcome.failure, hs] at h

/-- C17 (refutation of the claim as stated). The create call of the JPD resource
is answered with status 302, which is not a 2xx status: `Create` adds no error
and stores a state, built from the undecoded (zero) result. -/
theorem jpd_create_accepts_status_302 :
    jpdResource.Create checkVersionDotted "7.77.3" (jpdRemoteStatus 302 "Found") sampleJPD
        CreateResponse.fresh =
      some
        ({ Diagnostics := []
           State := some (sampleJPD.fromAPIModel jpdGetResponseAPIModel.zero).1 },
          [jpdResource.Create.request
            { Name := "test-jpd", URL := "http://host.docker.internal:9082/", Token := "join-key"
              Username := "", Password := ""
              Location :=
                { CityName := "San Francisco", CountryCode := "US"
                  Latitude := ⟨4630513161858373072⟩, Longitude := ⟨4638314916377853008⟩ }
              Tags := .mk ["prod", "dev"] }]) := by
  rfl

/-- C17 (amended). For the JPD, license-bucket and star `Create` operations, on
a fresh response and a plan that converts without diagnostics: whenever the
create HTTP call returns a transport error or a response whose status code is
above 399, `Create` issues that one request, adds one error diagnostic, titled
`Unable to Create Resource`, whose detail is the helper's fixed introduction
followed by the transport error text or the response body verbatim, and stores
no state. -/
theorem create_failure_reports_text (text : String) :
    (∀ (CheckVersion : String → String → Except String Bool) (version : String)
        (client : Request → HTTPOutcome jpdGetResponseAPIModel) (plan : jpdResourceModel)
        (jpd : jpdPostRequestAPIModel),
        plan.toAPIModel CheckVersion version = some (jpd, []) →
        (client (jpdResource.Create.request jpd)).failure = some text →
          jpdResource.Create CheckVersion version client plan CreateResponse.fresh =
            some
              ({ Diagnostics :=
                   [⟨.error, "Unable to Create Resource", createErrorIntro ++ text⟩]
                 State := none }, [jpdResource.Create.request jpd])) ∧
      (∀ (ReadFile : String → Except String (List Nat))
        (client : Request → HTTPOutcome licenseBucketPostResponseAPIModel)
        (plan : licenseBucketResourceModel) (request : Request),
        (licenseBucketResource.Create ReadFile client plan CreateResponse.fresh).2 = [request] →
        (client request).failure = some text →
          (licenseBucketResource.Create ReadFile client plan CreateResponse.fresh).1 =
            { Diagnostics := [⟨.error, "Unable to Create Resource", createErrorIntro ++ text⟩]
              State := none }) ∧
      (∀ (client : Request → HTTPOutcome (GoSlice accessFederationResponseAPIModel))
        (plan : accessFederationStarResourceModel)
        (accessFederation : accessFederationRequestAPIModel),
        plan.toAPIModel = some (accessFederation, []) →
        (client (accessFederationStarResource.Create.request plan accessFederation)).failure =
          some text →
          accessFederationStarResource.Create client plan CreateResponse.fresh =
            some
              ({ Diagnostics :=
                   [⟨.error, "Unable to Create Resource", createErrorIntro ++ text⟩]
                 State := none },
                [accessFederationStarResource.Create.request plan accessFederation])) := by
  refine ⟨?_, ?_, ?_⟩
  · intro CheckVersion version client plan jpd hconv hfail
    simp only [jpdResource.Create, hconv, CreateResponse.fresh, append_nil_diagnostics,
      hasError_nil, Bool.false_eq_true, if_false]
    cases hout : client (jpdResource.Create.request jpd) with
    | transportError err =>
      rw [hout] at hfail
      simp only [HTTPOutcome.failure, Option.some.injEq] at hfail
      subst hfail
      simp [UnableToCreateResourceError, addError_nil, createErrorIntro]
    | response statusCode body result =>
      rw [hout] at hfail
      by_cases hs : IsError statusCode = true
      · simp only [HTTPOutcome.failure, hs, if_true, Option.some.injEq] at hfail
        subst hfail
        simp [UnableToCreateResourceError, addError_nil, createErrorIntro, hs]
      · simp [HTTPOutcome.failure, hs] at hfail
  · intro ReadFile client plan request hreq hfail
    unfold licenseBucketResource.Create at hreq ⊢
    split
    · rename_i hurl
      simp only [hurl, if_true, List.cons.injEq, and_true] at hreq
      subst hreq
      simp only []
      rw [licenseBucket_finish_failure _ _ _ text hfail, unableToCreate_fresh]
    · rename_i hurl
      simp only [hurl, if_false] at hreq
      cases hfile : ReadFile plan.File.ValueString with
      | error err =>
        rw [hfile] at hreq
        simp at hreq
      | ok fileBytes =>
        rw [hfile] at hreq
        simp only [List.cons.injEq, and_true] at hreq
        subst hreq
        simp only []
        rw [licenseBucket_finish_failure _ _ _ text hfail, unableToCreate_fresh]
  · intro client plan accessFederation hconv hfail
    simp only [accessFederationStarResource.Create, hconv, CreateResponse.fresh,
      append_nil_diagnostics, hasError_nil, Bool.false_eq_true, if_false]
    cases hout : client (accessFederationStarResource.Create.request plan accessFederation) with
    | transportError err =>
      rw [hout] at hfail
      simp only [HTTPOutcome.failure, Option.some.injEq] at hfail
      subst hfail
      simp [UnableToCreateResourceError, addError_nil, createErrorIntro]
    | response statusCode body result =>
      rw [hout] at hfail
      by_cases hs : IsError statusCode = true
      · simp only [HTTPOutcome.failure, hs, if_true, Option.some.injEq] at hfail
        subst hfail
        simp [UnableToCreateResourceError, addError_nil, createErrorIntro, hs]
      · simp [HTTPOutcome.failure, hs] at hfail

/-- Witness of C17 (amended): the JPD create call is answered with status 500
and the body `boom`. -/
theorem create_failure_reports_text_witness :
    jpdResource.Create checkVersionDotted "7.77.3" (jpdRemoteStatus 500 "boom") sampleJPD
        CreateResponse.fresh =
      some
        ({ Diagnostics := [⟨.error, "Unable to Create Resource", createErrorIntro ++ "boom"⟩]
           State := none },
          [jpdResource.Create.request
            { Name := "test-jpd", URL := "http://host.docker.internal:9082/", Token := "join-key"
              Username := "", Password := ""
              Location :=
                { CityName := "San Francisco", CountryCode := "US"
                  Latitude := ⟨4630513161858373072⟩, Longitude := ⟨4638314916377853008⟩ }
              Tags := .mk ["prod", "dev"] }]) :=
  (create_failure_reports_text "boom").1 checkVersionDotted "7.77.3" (jpdRemoteStatus 500 "boom")
    sampleJPD _ rfl rfl

/-! ### JPD update -/

theorem failure_none_iff {R : Type} (outcome : HTTPOutcome R) :
    outcome.failure = none ↔
      ∃ statusCode body result, outcome = .response statusCode body result ∧
        IsError statusCode = false := by
  cases outcome with
  | transportError err => simp [HTTPOutcome.failure]
  | response statusCode body result =>
    by_cases hs : IsError statusCode = true
    · simp [HTTPOutcome.failure, hs]
    · simp [HTTPOutcome.failure, hs]

theorem unableToUpdate_fresh {M : Type} (prior : M) (text : String) :
    UnableToUpdateResourceError ({ Diagnostics := [], State := prior } : UpdateResponse M) text =
      { Diagnostics := [⟨.error, "Unable to Update Resource", updateErrorIntro ++ text⟩]
        State := prior } := by
  simp [UnableToUpdateResourceError, addError_nil]

theorem jpd_update_after_calls (CheckVersion : String → String → Except String Bool)
    (version : String) (client : Request → HTTPOutcome jpdGetResponseAPIModel)
    (plan state prior : jpdResourceModel) (jpd : jpdPostRequestAPIModel)
    (c1 : Nat) (b1 : String) (r1 : jpdGetResponseAPIModel)
    (statusCode : Nat) (body : String) (result : jpdGetResponseAPIModel)
    (hconv : plan.toAPIModel CheckVersion version = some (jpd, []))
    (hput : client (jpdResource.Update.request state jpd) = .response c1 b1 r1)
    (hs1 : IsError c1 = false)
    (hget : client (jpdResource.Read.request state) = .response statusCode body result)
    (hs : IsError statusCode = false) :
    jpdResource.Update CheckVersion version client plan state
        { Diagnostics := [], State := prior } =
      some
        (if (plan.fromAPIModel result).2.HasError = true then
          { Diagnostics := Diagnostics.Append [] (plan.fromAPIModel result).2, State := prior }
         else { Diagnostics := [], State := (plan.fromAPIModel result).1 },
          [jpdResource.Update.request state jpd, jpdResource.Read.request state]) := by
  by_cases herr : (plan.fromAPIModel result).2.HasError = true
  · have h2 : (Diagnostics.Append [] (plan.fromAPIModel result).2).HasError = true := by
      rw [hasError_Append_nil_left, herr]
    simp only [jpdResource.Update, hconv, append_nil_diagnostics, hasError_nil,
      Bool.false_eq_true, if_false, hput, hs1, hget, hs, h2, herr, if_true]
  · have herr2 : (plan.fromAPIModel result).2.HasError = false := by
      cases hb : (plan.fromAPIModel result).2.HasError with
      | true => exact absurd hb herr
      | false => rfl
    have hnil := jpd_fromAPIModel_clean plan result herr2
    simp only [jpdResource.Update, hconv, append_nil_diagnostics, hasError_nil,
      Bool.false_eq_true, if_false, hput, hs1, hget, hs, hnil]

/-- C18. `jpdResource.Update` is atomic on local state: for every plan that
converts to a request without diagnostics, every prior state and every remote,
if the PUT fails (transport error or error status), `Update` adds an error
diagnostic and leaves the stored state equal to the prior state, without issuing
the GET; if the PUT succeeds and the following GET fails, it adds an error
diagnostic and leaves the stored state equal to the prior state; when both calls
succeed and the conversion of the GET result reports an error (the result
repeats a status warning or a tag), it adds the errors of the conversion and
leaves the stored state equal to the prior state; and when both calls succeed
and the conversion adds no error it replaces the state by the plan refreshed
from the GET result, adding no diagnostic.  So whenever the stored state differs
from the prior state, both calls have succeeded and no diagnostic was added. -/
theorem jpd_update_atomic (CheckVersion : String → String → Except String Bool)
    (version : String) (client : Request → HTTPOutcome jpdGetResponseAPIModel)
    (plan state prior : jpdResourceModel) (jpd : jpdPostRequestAPIModel)
    (hconv : plan.toAPIModel CheckVersion version = some (jpd, [])) :
    (∀ text, (client (jpdResource.Update.request state jpd)).failure = some text →
        jpdResource.Update CheckVersion version client plan state
            { Diagnostics := [], State := prior } =
          some
            ({ Diagnostics := [⟨.error, "Unable to Update Resource", updateErrorIntro ++ text⟩]
               State := prior }, [jpdResource.Update.request state jpd])) ∧
      ((client (jpdResource.Update.request state jpd)).failure = none →
        ∀ text, (client (jpdResource.Read.request state)).failure = some text →
          jpdResource.Update CheckVersion version client plan state
              { Diagnostics := [], State := prior } =
            some
              ({ Diagnostics :=
                   [⟨.error, "Unable to Update Resource", updateErrorIntro ++ text⟩]
                 State := prior },
                [jpdResource.Update.request state jpd, jpdResource.Read.request state])) ∧
      ((client (jpdResource.Update.request state jpd)).failure = none →
        ∀ statusCode body result,
          client (jpdResource.Read.request state) = .response statusCode body result →
          IsError statusCode = false →
            ((plan.fromAPIModel result).2.HasError = true ↔
              (¬ result.Status.Warnings.toList.Nodup ∨ ¬ result.Tags.toList.Nodup)) ∧
            ((plan.fromAPIModel result).2.HasError = true →
              jpdResource.Update CheckVersion version client plan state
                  { Diagnostics := [], State := prior } =
                some
                  ({ Diagnostics := Diagnostics.Append [] (plan.fromAPIModel result).2
                     State := prior },
                    [jpdResource.Update.request state jpd, jpdResource.Read.request state]) ∧
              (Diagnostics.Append [] (plan.fromAPIModel result).2).HasError = true) ∧
            ((plan.fromAPIModel result).2.HasError = false →
              jpdResource.Update CheckVersion version client plan state
                  { Diagnostics := [], State := prior } =
                some
                  ({ Diagnostics := [], State := (plan.fromAPIModel result).1 },
                    [jpdResource.Update.request state jpd, jpdResource.Read.request state]))) ∧
      (∀ out requests,
        jpdResource.Update CheckVersion version client plan state
            { Diagnostics := [], State := prior } = some (out, requests) →
        out.State ≠ prior →
          (client (jpdResource.Update.request state jpd)).failure = none ∧
            (client (jpdResource.Read.request state)).failure = none ∧
            out.Diagnostics = []) := by
  have hput : ∀ text, (client (jpdResource.Update.request state jpd)).failure = some text →
      jpdResource.Update CheckVersion version client plan state
          { Diagnostics := [], State := prior } =
        some
          ({ Diagnostics := [⟨.error, "Unable to Update Resource", updateErrorIntro ++ text⟩]
             State := prior }, [jpdResource.Update.request state jpd]) := by
    intro text hfail
    simp only [jpdResource.Update, hconv, append_nil_diagnostics, hasError_nil,
      Bool.false_eq_true, if_false]
    cases hout : client (jpdResource.Update.request state jpd) with
    | transportError err =>
      rw [hout] at hfail
      simp only [HTTPOutcome.failure, Option.some.injEq] at hfail
      subst hfail
      simp [unableToUpdate_fresh]
    | response statusCode body result =>
      rw [hout] at hfail
      by_cases hs : IsError statusCode = true
      · simp only [HTTPOutcome.failure, hs, if_true, Option.some.injEq] at hfail
        subst hfail
        simp [unableToUpdate_fresh, hs]
      · simp [HTTPOutcome.failure, hs] at hfail
  have hget : (client (jpdResource.Update.request state jpd)).failure = none →
      ∀ text, (client (jpdResource.Read.request state)).failure = some text →
        jpdResource.Update CheckVersion version client plan state
            { Diagnostics := [], State := prior } =
          some
            ({ Diagnostics := [⟨.error, "Unable to Update Resource", updateErrorIntro ++ text⟩]
               State := prior },
              [jpdResource.Update.request state jpd, jpdResource.Read.request state]) := by
    intro hok text hfail
    obtain ⟨c1, b1, r1, hput1, hs1⟩ := (failure_none_iff _).mp hok
    simp only [jpdResource.Update, hconv, append_nil_diagnostics, hasError_nil,
      Bool.false_eq_true, if_false, hput1, hs1]
    cases hout : client (jpdResource.Read.request state) with
    | transportError err =>
      rw [hout] at hfail
      simp only [HTTPOutcome.failure, Option.some.injEq] at hfail
      subst hfail
      simp [unableToUpdate_fresh]
    | response statusCode body result =>
      rw [hout] at hfail
      by_cases hs : IsError statusCode = true
      · simp only [HTTPOutcome.failure, hs, if_true, Option.some.injEq] at hfail
        subst hfail
        simp [unableToUpdate_fresh, hs]
      · simp [HTTPOutcome.failure, hs] at hfail
  refine ⟨hput, hget, ?_, ?_⟩
  · intro hok statusCode body result hout hs
    obtain ⟨c1, b1, r1, hput1, hs1⟩ := (failure_none_iff _).mp hok
    have hafter := jpd_update_after_calls CheckVersion version client plan state prior jpd c1 b1
      r1 statusCode body result hconv hput1 hs1 hout hs
    refine ⟨jpd_fromAPIModel_hasError_iff plan result, ?_, ?_⟩
    · intro herr
      rw [hafter, if_pos herr]
      exact ⟨rfl, by rw [hasError_Append_nil_left, herr]⟩
    · intro herr
      rw [hafter, if_neg (by rw [herr]; exact Bool.noConfusion)]
  · intro out requests hout hne
    cases h1 : (client (jpdResource.Update.request state jpd)).failure with
    | some text =>
      rw [hput text h1] at hout
      simp only [Option.some.injEq, Prod.mk.injEq] at hout
      exact absurd (by rw [← hout.1]) hne
    | none =>
      cases h2 : (client (jpdResource.Read.request state)).failure with
      | some text =>
        rw [hget h1 text h2] at hout
        simp only [Option.some.injEq, Prod.mk.injEq] at hout
        exact absurd (by rw [← hout.1]) hne
      | none =>
        obtain ⟨c1, b1, r1, hput1, hs1⟩ := (failure_none_iff _).mp h1
        obtain ⟨c2, b2, r2, hget2, hs2⟩ := (failure_none_iff _).mp h2
        rw [jpd_update_after_calls CheckVersion version client plan state prior jpd c1 b1 r1 c2 b2
          r2 hconv hput1 hs1 hget2 hs2] at hout
        by_cases herr : (plan.fromAPIModel r2).2.HasError = true
        · rw [if_pos herr] at hout
          simp only [Option.some.injEq, Prod.mk.injEq] at hout
          exact absurd (by rw [← hout.1]) hne
        · rw [if_neg herr] at hout
          simp only [Option.some.injEq, Prod.mk.injEq] at hout
          exact ⟨rfl, rfl, by rw [← hout.1]⟩

/-- Witness of C18: the PUT is answered with status 500, so the prior state
stays. -/
theorem jpd_update_atomic_witness :
    jpdResource.Update checkVersionDotted "7.77.3" (jpdRemoteStatus 500 "boom") sampleJPD
        sampleJPDState { Diagnostics := [], State := sampleJPDState } =
      some
        ({ Diagnostics := [⟨.error, "Unable to Update Resource", updateErrorIntro ++ "boom"⟩]
           State := sampleJPDState },
          [jpdResource.Update.request sampleJPDState
            { Name := "test-jpd", URL := "http://host.docker.internal:9082/", Token := "join-key"
              Username := "", Password := ""
              Location :=
                { CityName := "San Francisco", CountryCode := "US"
                  Latitude := ⟨4630513161858373072⟩, Longitude := ⟨4638314916377853008⟩ }
              Tags := .mk ["prod", "dev"] }]) :=
  (jpd_update_atomic checkVersionDotted "7.77.3" (jpdRemoteStatus 500 "boom") sampleJPD
    sampleJPDState sampleJPDState _ rfl).1 "boom" rfl

/-! ### JPD refresh -/

theorem unableToRefresh_fresh {M : Type} (prior : M) (text : String) :
    UnableToRefreshResourceError ({ Diagnostics := [], State := prior } : ReadResponse M) text =
      { Diagnostics := [⟨.error, "Unable to Refresh Resource", refreshErrorIntro ++ text⟩]
        State := prior } := by
  simp [UnableToRefreshResourceError, addError_nil]

set_option maxRecDepth 20000 in
/-- C19 (refutation of the claim as stated). The state has the id `jpd-17` and
the remote, which has no such JPD, answers the GET with status 404 and the body
`Not Found`: the message of the error `Read` adds is the fixed introduction
followed by that body, and does not contain the id. -/
theorem jpd_read_not_found_message_lacks_id :
    jpdResource.Read (jpdRemoteStatus 404 "Not Found") sampleJPDState
        { Diagnostics := [], State := sampleJPDState } =
      ({ Diagnostics :=
           [⟨.error, "Unable to Refresh Resource", refreshErrorIntro ++ "Not Found"⟩]
         State := sampleJPDState }, [jpdResource.Read.request sampleJPDState]) ∧
      sampleJPDState.ID = .value "jpd-17" ∧
      strings.Contains (refreshErrorIntro ++ "Not Found") "jpd-17" = false ∧
      strings.Contains "Unable to Refresh Resource" "jpd-17" = false := by
  refine ⟨rfl, rfl, ?_, ?_⟩ <;> rfl

/-- C19 (amended). For every JPD state with id `i`, `Read` issues the GET for
`mc/api/v1/jpds/{id}` with `id = i`; when the remote answers it with a transport
error or an error status (as it does for a JPD it does not have), `Read` adds one
refresh error whose message is the fixed introduction followed by the transport
error text or the response body verbatim, so it names the id only if the
remote's text does, and leaves the state unchanged. -/
theorem jpd_read_failure_reports_text (client : Request → HTTPOutcome jpdGetResponseAPIModel)
    (state prior : jpdResourceModel) (text : String)
    (hfail : (client (jpdResource.Read.request state)).failure = some text) :
    jpdResource.Read client state { Diagnostics := [], State := prior } =
        ({ Diagnostics := [⟨.error, "Unable to Refresh Resource", refreshErrorIntro ++ text⟩]
           State := prior }, [jpdResource.Read.request state]) ∧
      jpdResource.Read.request state =
        { method := "GET", endpoint := jpdEndpoint
          pathParams := [("id", state.ID.ValueString)], queryParams := [], body := .none } := by
  refine ⟨?_, rfl⟩
  simp only [jpdResource.Read]
  cases hout : client (jpdResource.Read.request state) with
  | transportError err =>
    rw [hout] at hfail
    simp only [HTTPOutcome.failure, Option.some.injEq] at hfail
    subst hfail
    simp [unableToRefresh_fresh]
  | response statusCode body result =>
    rw [hout] at hfail
    by_cases hs : IsError statusCode = true
    · simp only [HTTPOutcome.failure, hs, if_true, Option.some.injEq] at hfail
      subst hfail
      simp [unableToRefresh_fresh, hs]
    · simp [HTTPOutcome.failure, hs] at hfail

/-- Witness of C19 (amended): the GET for `jpd-17` is answered with status 404
and the body `Not Found`. -/
theorem jpd_read_failure_reports_text_witness :
    jpdResource.Read (jpdRemoteStatus 404 "Not Found") sampleJPDState
        { Diagnostics := [], State := sampleJPDState } =
      ({ Diagnostics :=
           [⟨.error, "Unable to Refresh Resource", refreshErrorIntro ++ "Not Found"⟩]
         State := sampleJPDState }, [jpdResource.Read.request sampleJPDState]) :=
  (jpd_read_failure_reports_text (jpdRemoteStatus 404 "Not Found") sampleJPDState sampleJPDState
    "Not Found" rfl).1

/-! ### License bucket refresh -/

theorem containsChars_of_isPrefixOf (sub l : List Char) (h : sub.isPrefixOf l = true) :
    containsChars sub l = true := by
  cases l with
  | nil =>
    cases sub with
    | nil => rfl
    | cons c cs => simp [List.isPrefixOf] at h
  | cons c cs => simp [containsChars, h]

theorem containsChars_append_left (sub a l : List Char) (h : containsChars sub l = true) :
    containsChars sub (a ++ l) = true := by
  induction a with
  | nil => simpa using h
  | cons c a ih => simp [containsChars, ih]

theorem contains_infix (before n after : String) :
    strings.Contains (before ++ (n ++ after)) n = true := by
  simp only [strings.Contains, String.data_append]
  apply containsChars_append_left
  apply containsChars_of_isPrefixOf
  rw [List.isPrefixOf_iff_prefix]
  exact List.prefix_append _ _

/-- C20. For every license-bucket state with name `n` and every successfully
fetched bucket listing `L`, `Read` succeeds if and only if some entry of `L` has
name exactly `n`.  Then it stores the state with name, quantity and license type
taken from the first such entry and adds no diagnostic; otherwise it adds one
refresh error whose message contains `n` and leaves the stored state as it was.
It fails in no other way on the listing. -/
theorem licenseBucket_read_by_name
    (client : Request → HTTPOutcome (GoSlice licenseBucketGetAPIModel))
    (state prior : licenseBucketResourceModel) (statusCode : Nat) (body : String)
    (L : GoSlice licenseBucketGetAPIModel)
    (hcall : client licenseBucketResource.Read.request = .response statusCode body L)
    (hok : IsError statusCode = false) :
    ((licenseBucketResource.Read client state
          { Diagnostics := [], State := prior }).1.Diagnostics.HasError = false ↔
        ∃ e ∈ L.toList, e.Name = state.Name.ValueString) ∧
      ((∃ e ∈ L.toList, e.Name = state.Name.ValueString) →
        ∃ e ∈ L.toList, e.Name = state.Name.ValueString ∧
          licenseBucketResource.Read client state { Diagnostics := [], State := prior } =
            ({ Diagnostics := []
               State :=
                 { state with
                     Name := .value e.Name
                     Quantity := .value e.Size
                     LicenseType := .value e.Type_ } },
              [licenseBucketResource.Read.request])) ∧
      ((¬ ∃ e ∈ L.toList, e.Name = state.Name.ValueString) →
        licenseBucketResource.Read client state { Diagnostics := [], State := prior } =
            ({ Diagnostics :=
                 [⟨.error, "Unable to Refresh Resource",
                   refreshErrorIntro ++
                     ("bucket " ++ (state.Name.ValueString ++ " can\x27t be found"))⟩]
               State := prior }, [licenseBucketResource.Read.request]) ∧
          strings.Contains
              (refreshErrorIntro ++
                ("bucket " ++ (state.Name.ValueString ++ " can\x27t be found")))
              state.Name.ValueString = true) := by
  have hfound : (∃ e ∈ L.toList, e.Name = state.Name.ValueString) →
      ∃ e ∈ L.toList, e.Name = state.Name.ValueString ∧
        licenseBucketResource.Read client state { Diagnostics := [], State := prior } =
          ({ Diagnostics := []
             State :=
               { state with
                   Name := .value e.Name
                   Quantity := .value e.Size
                   LicenseType := .value e.Type_ } },
            [licenseBucketResource.Read.request]) := by
    intro hex
    cases hfind : lo.Find L (fun licenseBucket => licenseBucket.Name == state.Name.ValueString) with
    | none =>
      obtain ⟨e, he, hname⟩ := hex
      simp only [lo.Find, List.find?_eq_none] at hfind
      exact absurd (by simp [hname]) (hfind e he)
    | some e =>
      have hmem : e ∈ L.toList := List.mem_of_find?_eq_some hfind
      have hname : e.Name = state.Name.ValueString := by
        have := List.find?_some hfind
        simpa using this
      refine ⟨e, hmem, hname, ?_⟩
      simp only [licenseBucketResource.Read, hcall, hok, Bool.false_eq_true, if_false, hfind]
  have hmissing : (¬ ∃ e ∈ L.toList, e.Name = state.Name.ValueString) →
      licenseBucketResource.Read client state { Diagnostics := [], State := prior } =
        ({ Diagnostics :=
             [⟨.error, "Unable to Refresh Resource",
               refreshErrorIntro ++
                 ("bucket " ++ (state.Name.ValueString ++ " can\x27t be found"))⟩]
           State := prior }, [licenseBucketResource.Read.request]) := by
    intro hno
    have hfind : lo.Find L (fun licenseBucket => licenseBucket.Name == state.Name.ValueString)
        = none := by
      simp only [lo.Find, List.find?_eq_none]
      intro e he hname
      exact hno ⟨e, he, by simpa using hname⟩
    simp only [licenseBucketResource.Read, hcall, hok, Bool.false_eq_true, if_false, hfind,
      unableToRefresh_fresh, String.append_assoc]
  refine ⟨?_, hfound, ?_⟩
  · constructor
    · intro hne
      by_contra hno
      rw [hmissing hno] at hne
      simp [hasError_cons] at hne
    · intro hex
      obtain ⟨e, _, _, hread⟩ := hfound hex
      rw [hread]
      rfl
  · intro hno
    refine ⟨hmissing hno, ?_⟩
    rw [← String.append_assoc]
    exact contains_infix _ _ _

/-- Witness of C20: the state of the acceptance test is refreshed against a
listing that holds its bucket as second entry. -/
theorem licenseBucket_read_by_name_witness :
    (licenseBucketResource.Read (bucketRemoteListing sampleBucketListing) sampleBucketURL
        { Diagnostics := [], State := sampleBucketURL }).1.Diagnostics.HasError = false :=
  (licenseBucket_read_by_name (bucketRemoteListing sampleBucketListing) sampleBucketURL
    sampleBucketURL 200 "" sampleBucketListing rfl rfl).1.mpr
    ⟨{ Identifier := "b2", Name := "test-license-bucket", Size := 5,
       Type_ := "ENTERPRISE_PLUS_TRIAL" }, by decide, rfl⟩

/-! ### License bucket frame conditions -/

/-- C21. For every license-bucket model and every create response, including
one whose `url` field is non-empty, `fromAPIModel` leaves `url`, `file` and `key`
as they were; in particular a model whose `url` is null (a bucket created from a
file) keeps `url` null whatever the response's `url` holds. -/
theorem licenseBucket_fromAPIModel_keeps_source (r : licenseBucketResourceModel)
    (apiModel : licenseBucketPostResponseAPIModel) (responseURL : String) :
    (r.fromAPIModel apiModel).1.URL = r.URL ∧
      (r.fromAPIModel apiModel).1.File = r.File ∧
      (r.fromAPIModel apiModel).1.Key = r.Key ∧
      (({ r with URL := .null } : licenseBucketResourceModel).fromAPIModel
          { apiModel with URL := responseURL }).1.URL = .null ∧
      (r.fromAPIModel apiModel).2 = [] := by
  exact ⟨rfl, rfl, rfl, rfl, rfl⟩

/-- C22. For every plan, prior state and remote, `licenseBucketResource.Update`
issues no request, adds no diagnostic and leaves the response state as it
was. -/
theorem licenseBucket_update_noop {R : Type} (client : Request → HTTPOutcome R)
    (plan state : licenseBucketResourceModel)
    (resp : UpdateResponse licenseBucketResourceModel) :
    (licenseBucketResource.Update client plan state resp).2 = [] ∧
      (licenseBucketResource.Update client plan state resp).1.Diagnostics = resp.Diagnostics ∧
      (licenseBucketResource.Update client plan state resp).1.State = resp.State ∧
      (licenseBucketResource.Update client plan state resp).1 = resp := by
  exact ⟨rfl, rfl, rfl, rfl⟩

/-! ### License bucket request form -/

theorem utf8ByteSize_pos_iff (t : String) : 0 < t.utf8ByteSize ↔ t ≠ "" := by
  constructor
  · intro h ht
    rw [ht] at h
    exact absurd h (by decide)
  · intro ht
    have := utf8ByteSize_lt_one t ht
    omega

/-- C25. `licenseBucketResource.Create` chooses the request form from the
license source.  For every plan with a non-empty `url` it issues one POST to
`mc/api/v1/buckets` with a JSON body holding exactly the plan's name, url and
key, and reads no file (the outcome does not depend on the file system).  For
every plan with an empty or absent `url` it reads the file at the plan's `file`
path: when the file is read it issues one POST to the same endpoint with a
multipart form that carries the file's bytes in the field `file` under the base
name of the path, and the plan's name and key; when the file cannot be read it
adds a create error with the reason and issues no HTTP request. -/
theorem licenseBucket_create_request_form (ReadFile : String → Except String (List Nat))
    (client : Request → HTTPOutcome licenseBucketPostResponseAPIModel)
    (plan : licenseBucketResourceModel) (resp : CreateResponse licenseBucketResourceModel) :
    (plan.URL.ValueString ≠ "" →
        (licenseBucketResource.Create ReadFile client plan resp).2 =
            [{ method := "POST", endpoint := "mc/api/v1/buckets", pathParams := []
               queryParams := []
               body := .licenseBucket
                 { Name := plan.Name.ValueString, URL := plan.URL.ValueString
                   Key := plan.Key.ValueString } }] ∧
          ∀ ReadFile2 : String → Except String (List Nat),
            licenseBucketResource.Create ReadFile2 client plan resp =
              licenseBucketResource.Create ReadFile client plan resp) ∧
      (plan.URL.ValueString = "" →
        ∀ fileBytes, ReadFile plan.File.ValueString = .ok fileBytes →
          (licenseBucketResource.Create ReadFile client plan resp).2 =
            [{ method := "POST", endpoint := "mc/api/v1/buckets", pathParams := []
               queryParams := []
               body := .multipart "file" (filepath.Base plan.File.ValueString)
                 "application/octet-stream" fileBytes
                 [("name", plan.Name.ValueString), ("key", plan.Key.ValueString)] }]) ∧
      (plan.URL.ValueString = "" →
        ∀ err, ReadFile plan.File.ValueString = .error err →
          licenseBucketResource.Create ReadFile client plan resp =
              (UnableToCreateResourceError resp err, []) ∧
            (UnableToCreateResourceError resp err).Diagnostics.HasError = true ∧
            (UnableToCreateResourceError resp err).State = resp.State) := by
  refine ⟨?_, ?_, ?_⟩
  · intro hurl
    have hpos := (utf8ByteSize_pos_iff _).mpr hurl
    refine ⟨?_, ?_⟩
    · simp only [licenseBucketResource.Create, hpos, if_true]
      rfl
    · intro ReadFile2
      simp only [licenseBucketResource.Create, hpos, if_true]
  · intro hurl fileBytes hread
    have hpos : ¬ 0 < plan.URL.ValueString.utf8ByteSize := by
      rw [utf8ByteSize_pos_iff]
      simp [hurl]
    simp only [licenseBucketResource.Create, hpos, if_false, hread]
    rfl
  · intro hurl err hread
    have hpos : ¬ 0 < plan.URL.ValueString.utf8ByteSize := by
      rw [utf8ByteSize_pos_iff]
      simp [hurl]
    refine ⟨?_, ?_, rfl⟩
    · simp only [licenseBucketResource.Create, hpos, if_false, hread]
    · simp [UnableToCreateResourceError, hasError_AddError]

/-- Witness of C25: a plan with a file as source, on a file system that holds
the file. -/
theorem licenseBucket_create_request_form_witness :
    (licenseBucketResource.Create oneFile (remoteCreated sampleBucketResponse) sampleBucketFile
        CreateResponse.fresh).2 =
      [{ method := "POST", endpoint := "mc/api/v1/buckets", pathParams := [], queryParams := []
         body := .multipart "file" "bucket.enc" "application/octet-stream" [1, 2, 3]
           [("name", "test-license-bucket"), ("key", "secret-key")] }] :=
  ((licenseBucket_create_request_form oneFile (remoteCreated sampleBucketResponse)
    sampleBucketFile CreateResponse.fresh).2.1 rfl [1, 2, 3] rfl).trans rfl

/-! ### License bucket refresh frame -/

/-- C26. For every license-bucket state with a known name `n` (the schema
requires the name) and every successfully fetched bucket listing that contains
an entry named `n`, `Read` takes the first such entry in listing order, adds no
diagnostic, sets `quantity` to its size and `license_type` to its type, and
leaves every other attribute of the state (id, name, url, file, key, subject,
product_name, product_id, issued_date, valid_date, signature, used) equal to its
prior value. -/
theorem licenseBucket_read_frame
    (client : Request → HTTPOutcome (GoSlice licenseBucketGetAPIModel))
    (state prior : licenseBucketResourceModel) (n : String) (statusCode : Nat) (body : String)
    (L : GoSlice licenseBucketGetAPIModel)
    (hname : state.Name = .value n)
    (hcall : client licenseBucketResource.Read.request = .response statusCode body L)
    (hok : IsError statusCode = false)
    (hex : ∃ e ∈ L.toList, e.Name = n) :
    ∃ e before after,
      L.toList = before ++ e :: after ∧ (∀ x ∈ before, x.Name ≠ n) ∧ e.Name = n ∧
        (licenseBucketResource.Read client state { Diagnostics := [], State := prior }).1 =
          { Diagnostics := []
            State := { state with Quantity := .value e.Size, LicenseType := .value e.Type_ } } ∧
        (licenseBucketResource.Read client state
          { Diagnostics := [], State := prior }).1.State.Quantity = .value e.Size ∧
        (licenseBucketResource.Read client state
          { Diagnostics := [], State := prior }).1.State.LicenseType = .value e.Type_ ∧
        (licenseBucketResource.Read client state
          { Diagnostics := [], State := prior }).1.State.ID = state.ID ∧
        (licenseBucketResource.Read client state
          { Diagnostics := [], State := prior }).1.State.Name = state.Name ∧
        (licenseBucketResource.Read client state
          { Diagnostics := [], State := prior }).1.State.URL = state.URL ∧
        (licenseBucketResource.Read client state
          { Diagnostics := [], State := prior }).1.State.File = state.File ∧
        (licenseBucketResource.Read client state
          { Diagnostics := [], State := prior }).1.State.Key = state.Key ∧
        (licenseBucketResource.Read client state
          { Diagnostics := [], State := prior }).1.State.Subject = state.Subject ∧
        (licenseBucketResource.Read client state
          { Diagnostics := [], State := prior }).1.State.ProductName = state.ProductName ∧
        (licenseBucketResource.Read client state
          { Diagnostics := [], State := prior }).1.State.ProductID = state.ProductID ∧
        (licenseBucketResource.Read client state
          { Diagnostics := [], State := prior }).1.State.IssuedDate = state.IssuedDate ∧
        (licenseBucketResource.Read client state
          { Diagnostics := [], State := prior }).1.State.ValidDate = state.ValidDate ∧
        (licenseBucketResource.Read client state
          { Diagnostics := [], State := prior }).1.State.Signature = state.Signature ∧
        (licenseBucketResource.Read client state
          { Diagnostics := [], State := prior }).1.State.Used = state.Used := by
  have hn : state.Name.ValueString = n := by rw [hname]; rfl
  cases hfind : lo.Find L (fun licenseBucket => licenseBucket.Name == state.Name.ValueString) with
  | none =>
    obtain ⟨e, he, hen⟩ := hex
    simp only [lo.Find, List.find?_eq_none] at hfind
    exact absurd (by simp [hen, hn]) (hfind e he)
  | some e =>
    have hsome := hfind
    simp only [lo.Find, List.find?_eq_some] at hsome
    obtain ⟨hp, before, after, hL, hbefore⟩ := hsome
    have hen : e.Name = n := by
      rw [← hn]
      simpa using hp
    have hread : (licenseBucketResource.Read client state
        { Diagnostics := [], State := prior }).1 =
        { Diagnostics := []
          State := { state with Quantity := .value e.Size, LicenseType := .value e.Type_ } } := by
      simp only [licenseBucketResource.Read, hcall, hok, Bool.false_eq_true, if_false, hfind]
      rw [hen, ← hname]
    refine ⟨e, before, after, hL, ?_, hen, hread, ?_⟩
    · intro x hx hxn
      have := hbefore x hx
      simp [hxn, hn] at this
    · rw [hread]
      exact ⟨rfl, rfl, rfl, rfl, rfl, rfl, rfl, rfl, rfl, rfl, rfl, rfl, rfl, rfl⟩

/-- Witness of C26 on the state of the acceptance test and a listing that holds
its bucket as second entry. -/
theorem licenseBucket_read_frame_witness :
    ∃ e before after,
      sampleBucketListing.toList = before ++ e :: after ∧
        (∀ x ∈ before, x.Name ≠ "test-license-bucket") ∧ e.Name = "test-license-bucket" ∧
        (licenseBucketResource.Read (bucketRemoteListing sampleBucketListing) sampleBucketURL
            { Diagnostics := [], State := sampleBucketURL }).1 =
          { Diagnostics := []
            State :=
              { sampleBucketURL with
                  Quantity := .value e.Size, LicenseType := .value e.Type_ } } :=
  have h := licenseBucket_read_frame (bucketRemoteListing sampleBucketListing) sampleBucketURL
    sampleBucketURL "test-license-bucket" 200 "" sampleBucketListing rfl rfl rfl
    ⟨{ Identifier := "b2", Name := "test-license-bucket", Size := 5,
       Type_ := "ENTERPRISE_PLUS_TRIAL" }, by decide, rfl⟩
  let ⟨e, before, after, h1, h2, h3, h4, _⟩ := h
  ⟨e, before, after, h1, h2, h3, h4⟩

/-! ### Star upsert -/

/-- C23. Star `Create` and `Update` are the same upsert: for every plan and
every remote answer they issue the same requests, namely, when the plan converts
without error, the one PUT to `mc/api/v1/federation/{id}` with `id` the plan's
id and the body `toAPIModel(plan)`; on success both store exactly the plan as
state and add nothing to the diagnostics of the conversion; when the conversion
reports an error both stop before any request; and on a failed call they differ
only in the error helper they hand the same text to (`Unable to Create Resource`
against `Unable to Update Resource`), `Create` storing no state and `Update`
leaving the prior state. -/
theorem star_create_update_same_upsert
    (client : Request → HTTPOutcome (GoSlice accessFederationResponseAPIModel))
    (plan prior : accessFederationStarResourceModel) :
    ((accessFederationStarResource.Create client plan CreateResponse.fresh).map Prod.snd =
        (accessFederationStarResource.Update client plan
          { Diagnostics := [], State := prior }).map Prod.snd) ∧
      (plan.toAPIModel = none →
        accessFederationStarResource.Create client plan CreateResponse.fresh = none ∧
          accessFederationStarResource.Update client plan
            { Diagnostics := [], State := prior } = none) ∧
      (∀ accessFederation ds, plan.toAPIModel = some (accessFederation, ds) →
        (ds.HasError = true →
          accessFederationStarResource.Create client plan CreateResponse.fresh =
              some ({ Diagnostics := Diagnostics.Append [] ds, State := none }, []) ∧
            accessFederationStarResource.Update client plan
                { Diagnostics := [], State := prior } =
              some ({ Diagnostics := Diagnostics.Append [] ds, State := prior }, [])) ∧
        (ds.HasError = false →
          (client
              { method := "PUT", endpoint := "mc/api/v1/federation/\x7bid\x7d"
                pathParams := [("id", plan.ID.ValueString)], queryParams := []
                body := .accessFederation accessFederation }).failure = none →
          accessFederationStarResource.Create client plan CreateResponse.fresh =
              some
                ({ Diagnostics := Diagnostics.Append [] ds, State := some plan },
                  [{ method := "PUT", endpoint := "mc/api/v1/federation/\x7bid\x7d"
                     pathParams := [("id", plan.ID.ValueString)], queryParams := []
                     body := .accessFederation accessFederation }]) ∧
            accessFederationStarResource.Update client plan
                { Diagnostics := [], State := prior } =
              some
                ({ Diagnostics := Diagnostics.Append [] ds, State := plan },
                  [{ method := "PUT", endpoint := "mc/api/v1/federation/\x7bid\x7d"
                     pathParams := [("id", plan.ID.ValueString)], queryParams := []
                     body := .accessFederation accessFederation }])) ∧
        (ds.HasError = false →
          ∀ text,
            (client
                { method := "PUT", endpoint := "mc/api/v1/federation/\x7bid\x7d"
                  pathParams := [("id", plan.ID.ValueString)], queryParams := []
                  body := .accessFederation accessFederation }).failure = some text →
            accessFederationStarResource.Create client plan CreateResponse.fresh =
                some
                  (UnableToCreateResourceError
                      { Diagnostics := Diagnostics.Append [] ds, State := none } text,
                    [{ method := "PUT", endpoint := "mc/api/v1/federation/\x7bid\x7d"
                       pathParams := [("id", plan.ID.ValueString)], queryParams := []
                       body := .accessFederation accessFederation }]) ∧
              accessFederationStarResource.Update client plan
                  { Diagnostics := [], State := prior } =
                some
                  (UnableToUpdateResourceError
                      { Diagnostics := Diagnostics.Append [] ds, State := prior } text,
                    [{ method := "PUT", endpoint := "mc/api/v1/federation/\x7bid\x7d"
                       pathParams := [("id", plan.ID.ValueString)], queryParams := []
                       body := .accessFederation accessFederation }]))) := by
  have hreq : ∀ accessFederation,
      accessFederationStarResource.Create.request plan accessFederation =
        { method := "PUT", endpoint := "mc/api/v1/federation/\x7bid\x7d"
          pathParams := [("id", plan.ID.ValueString)], queryParams := []
          body := .accessFederation accessFederation } := fun _ => rfl
  have hep : accessFederationEndpoint = "mc/api/v1/federation/\x7bid\x7d" := rfl
  refine ⟨?_, ?_, ?_⟩
  · cases hconv : plan.toAPIModel with
    | none => simp [accessFederationStarResource.Create, accessFederationStarResource.Update, hconv]
    | some p =>
      obtain ⟨accessFederation, ds⟩ := p
      simp only [accessFederationStarResource.Create, accessFederationStarResource.Update, hconv,
        CreateResponse.fresh, hreq, hep]
      split
      · rfl
      · cases client _ with
        | transportError err => rfl
        | response statusCode body result =>
          simp only []
          split <;> rfl
  · intro hconv
    simp [accessFederationStarResource.Create, accessFederationStarResource.Update, hconv]
  · intro accessFederation ds hconv
    refine ⟨?_, ?_, ?_⟩
    · intro hds
      have h : (Diagnostics.Append ([] : Diagnostics) ds).HasError = true := by
        simp [hasError_Append, hds]
      simp [accessFederationStarResource.Create, accessFederationStarResource.Update, hconv,
        CreateResponse.fresh, h]
    · intro hds hok
      have h : (Diagnostics.Append ([] : Diagnostics) ds).HasError = false := by
        simp [hasError_Append, hds, hasError_nil]
      obtain ⟨c1, b1, r1, hcall, hs⟩ := (failure_none_iff _).mp hok
      simp [accessFederationStarResource.Create, accessFederationStarResource.Update, hconv,
        CreateResponse.fresh, h, hreq, hep, hcall, hs]
    · intro hds text hfail
      have h : (Diagnostics.Append ([] : Diagnostics) ds).HasError = false := by
        simp [hasError_Append, hds, hasError_nil]
      simp only [accessFederationStarResource.Create, accessFederationStarResource.Update, hconv,
        CreateResponse.fresh, h, hreq, hep, Bool.false_eq_true, if_false]
      cases hout : client
          { method := "PUT", endpoint := "mc/api/v1/federation/\x7bid\x7d"
            pathParams := [("id", plan.ID.ValueString)], queryParams := []
            body := .accessFederation accessFederation } with
      | transportError err =>
        rw [hout] at hfail
        simp only [HTTPOutcome.failure, Option.some.injEq] at hfail
        subst hfail
        exact ⟨rfl, rfl⟩
      | response statusCode body result =>
        rw [hout] at hfail
        by_cases hs : IsError statusCode = true
        · simp only [HTTPOutcome.failure, hs, if_true, Option.some.injEq] at hfail
          subst hfail
          simp [hs]
        · simp [HTTPOutcome.failure, hs] at hfail

/-- Witness of C23 on the updated configuration of the acceptance test and a
remote that accepts the upsert: both operations store the plan. -/
theorem star_create_update_same_upsert_witness :
    accessFederationStarResource.Create starRemoteOK sampleStar CreateResponse.fresh =
        some
          ({ Diagnostics := [], State := some sampleStar },
            [accessFederationStarResource.Create.request sampleStar
              { ID := "JPD-1", Entities := .mk ["USERS", "GROUPS", "PERMISSIONS"]
                Targets := .mk
                  [{ ID := "JPD-2", URL := "http://host.docker.internal:9082/access"
                     PermissionFilters :=
                       { IncludePatterns := .mk ["foo"], ExcludePatterns := .nil } }] }]) ∧
      accessFederationStarResource.Update starRemoteOK sampleStar
          { Diagnostics := [], State := sampleStarEmptyPatterns } =
        some
          ({ Diagnostics := [], State := sampleStar },
            [accessFederationStarResource.Create.request sampleStar
              { ID := "JPD-1", Entities := .mk ["USERS", "GROUPS", "PERMISSIONS"]
                Targets := .mk
                  [{ ID := "JPD-2", URL := "http://host.docker.internal:9082/access"
                     PermissionFilters :=
                       { IncludePatterns := .mk ["foo"], ExcludePatterns := .nil } }] }]) :=
  ((star_create_update_same_upsert starRemoteOK sampleStar sampleStarEmptyPatterns).2.2
    { ID := "JPD-1", Entities := .mk ["USERS", "GROUPS", "PERMISSIONS"]
      Targets := .mk
        [{ ID := "JPD-2", URL := "http://host.docker.internal:9082/access"
           PermissionFilters := { IncludePatterns := .mk ["foo"], ExcludePatterns := .nil } }] }
    [] rfl).2.1 rfl rfl

/-! ### Computed attributes -/

theorem jpd_create_success (CheckVersion : String → String → Except String Bool)
    (version : String) (client : Request → HTTPOutcome jpdGetResponseAPIModel)
    (plan : jpdResourceModel) (jpd : jpdPostRequestAPIModel) (statusCode : Nat) (body : String)
    (result : jpdGetResponseAPIModel)
    (hconv : plan.toAPIModel CheckVersion version = some (jpd, []))
    (hcall : client (jpdResource.Create.request jpd) = .response statusCode body result)
    (hok : IsError statusCode = false)
    (hclean : (plan.fromAPIModel result).2.HasError = false) :
    jpdResource.Create CheckVersion version client plan CreateResponse.fresh =
      some
        ({ Diagnostics := [], State := some (plan.fromAPIModel result).1 },
          [jpdResource.Create.request jpd]) := by
  have hnil := jpd_fromAPIModel_clean plan result hclean
  simp only [jpdResource.Create, hconv, CreateResponse.fresh, append_nil_diagnostics,
    hasError_nil, Bool.false_eq_true, if_false, hcall, hok, hnil]

theorem jpd_create_conversion_error (CheckVersion : String → String → Except String Bool)
    (version : String) (client : Request → HTTPOutcome jpdGetResponseAPIModel)
    (plan : jpdResourceModel) (jpd : jpdPostRequestAPIModel) (statusCode : Nat) (body : String)
    (result : jpdGetResponseAPIModel)
    (hconv : plan.toAPIModel CheckVersion version = some (jpd, []))
    (hcall : client (jpdResource.Create.request jpd) = .response statusCode body result)
    (hok : IsError statusCode = false)
    (herr : (plan.fromAPIModel result).2.HasError = true) :
    jpdResource.Create CheckVersion version client plan CreateResponse.fresh =
      some
        ({ Diagnostics := Diagnostics.Append [] (plan.fromAPIModel result).2, State := none },
          [jpdResource.Create.request jpd]) := by
  have h2 : (Diagnostics.Append [] (plan.fromAPIModel result).2).HasError = true := by
    rw [hasError_Append_nil_left, herr]
  simp only [jpdResource.Create, hconv, CreateResponse.fresh, append_nil_diagnostics,
    hasError_nil, Bool.false_eq_true, if_false, hcall, hok, h2, if_true]

theorem licenseBucket_create_success (ReadFile : String → Except String (List Nat))
    (client : Request → HTTPOutcome licenseBucketPostResponseAPIModel)
    (plan : licenseBucketResourceModel) (request : Request) (statusCode : Nat) (body : String)
    (result : licenseBucketPostResponseAPIModel)
    (hreq : (licenseBucketResource.Create ReadFile client plan CreateResponse.fresh).2 = [request])
    (hcall : client request = .response statusCode body result)
    (hok : IsError statusCode = false) :
    (licenseBucketResource.Create ReadFile client plan CreateResponse.fresh).1 =
      { Diagnostics := [], State := some (plan.fromAPIModel result).1 } := by
  have hfinish : licenseBucketResource.Create.finish CreateResponse.fresh plan
      (.response statusCode body result) =
        { Diagnostics := [], State := some (plan.fromAPIModel result).1 } := by
    simp [licenseBucketResource.Create.finish, hok, CreateResponse.fresh,
      licenseBucketResourceModel.fromAPIModel, append_nil_diagnostics, hasError_nil]
  unfold licenseBucketResource.Create at hreq ⊢
  split
  · rename_i hurl
    simp only [hurl, if_true, List.cons.injEq, and_true] at hreq
    subst hreq
    simp only []
    rw [hcall, hfinish]
  · rename_i hurl
    simp only [hurl, if_false] at hreq
    cases hfile : ReadFile plan.File.ValueString with
    | error err =>
      rw [hfile] at hreq
      simp at hreq
    | ok fileBytes =>
      rw [hfile] at hreq
      simp only [List.cons.injEq, and_true] at hreq
      subst hreq
      simp only []
      rw [hcall, hfinish]

/-- C24 (refutation of the claim as stated). Two mesh plans that differ only in
the caller-supplied `ids` are created against a remote that gives both the same
answer: the stored values of the computed `id` differ, `JPD-1:JPD-2` against
`JPD-1:JPD-3`. -/
theorem mesh_create_id_depends_on_plan :
    (accessFederationMeshResource.Create meshRemoteOK sampleMesh CreateResponse.fresh).1 =
        { Diagnostics := [], State := some { sampleMesh with ID := .value "JPD-1:JPD-2" } } ∧
      (accessFederationMeshResource.Create meshRemoteOK sampleMeshOther CreateResponse.fresh).1 =
        { Diagnostics := []
          State := some { sampleMeshOther with ID := .value "JPD-1:JPD-3" } } ∧
      sampleMesh.Entities = sampleMeshOther.Entities ∧ sampleMesh.ID = sampleMeshOther.ID ∧
      meshRemoteOK
          { method := "POST", endpoint := accessFederationMeshEndpoint, pathParams := []
            queryParams := []
            body := .accessFederationMesh (sampleMesh.toAPIModel).1 } =
        meshRemoteOK
          { method := "POST", endpoint := accessFederationMeshEndpoint, pathParams := []
            queryParams := []
            body := .accessFederationMesh (sampleMeshOther.toAPIModel).1 } := by
  exact ⟨rfl, rfl, rfl, rfl, rfl⟩

/-- C24 (amended). For the JPD and license-bucket resources, two successful
`Create` calls that receive the same API response store identical values for
every computed attribute, whatever their plans hold (JPD id, base_url, licenses,
services, status, local, is_cold_storage, cold_storage_jpd; bucket id, subject,
product_name, product_id, license_type, issued_date, valid_date, quantity,
signature, used).  A JPD `Create` whose call succeeds is successful exactly
when the conversion of the response reports no error, which depends on the
response alone (it fails when the response repeats a status warning or a tag);
otherwise both calls add the same errors and store no state.  For the mesh
resource the computed `id` is not taken from the API response: a successful
`Create` stores the plan's ids joined with colons, whatever the response
holds. -/
theorem computed_attributes_from_response :
    (∀ (CheckVersion : String → String → Except String Bool) (version : String)
        (client : Request → HTTPOutcome jpdGetResponseAPIModel) (plan1 plan2 : jpdResourceModel)
        (jpd1 jpd2 : jpdPostRequestAPIModel) (code1 code2 : Nat) (body1 body2 : String)
        (result : jpdGetResponseAPIModel),
        plan1.toAPIModel CheckVersion version = some (jpd1, []) →
        plan2.toAPIModel CheckVersion version = some (jpd2, []) →
        client (jpdResource.Create.request jpd1) = .response code1 body1 result →
        IsError code1 = false →
        client (jpdResource.Create.request jpd2) = .response code2 body2 result →
        IsError code2 = false →
        (plan1.fromAPIModel result).2 = (plan2.fromAPIModel result).2 ∧
          ((plan1.fromAPIModel result).2.HasError = true ↔
            (¬ result.Status.Warnings.toList.Nodup ∨ ¬ result.Tags.toList.Nodup)) ∧
          ((plan1.fromAPIModel result).2.HasError = false →
            ∃ st1 st2,
              jpdResource.Create CheckVersion version client plan1 CreateResponse.fresh =
                  some
                    ({ Diagnostics := [], State := some st1 },
                      [jpdResource.Create.request jpd1]) ∧
                jpdResource.Create CheckVersion version client plan2 CreateResponse.fresh =
                  some
                    ({ Diagnostics := [], State := some st2 },
                      [jpdResource.Create.request jpd2]) ∧
                st1.ID = st2.ID ∧ st1.BaseURL = st2.BaseURL ∧ st1.Licenses = st2.Licenses ∧
                st1.Services = st2.Services ∧ st1.Status = st2.Status ∧ st1.Local = st2.Local ∧
                st1.IsColdStorage = st2.IsColdStorage ∧
                st1.ColdStorageJPD = st2.ColdStorageJPD) ∧
          ((plan1.fromAPIModel result).2.HasError = true →
            jpdResource.Create CheckVersion version client plan1 CreateResponse.fresh =
                some
                  ({ Diagnostics := Diagnostics.Append [] (plan1.fromAPIModel result).2
                     State := none }, [jpdResource.Create.request jpd1]) ∧
              jpdResource.Create CheckVersion version client plan2 CreateResponse.fresh =
                some
                  ({ Diagnostics := Diagnostics.Append [] (plan1.fromAPIModel result).2
                     State := none }, [jpdResource.Create.request jpd2]))) ∧
      (∀ (ReadFile : String → Except String (List Nat))
        (client : Request → HTTPOutcome licenseBucketPostResponseAPIModel)
        (plan1 plan2 : licenseBucketResourceModel) (request1 request2 : Request)
        (code1 code2 : Nat) (body1 body2 : String) (result : licenseBucketPostResponseAPIModel),
        (licenseBucketResource.Create ReadFile client plan1 CreateResponse.fresh).2 = [request1] →
        client request1 = .response code1 body1 result → IsError code1 = false →
        (licenseBucketResource.Create ReadFile client plan2 CreateResponse.fresh).2 = [request2] →
        client request2 = .response code2 body2 result → IsError code2 = false →
        ∃ st1 st2,
          (licenseBucketResource.Create ReadFile client plan1 CreateResponse.fresh).1 =
              { Diagnostics := [], State := some st1 } ∧
            (licenseBucketResource.Create ReadFile client plan2 CreateResponse.fresh).1 =
              { Diagnostics := [], State := some st2 } ∧
            st1.ID = st2.ID ∧ st1.Subject = st2.Subject ∧ st1.ProductName = st2.ProductName ∧
            st1.ProductID = st2.ProductID ∧ st1.LicenseType = st2.LicenseType ∧
            st1.IssuedDate = st2.IssuedDate ∧ st1.ValidDate = st2.ValidDate ∧
            st1.Quantity = st2.Quantity ∧ st1.Signature = st2.Signature ∧
            st1.Used = st2.Used) ∧
      (∀ (client : Request → HTTPOutcome (GoSlice accessFederationResponseAPIModel))
        (plan : accessFederationMeshResourceModel) (ids : List String) (entities : GoSlice String)
        (statusCode : Nat) (body : String) (results : GoSlice accessFederationResponseAPIModel),
        ElementsAs plan.IDs = (.mk ids, []) → ElementsAs plan.Entities = (entities, []) →
        client
            { method := "POST", endpoint := accessFederationMeshEndpoint, pathParams := []
              queryParams := []
              body := .accessFederationMesh { IDs := .mk ids, Entities := entities } }
          = .response statusCode body results →
        IsError statusCode = false →
        (accessFederationMeshResource.Create client plan CreateResponse.fresh).1 =
          { Diagnostics := []
            State := some { plan with ID := .value (strings.Join ids ":") } }) := by
  refine ⟨?_, ?_, ?_⟩
  · intro CheckVersion version client plan1 plan2 jpd1 jpd2 code1 code2 body1 body2 result
      hconv1 hconv2 hcall1 hok1 hcall2 hok2
    refine ⟨rfl, jpd_fromAPIModel_hasError_iff plan1 result, ?_, ?_⟩
    · intro hclean
      exact ⟨_, _,
        jpd_create_success CheckVersion version client plan1 jpd1 code1 body1 result hconv1
          hcall1 hok1 hclean,
        jpd_create_success CheckVersion version client plan2 jpd2 code2 body2 result hconv2
          hcall2 hok2 hclean,
        rfl, rfl, rfl, rfl, rfl, rfl, rfl, rfl⟩
    · intro herr
      exact ⟨jpd_create_conversion_error CheckVersion version client plan1 jpd1 code1 body1
          result hconv1 hcall1 hok1 herr,
        jpd_create_conversion_error CheckVersion version client plan2 jpd2 code2 body2 result
          hconv2 hcall2 hok2 herr⟩
  · intro ReadFile client plan1 plan2 request1 request2 code1 code2 body1 body2 result
      hreq1 hcall1 hok1 hreq2 hcall2 hok2
    exact ⟨_, _,
      licenseBucket_create_success ReadFile client plan1 request1 code1 body1 result hreq1 hcall1
        hok1,
      licenseBucket_create_success ReadFile client plan2 request2 code2 body2 result hreq2 hcall2
        hok2,
      rfl, rfl, rfl, rfl, rfl, rfl, rfl, rfl, rfl, rfl⟩
  · intro client plan ids entities statusCode body results hids hents hcall hok
    rw [mesh_create_stores client plan CreateResponse.fresh ids entities statusCode body results
      hids hents rfl hcall hok]
    rfl

/-- Witness of C24 (amended): the same create response for a bucket created
from a url and a bucket created from a file gives the same computed id. -/
theorem computed_attributes_from_response_witness :
    ∃ st1 st2,
      (licenseBucketResource.Create oneFile (remoteCreated sampleBucketResponse) sampleBucketURL
          CreateResponse.fresh).1 = { Diagnostics := [], State := some st1 } ∧
        (licenseBucketResource.Create oneFile (remoteCreated sampleBucketResponse)
          sampleBucketFile CreateResponse.fresh).1 = { Diagnostics := [], State := some st2 } ∧
        st1.ID = st2.ID :=
  have h := computed_attributes_from_response.2.1 oneFile (remoteCreated sampleBucketResponse)
    sampleBucketURL sampleBucketFile _ _ 201 201 "" "" sampleBucketResponse rfl rfl rfl rfl rfl rfl
  let ⟨st1, st2, h1, h2, h3, _⟩ := h
  ⟨st1, st2, h1, h2, h3⟩

/-! ### Mesh refresh selection -/

theorem mesh_matches_iff (S : GoSlice String) (entry : accessFederationGetAllResponseAPIModel) :
    accessFederationMeshResource.Read.matches S entry = true ↔ meshEntryWithin S.toList entry := by
  simp only [accessFederationMeshResource.Read.matches, Bool.and_eq_true, lo.Contains,
    decide_eq_true_eq, lo.Every, List.all_eq_true, lo.Map, GoSlice.toList, meshEntryWithin,
    List.mem_map, forall_exists_index, and_imp, forall_apply_eq_imp_iff₂]

theorem mesh_read_not_found
    (client : Request → HTTPOutcome (GoSlice accessFederationGetAllResponseAPIModel))
    (state prior : accessFederationMeshResourceModel) (statusCode : Nat) (body : String)
    (L : GoSlice accessFederationGetAllResponseAPIModel) (S : GoSlice String)
    (hcall : client accessFederationMeshResource.Read.request = .response statusCode body L)
    (hok : IsError statusCode = false)
    (hids : ElementsAs state.IDs = (S, []))
    (hfind : lo.Find L (accessFederationMeshResource.Read.matches S) = none) :
    accessFederationMeshResource.Read client state { Diagnostics := [], State := prior } =
      ({ Diagnostics :=
           [⟨.error, "Unable to Refresh Resource",
             refreshErrorIntro ++ meshNotFoundMessage S.toList⟩]
         State := prior }, [accessFederationMeshResource.Read.request]) := by
  simp [accessFederationMeshResource.Read, hcall, hok, hids, append_nil_diagnostics, hasError_nil,
    hfind, unableToRefresh_fresh, meshNotFoundMessage]

theorem notFound_ne_duplicate (text x : String) :
    (⟨.error, "Unable to Refresh Resource", text⟩ : Diagnostic) ≠ duplicateSetElement x := by
  intro h
  have hs := congrArg Diagnostic.summary h
  simp only [duplicateSetElement] at hs
  exact absurd hs (by decide)

/-- C27. For every mesh state whose ids convert to `S` and every successfully
fetched federation listing `L`: if some entry of `L` has its source in `S` and
all of its target ids in `S`, `Read` selects the first such entry in listing
order; its source and target ids are members of `S`; when they are pairwise
distinct `Read` adds no diagnostic and stores the state refreshed from the
entry, and when the entry repeats an id `Read` adds the `Duplicate Set Element`
errors of the conversion, not the refresh error, and leaves the state as it was.
If no entry of `L` satisfies the condition, `Read` adds one refresh error whose
message names the ids of `S` and leaves the state as it was.  So the refresh
error naming the ids is added if and only if no entry satisfies the condition,
and after every `Read` without error the refreshed ids are those of the selected
entry: a subset of `S` that contains its source. -/
theorem mesh_read_selects_first_within
    (client : Request → HTTPOutcome (GoSlice accessFederationGetAllResponseAPIModel))
    (state prior : accessFederationMeshResourceModel) (statusCode : Nat) (body : String)
    (L : GoSlice accessFederationGetAllResponseAPIModel) (S : GoSlice String)
    (hcall : client accessFederationMeshResource.Read.request = .response statusCode body L)
    (hok : IsError statusCode = false)
    (hids : ElementsAs state.IDs = (S, [])) :
    ((∃ e ∈ L.toList, meshEntryWithin S.toList e) →
        ∃ e before after,
          L.toList = before ++ e :: after ∧ meshEntryWithin S.toList e ∧
            (∀ x ∈ before, ¬ meshEntryWithin S.toList x) ∧
            ((e.Source :: e.Targets.toList.map (fun target => target.ID)).Nodup →
              accessFederationMeshResource.Read client state
                  { Diagnostics := [], State := prior } =
                ({ Diagnostics := [], State := (state.fromAPIModel e).1 },
                  [accessFederationMeshResource.Read.request]) ∧
              (state.fromAPIModel e).1.IDs =
                .value ((e.Source :: e.Targets.toList.map (fun target => target.ID)).map
                  TFValue.value)) ∧
            (¬ (e.Source :: e.Targets.toList.map (fun target => target.ID)).Nodup →
              accessFederationMeshResource.Read client state
                  { Diagnostics := [], State := prior } =
                ({ Diagnostics := Diagnostics.Append [] (state.fromAPIModel e).2
                   State := prior }, [accessFederationMeshResource.Read.request]) ∧
              (Diagnostics.Append [] (state.fromAPIModel e).2).HasError = true ∧
              ∀ d ∈ Diagnostics.Append [] (state.fromAPIModel e).2,
                ∃ x ∈ e.Source :: e.Targets.toList.map (fun target => target.ID),
                  d = duplicateSetElement x) ∧
            (∀ i ∈ e.Source :: e.Targets.toList.map (fun target => target.ID), i ∈ S.toList) ∧
            e.Source ∈ e.Source :: e.Targets.toList.map (fun target => target.ID)) ∧
      ((¬ ∃ e ∈ L.toList, meshEntryWithin S.toList e) →
        accessFederationMeshResource.Read client state { Diagnostics := [], State := prior } =
            ({ Diagnostics :=
                 [⟨.error, "Unable to Refresh Resource",
                   refreshErrorIntro ++ meshNotFoundMessage S.toList⟩]
               State := prior }, [accessFederationMeshResource.Read.request]) ∧
          strings.Contains (refreshErrorIntro ++ meshNotFoundMessage S.toList)
            (strings.Join S.toList ", ") = true) ∧
      (((⟨.error, "Unable to Refresh Resource",
            refreshErrorIntro ++ meshNotFoundMessage S.toList⟩ : Diagnostic) ∈
          (accessFederationMeshResource.Read client state
            { Diagnostics := [], State := prior }).1.Diagnostics) ↔
        ¬ ∃ e ∈ L.toList, meshEntryWithin S.toList e) ∧
      ((accessFederationMeshResource.Read client state
            { Diagnostics := [], State := prior }).1.Diagnostics.HasError = false →
        ∃ e ∈ L.toList, meshEntryWithin S.toList e ∧
          (accessFederationMeshResource.Read client state
              { Diagnostics := [], State := prior }).1.State.IDs =
            .value ((e.Source :: e.Targets.toList.map (fun target => target.ID)).map
              TFValue.value) ∧
          (∀ i ∈ e.Source :: e.Targets.toList.map (fun target => target.ID), i ∈ S.toList) ∧
          e.Source ∈ e.Source :: e.Targets.toList.map (fun target => target.ID)) := by
  have hfound : (∃ e ∈ L.toList, meshEntryWithin S.toList e) →
      ∃ e before after,
        L.toList = before ++ e :: after ∧ meshEntryWithin S.toList e ∧
          (∀ x ∈ before, ¬ meshEntryWithin S.toList x) ∧
          lo.Find L (accessFederationMeshResource.Read.matches S) = some e := by
    intro hex
    cases hfind : lo.Find L (accessFederationMeshResource.Read.matches S) with
    | none =>
      obtain ⟨e, he, hin⟩ := hex
      simp only [lo.Find, List.find?_eq_none] at hfind
      exact absurd ((mesh_matches_iff S e).mpr hin) (by simpa using hfind e he)
    | some e =>
      have hsome := hfind
      simp only [lo.Find, List.find?_eq_some] at hsome
      obtain ⟨hp, before, after, hL, hbefore⟩ := hsome
      refine ⟨e, before, after, hL, (mesh_matches_iff S e).mp hp, ?_, rfl⟩
      intro x hx hin
      have := hbefore x hx
      simp [(mesh_matches_iff S x).mpr hin] at this
  have hclean : ∀ e, lo.Find L (accessFederationMeshResource.Read.matches S) = some e →
      (e.Source :: e.Targets.toList.map (fun target => target.ID)).Nodup →
      accessFederationMeshResource.Read client state { Diagnostics := [], State := prior } =
        ({ Diagnostics := [], State := (state.fromAPIModel e).1 },
          [accessFederationMeshResource.Read.request]) := by
    intro e hfind hnd
    exact mesh_read_found client state { Diagnostics := [], State := prior } statusCode body
      L S e hcall hok hids rfl hfind hnd
  have hrep : ∀ e, lo.Find L (accessFederationMeshResource.Read.matches S) = some e →
      ¬ (e.Source :: e.Targets.toList.map (fun target => target.ID)).Nodup →
      accessFederationMeshResource.Read client state { Diagnostics := [], State := prior } =
        ({ Diagnostics := Diagnostics.Append [] (state.fromAPIModel e).2, State := prior },
          [accessFederationMeshResource.Read.request]) := by
    intro e hfind hnd
    exact mesh_read_found_repeated client state { Diagnostics := [], State := prior } statusCode
      body L S e hcall hok hids rfl hfind hnd
  have hmissing : (¬ ∃ e ∈ L.toList, meshEntryWithin S.toList e) →
      accessFederationMeshResource.Read client state { Diagnostics := [], State := prior } =
        ({ Diagnostics :=
             [⟨.error, "Unable to Refresh Resource",
               refreshErrorIntro ++ meshNotFoundMessage S.toList⟩]
           State := prior }, [accessFederationMeshResource.Read.request]) := by
    intro hno
    apply mesh_read_not_found client state prior statusCode body L S hcall hok hids
    simp only [lo.Find, List.find?_eq_none]
    intro e he hm
    exact hno ⟨e, he, (mesh_matches_iff S e).mp (by simpa using hm)⟩
  have hsubset : ∀ e, meshEntryWithin S.toList e →
      ∀ i ∈ e.Source :: e.Targets.toList.map (fun target => target.ID), i ∈ S.toList := by
    intro e hin i hi
    rcases List.mem_cons.mp hi with rfl | hi
    · exact hin.1
    · obtain ⟨t, ht, rfl⟩ := List.mem_map.mp hi
      exact hin.2 t ht
  have hdiags : ∀ e, ¬ (e.Source :: e.Targets.toList.map (fun target => target.ID)).Nodup →
      (Diagnostics.Append [] (state.fromAPIModel e).2).HasError = true ∧
        ∀ d ∈ Diagnostics.Append [] (state.fromAPIModel e).2,
          ∃ x ∈ e.Source :: e.Targets.toList.map (fun target => target.ID),
            d = duplicateSetElement x := by
    intro e hnd
    refine ⟨?_, ?_⟩
    · rw [hasError_Append_nil_left]
      exact (mesh_fromAPIModel_hasError_iff state e).mpr hnd
    · intro d hd
      rw [mem_Append] at hd
      rcases hd with hd | hd
      · simp at hd
      · exact mesh_fromAPIModel_diags state e d hd
  refine ⟨?_, ?_, ?_, ?_⟩
  · intro hex
    obtain ⟨e, before, after, hL, hin, hbefore, hfind⟩ := hfound hex
    refine ⟨e, before, after, hL, hin, hbefore, ?_, ?_, hsubset e hin, List.mem_cons_self _ _⟩
    · intro hnd
      refine ⟨hclean e hfind hnd, ?_⟩
      rw [mesh_fromAPIModel_distinct state e hnd]
    · intro hnd
      exact ⟨hrep e hfind hnd, hdiags e hnd⟩
  · intro hno
    refine ⟨hmissing hno, ?_⟩
    have h := contains_infix
      (refreshErrorIntro ++ "unabled to find Access Federation Configurations for JPDs: ")
      (strings.Join S.toList ", ") ""
    simpa [meshNotFoundMessage, String.append_assoc] using h
  · constructor
    · intro hmem hex
      obtain ⟨e, _, _, _, _, _, hfind⟩ := hfound hex
      by_cases hnd : (e.Source :: e.Targets.toList.map (fun target => target.ID)).Nodup
      · rw [hclean e hfind hnd] at hmem
        simp at hmem
      · rw [hrep e hfind hnd] at hmem
        obtain ⟨x, _, hx⟩ := (hdiags e hnd).2 _ hmem
        exact notFound_ne_duplicate _ x hx
    · intro hno
      rw [hmissing hno]
      exact List.mem_singleton.mpr rfl
  · intro hnoerr
    by_cases hex : ∃ e ∈ L.toList, meshEntryWithin S.toList e
    · obtain ⟨e, before, after, hL, hin, _, hfind⟩ := hfound hex
      have hmem : e ∈ L.toList := by
        rw [hL]
        exact List.mem_append_right _ (List.mem_cons_self _ _)
      by_cases hnd : (e.Source :: e.Targets.toList.map (fun target => target.ID)).Nodup
      · refine ⟨e, hmem, hin, ?_, hsubset e hin, List.mem_cons_self _ _⟩
        rw [hclean e hfind hnd, mesh_fromAPIModel_distinct state e hnd]
      · rw [hrep e hfind hnd] at hnoerr
        rw [(hdiags e hnd).1] at hnoerr
        exact Bool.noConfusion hnoerr
    · rw [hmissing hex] at hnoerr
      simp [hasError_cons] at hnoerr

/-- Witness of C27 on the three-participant state and the listing that links
`JPD-1` to `JPD-2`: the refresh error is added exactly when no entry fits. -/
theorem mesh_read_selects_first_within_witness :
    ((⟨.error, "Unable to Refresh Resource",
          refreshErrorIntro ++ meshNotFoundMessage (GoSlice.mk ["JPD-1", "JPD-2", "JPD-3"]).toList⟩ :
          Diagnostic) ∈
        (accessFederationMeshResource.Read (meshRemoteListing sampleListingPair) sampleMesh3
          { Diagnostics := [], State := sampleMesh3 }).1.Diagnostics) ↔
      ¬ ∃ e ∈ sampleListingPair.toList,
        meshEntryWithin (GoSlice.mk ["JPD-1", "JPD-2", "JPD-3"]).toList e :=
  (mesh_read_selects_first_within (meshRemoteListing sampleListingPair) sampleMesh3 sampleMesh3
    200 "" sampleListingPair (.mk ["JPD-1", "JPD-2", "JPD-3"]) rfl rfl rfl).2.2.1

/-! ### Mesh response conversion -/

/-- C28 (refutation of the claim as stated). On a federation entry whose target
has the id of the source, `fromAPIModel` does not set `ids` to the source
followed by the target ids: `ids` is unknown and the error `Duplicate Set
Element` is returned. -/
theorem mesh_fromAPIModel_repeated_id :
    sampleMesh.fromAPIModel sampleEntryRepeatedID =
      ({ ID := .value "JPD-1:JPD-1"
         IDs := .unknown
         Entities := .value [.value "USERS"] }, [duplicateSetElement "JPD-1"]) ∧
      (sampleMesh.fromAPIModel sampleEntryRepeatedID).1.IDs ≠
        .value [.value "JPD-1", .value "JPD-1"] := by
  refine ⟨rfl, ?_⟩
  decide

/-- C28 (amended). For every federation entry `e`, `fromAPIModel` sets `id` to
the source of `e` followed by the ids of `e`'s targets, in response order,
joined with colons, and sets `entities` to the known set of the entities of all
targets of `e` with duplicates removed: each value once, in first-occurrence
order (the list `U` below has no duplicates, has the same members as the
concatenated entities, and is their first-occurrence deduplication, which keeps
the head and drops its later copies); the set is empty when `e` has no targets.
When the source and the target ids are pairwise distinct it sets `ids` to the
source followed by the target ids, in response order, and adds no diagnostic;
when the entry repeats an id, `ids` is unknown and the diagnostics are
`Duplicate Set Element` errors, each for an id of the entry. -/
theorem mesh_fromAPIModel_fields (r : accessFederationMeshResourceModel)
    (e : accessFederationGetAllResponseAPIModel) :
    (r.fromAPIModel e).1.ID =
        .value (strings.Join (e.Source :: e.Targets.toList.map (fun target => target.ID)) ":") ∧
      (∃ U : List String,
        (r.fromAPIModel e).1.Entities = .value (U.map TFValue.value) ∧ U.Nodup ∧
          (∀ x, x ∈ U ↔ ∃ target ∈ e.Targets.toList, x ∈ target.Entities.toList) ∧
          U = uniqFrom [] (e.Targets.toList.flatMap (fun target => target.Entities.toList))) ∧
      (uniqFrom ([] : List String) [] = [] ∧
        ∀ (x : String) (xs : List String),
          uniqFrom [] (x :: xs) = x :: (uniqFrom [] xs).filter (fun y => decide (y ≠ x))) ∧
      (e.Targets.toList = [] → (r.fromAPIModel e).1.Entities = .value []) ∧
      ((e.Source :: e.Targets.toList.map (fun target => target.ID)).Nodup →
        (r.fromAPIModel e).1.IDs =
            .value ((e.Source :: e.Targets.toList.map (fun target => target.ID)).map
              TFValue.value) ∧
          (r.fromAPIModel e).2 = []) ∧
      (¬ (e.Source :: e.Targets.toList.map (fun target => target.ID)).Nodup →
        (r.fromAPIModel e).1.IDs = .unknown ∧ (r.fromAPIModel e).2.HasError = true ∧
          ∀ d ∈ (r.fromAPIModel e).2,
            ∃ x ∈ e.Source :: e.Targets.toList.map (fun target => target.ID),
              d = duplicateSetElement x) ∧
      ((r.fromAPIModel e).2.HasError = true ↔
        ¬ (e.Source :: e.Targets.toList.map (fun target => target.ID)).Nodup) := by
  have hent : (r.fromAPIModel e).1.Entities =
      .value ((uniqFrom [] (e.Targets.toList.flatMap
        (fun target => target.Entities.toList))).map TFValue.value) := by
    by_cases hnd : (e.Source :: e.Targets.toList.map (fun target => target.ID)).Nodup
    · rw [mesh_fromAPIModel_distinct r e hnd]
    · rw [mesh_fromAPIModel_repeated r e hnd]
  refine ⟨?_, ⟨_, hent, nodup_uniqFrom _ _, ?_, rfl⟩, ⟨rfl, uniqFrom_nil_cons⟩, ?_, ?_, ?_,
    mesh_fromAPIModel_hasError_iff r e⟩
  · by_cases hnd : (e.Source :: e.Targets.toList.map (fun target => target.ID)).Nodup
    · rw [mesh_fromAPIModel_distinct r e hnd]
    · rw [mesh_fromAPIModel_repeated r e hnd]
  · intro x
    simp [mem_uniqFrom, List.mem_flatMap]
  · intro hnone
    rw [hent, hnone]
    rfl
  · intro hnd
    rw [mesh_fromAPIModel_distinct r e hnd]
    exact ⟨rfl, rfl⟩
  · intro hnd
    refine ⟨?_, (mesh_fromAPIModel_hasError_iff r e).mpr hnd, mesh_fromAPIModel_diags r e⟩
    rw [mesh_fromAPIModel_repeated r e hnd]

/-- Witness of C28 (amended) on the entry that links `JPD-1` to `JPD-2`: the ids
are the source followed by the target id, without diagnostic. -/
theorem mesh_fromAPIModel_fields_witness :
    (sampleMesh.fromAPIModel
        { Source := "JPD-1"
          Targets := .mk
            [{ ID := "JPD-2", URL := "http://host.docker.internal:9082/access"
               PermissionFilters := { IncludePatterns := .nil, ExcludePatterns := .nil }
               Entities := .mk ["USERS"] }] }).1.IDs =
      .value [.value "JPD-1", .value "JPD-2"] :=
  ((mesh_fromAPIModel_fields sampleMesh
      { Source := "JPD-1"
        Targets := .mk
          [{ ID := "JPD-2", URL := "http://host.docker.internal:9082/access"
             PermissionFilters := { IncludePatterns := .nil, ExcludePatterns := .nil }
             Entities := .mk ["USERS"] }] }).2.2.2.2.1 (by decide)).1

/-! ### JPD credentials and version check -/

/-- C29. For every JPD model and every API response, `fromAPIModel` leaves
`token`, `username` and `password` as they were, and overwrites every other
attribute of the model from the response: the result is the same for every
model apart from these three attributes, with `id`, `name`, `url`, `base_url`,
`local` and `is_cold_storage` the known values of the response fields. -/
theorem jpd_fromAPIModel_keeps_credentials (r other : jpdResourceModel)
    (apiModel : jpdGetResponseAPIModel) :
    (r.fromAPIModel apiModel).1.Token = r.Token ∧
      (r.fromAPIModel apiModel).1.Username = r.Username ∧
      (r.fromAPIModel apiModel).1.Password = r.Password ∧
      (r.fromAPIModel apiModel).1 =
        { (other.fromAPIModel apiModel).1 with
            Token := r.Token, Username := r.Username, Password := r.Password } ∧
      (r.fromAPIModel apiModel).1.ID = .value apiModel.ID ∧
      (r.fromAPIModel apiModel).1.Name = .value apiModel.Name ∧
      (r.fromAPIModel apiModel).1.URL = .value apiModel.URL ∧
      (r.fromAPIModel apiModel).1.BaseURL = .value apiModel.BaseURL ∧
      (r.fromAPIModel apiModel).1.Local = .value apiModel.Local ∧
      (r.fromAPIModel apiModel).1.IsColdStorage = .value apiModel.IsColdStorage ∧
      (r.fromAPIModel apiModel).1.Location = (other.fromAPIModel apiModel).1.Location ∧
      (r.fromAPIModel apiModel).1.Services = (other.fromAPIModel apiModel).1.Services ∧
      (r.fromAPIModel apiModel).1.Licenses = (other.fromAPIModel apiModel).1.Licenses ∧
      (r.fromAPIModel apiModel).1.Tags = (other.fromAPIModel apiModel).1.Tags ∧
      (r.fromAPIModel apiModel).1.Status = (other.fromAPIModel apiModel).1.Status ∧
      (r.fromAPIModel apiModel).1.ColdStorageJPD =
        (other.fromAPIModel apiModel).1.ColdStorageJPD := by
  exact ⟨rfl, rfl, rfl, rfl, rfl, rfl, rfl, rfl, rfl, rfl, rfl, rfl, rfl, rfl, rfl, rfl⟩

/-- C30. For every JPD model with a location object (the schema requires one)
and every version string on which the version check fails, `toAPIModel` returns
with the error diagnostic `faild to check version` carrying the reason, and
`jpdResource.Create` and `Update` called with such a version add the diagnostics
of the conversion, that error among them, issue no HTTP request and store no
state: `Create` leaves the state unset and `Update` leaves the prior state. -/
theorem jpd_version_check_failure (CheckVersion : String → String → Except String Bool)
    (m : jpdResourceModel) (v err : String) (loc : LocationAttrs)
    (hv : CheckVersion v "7.0.0" = .error err) (hloc : m.Location = .value loc) :
    ∃ api ds,
      m.toAPIModel CheckVersion v = some (api, ds) ∧
        (⟨.error, "faild to check version", err⟩ : Diagnostic) ∈ ds ∧ ds.HasError = true ∧
        (⟨.error, "faild to check version", err⟩ : Diagnostic) ∈ Diagnostics.Append [] ds ∧
        (∀ client : Request → HTTPOutcome jpdGetResponseAPIModel,
          jpdResource.Create CheckVersion v client m CreateResponse.fresh =
            some ({ Diagnostics := Diagnostics.Append [] ds, State := none }, [])) ∧
        (∀ (client : Request → HTTPOutcome jpdGetResponseAPIModel) (state prior : jpdResourceModel),
          jpdResource.Update CheckVersion v client m state { Diagnostics := [], State := prior } =
            some ({ Diagnostics := Diagnostics.Append [] ds, State := prior }, [])) := by
  have hconv : m.toAPIModel CheckVersion v =
      some
        ({ Name := m.Name.ValueString, URL := m.URL.ValueString, Token := ""
           Username := m.Username.ValueString, Password := m.Password.ValueString
           Location :=
             { CityName := loc.city_name.ValueString, CountryCode := loc.country_code.ValueString
               Latitude := loc.latitude.ValueFloat64, Longitude := loc.longitude.ValueFloat64 }
           Tags := (ElementsAs m.Tags).1 },
          Diagnostics.AddError (Diagnostics.Append [] (ElementsAs m.Tags).2)
            "faild to check version" err) := by
    simp [jpdResourceModel.toAPIModel, hloc, hv, TFValue.Attributes]
  have hmem : (⟨.error, "faild to check version", err⟩ : Diagnostic) ∈
      Diagnostics.AddError (Diagnostics.Append [] (ElementsAs m.Tags).2)
        "faild to check version" err := by
    simp [Diagnostics.AddError, mem_Append]
  have herr : (Diagnostics.Append ([] : Diagnostics)
      (Diagnostics.AddError (Diagnostics.Append [] (ElementsAs m.Tags).2)
        "faild to check version" err)).HasError = true := by
    simp [hasError_Append, hasError_AddError]
  refine ⟨_, _, hconv, hmem, hasError_AddError _ _ _, ?_, ?_, ?_⟩
  · rw [mem_Append]
    exact Or.inr hmem
  · intro client
    simp [jpdResource.Create, hconv, CreateResponse.fresh, herr]
  · intro client state prior
    simp [jpdResource.Update, hconv, herr]

/-- Witness of C30 on the configuration of the acceptance test and a version text
that cannot be parsed. -/
theorem jpd_version_check_failure_witness :
    ∃ api ds,
      sampleJPD.toAPIModel checkVersionDotted "not-a-version" = some (api, ds) ∧
        (⟨.error, "faild to check version", "could not parse version (not-a-version)"⟩ :
          Diagnostic) ∈ ds ∧ ds.HasError = true ∧
        (⟨.error, "faild to check version", "could not parse version (not-a-version)"⟩ :
          Diagnostic) ∈ Diagnostics.Append [] ds ∧
        (∀ client : Request → HTTPOutcome jpdGetResponseAPIModel,
          jpdResource.Create checkVersionDotted "not-a-version" client sampleJPD
              CreateResponse.fresh =
            some ({ Diagnostics := Diagnostics.Append [] ds, State := none }, [])) ∧
        (∀ (client : Request → HTTPOutcome jpdGetResponseAPIModel) (state prior : jpdResourceModel),
          jpdResource.Update checkVersionDotted "not-a-version" client sampleJPD state
              { Diagnostics := [], State := prior } =
            some ({ Diagnostics := Diagnostics.Append [] ds, State := prior }, [])) :=
  jpd_version_check_failure checkVersionDotted sampleJPD "not-a-version"
    "could not parse version (not-a-version)" sampleLocation rfl rfl

end MissionControl
